import Mathlib

/-!
# libTAS: controller loop, input editor and main-thread registry

A shallow embedding of

* `src/libTAS/threads.cpp` (`getThreadId`, `setMainThread`, `isMainThread`),
* `src/linTAS/ui/InputEditorModel.cpp` (`buildInputSet`, `toggleInput`, `insertRows`,
  `removeRows`),
* `src/linTAS/game.cpp` (`haveFocus`, `launchGame`),
* `src/shared/sockethelpers.cpp` (`initSocketProgram`, `sendString`, `receiveString`),
* `src/linTAS/main.c` (`main`),
* `src/library/sdlversion.cpp` (`get_sdlversion`),

followed by the properties proved about them.

Conventions of the embedding.

* C++ objects become structures, member functions become functions on them.
* The socket is a pair of scripts: the values the coming `receiveMessage()` and
  `receiveData()` calls deliver.  A receive on an exhausted script is `Flow.blocked`.
* Everything the controller does to the outside world (socket sends, movie file
  operations) is appended, in program order, to `GameState.trace`.
* Declarations of headers that are not part of the sources at hand (`Context.h`,
  `MovieFile.h`, `AllInputs.h`, `messages.h`, the hotkey enumeration, Xlib) are
  collected in `Extern` and are parameters of every definition that uses them.
-/

namespace LibTAS

/-! ## threads.cpp -/

/-- The `pthread_t` thread identifier. -/
abbrev ThreadId := Nat

/-- `getThreadId`.  `pthread_self_real` is `none` for a null function pointer and
`some t` when calling it on the calling thread yields `t`. -/
def getThreadId (pthread_self_real : Option ThreadId) : ThreadId :=
  match pthread_self_real with
  | some t => t
  | none => 0

/-- `setMainThread`, as a function of the global `mainThread`; the result is the
new value of `mainThread`. -/
def setMainThread (pthread_self_real : Option ThreadId) (mainThread : ThreadId) : ThreadId :=
  if mainThread ≠ 0 then
    mainThread
  else
    match pthread_self_real with
    | some t => t
    | none => mainThread

/-- `isMainThread`; the C `int` result. -/
def isMainThread (pthread_self_real : Option ThreadId) (mainThread : ThreadId) : Int :=
  match pthread_self_real with
  | some t => if t = mainThread then 1 else 0
  | none => 1

/-- The value of `mainThread` after a sequence of `setMainThread` calls; each entry
of `calls` is the `pthread_self_real` seen by that call. -/
def setMainThreadRun (calls : List (Option ThreadId)) (mainThread : ThreadId) : ThreadId :=
  calls.foldl (fun m c => setMainThread c m) mainThread

/-- How many of the calls in `calls` change the value of `mainThread`. -/
def mainThreadChanges : List (Option ThreadId) → ThreadId → Nat
  | [], _ => 0
  | c :: cs, m =>
    (if setMainThread c m = m then 0 else 1) + mainThreadChanges cs (setMainThread c m)

/-! ## Data model -/

/-- The X11 `KeySym`. -/
abbrev KeySym := Nat

/-- The X11 `XK_VoidSymbol` (`<X11/keysymdef.h>`), the sentinel of a keyboard array. -/
def XK_VoidSymbol : KeySym := 0xffffff

/-- Modelled from the spec: `AllInputs` (declared in `AllInputs.h`, which is not
part of the sources): the keyboard key set (ordered, fixed capacity `MAXKEYS`,
sentinel-terminated), the pointer position and button mask, and per-controller axis
values and button bitmask.  `keyboard` is the `std::array<KeySym, MAXKEYS>`, so its
length stands for `AllInputs::MAXKEYS`; `controller_buttons` has `MAXJOYS` entries. -/
structure AllInputs where
  keyboard : List KeySym
  pointer_x : Int
  pointer_y : Int
  pointer_mask : Nat
  controller_axes : List (List Int)
  controller_buttons : List Nat
deriving DecidableEq, Repr

/-- The `SingleInput` of the key mapping: `type` is the `InputType` bit pattern,
`value` the `unsigned int` value. -/
structure SingleInput where
  type : Nat
  value : Nat
  description : String
deriving DecidableEq, Repr

/-- The part of `MovieFile` the controller and the input editor use: the list of
frames `input_list` (`movie->input_list`, `movie->nbFrames()`). -/
structure MovieFile where
  input_list : List AllInputs
deriving DecidableEq, Repr

/-- `MovieFile::nbFrames`. -/
def MovieFile.nbFrames (m : MovieFile) : Nat := m.input_list.length

/-- The movie files on disk: path and stored frames. -/
abbrev Files := List (String × List AllInputs)

/-- `Context::RecStatus`. -/
inductive RecStatus where
  | NO_RECORDING
  | RECORDING_WRITE
  | RECORDING_READ_WRITE
  | RECORDING_READ_ONLY
deriving DecidableEq, Repr

/-- `Context::RunStatus`, the values `launchGame` assigns and tests. -/
inductive RunStatus where
  | INACTIVE
  | STARTING
  | ACTIVE
  | QUITTING
  | RESTARTING
deriving DecidableEq, Repr

/-- The fields of `SharedConfig` that `launchGame` and the input editor touch. -/
structure SharedConfig where
  running : Bool
  fastforward : Bool
  av_dumping : Bool
  mouse_support : Bool
  movie_framecount : Nat
deriving DecidableEq, Repr

/-- The fields of `Config` (`context->config`) in use; `hotkey_mapping` and
`input_list` are those of `config.km`. -/
structure Config where
  sc : SharedConfig
  sc_modified : Bool
  dumpfile : String
  dumpfile_modified : Bool
  savestatedir : String
  moviefile : String
  hotkey_mapping : List (KeySym × Int)
  input_list : List SingleInput
deriving DecidableEq, Repr

/-- The fields of `Context` in use.  `framecount` is an `unsigned long`. -/
structure Context where
  config : Config
  framecount : Nat
  recording : RecStatus
  status : RunStatus
  game_window : Nat
  ui_window : Nat
  inputs_focus : Nat
  gamepath : String
  gamename : String
  game_pid : Nat
deriving DecidableEq, Repr

/-- Declarations this development takes from headers that are not part of the
sources: enumerators and constants, the member functions of `MovieFile`, and the
key-mapping helpers.  Every definition below is parametric in them. -/
structure Extern where
  /- the hotkey enumeration -/
  HOTKEY_FRAMEADVANCE : Int
  HOTKEY_PLAYPAUSE : Int
  HOTKEY_FASTFORWARD : Int
  HOTKEY_SAVEPSEUDOSTATE : Int
  HOTKEY_LOADPSEUDOSTATE : Int
  HOTKEY_SAVESTATE1 : Int
  HOTKEY_SAVESTATE9 : Int
  HOTKEY_LOADSTATE1 : Int
  HOTKEY_LOADSTATE9 : Int
  HOTKEY_READWRITE : Int
  HOTKEY_TOGGLE_ENCODE : Int
  /- messages.h, game to controller -/
  MSGB_PID : Int
  MSGB_END_INIT : Int
  MSGB_WINDOW_ID : Int
  MSGB_ERROR_MSG : Int
  MSGB_ENCODE_FAILED : Int
  MSGB_FRAMECOUNT : Int
  MSGB_QUIT : Int
  MSGB_START_FRAMEBOUNDARY : Int
  /- Context.h -/
  FOCUS_GAME : Nat
  FOCUS_UI : Nat
  FOCUS_ALL : Nat
  /- the input types of the key mapping and AllInputs.h -/
  IT_KEYBOARD : Nat
  IT_CONTROLLER_ID_MASK : Nat
  IT_CONTROLLER_ID_SHIFT : Nat
  IT_CONTROLLER_AXIS_MASK : Nat
  IT_CONTROLLER_TYPE_MASK : Nat
  /- `AllInputs::emptyInputs`: the value it leaves in the object -/
  emptyInputs : AllInputs
  /- MovieFile: `m.loadMovie(path)`, `m.saveMovie(path)`, `m.setInputs(ai)`,
     `m.getInputs(ai)` (both at `context->framecount`), `m.isPrefix(other)`,
     `m.insertInputsBefore(ai, pos)`, `m.deleteInputs(pos)` -/
  loadMovie : Files → String → MovieFile → MovieFile
  saveMovie : Files → String → MovieFile → Files
  setInputs : Nat → MovieFile → AllInputs → MovieFile
  getInputs : Nat → MovieFile → AllInputs → Bool × AllInputs
  isPrefix : MovieFile → MovieFile → Bool
  insertInputsBefore : MovieFile → AllInputs → Int → MovieFile
  deleteInputs : MovieFile → Int → MovieFile
  /- `XkbKeycodeToKeysym(display, kc, 0, 0)` and `is_modifier(ks)` -/
  keysym : Nat → KeySym
  is_modifier : KeySym → Bool

/-- The C++ comparison `a < b` of an `int` with an `unsigned long`: the `int` is
converted to `unsigned long` first. -/
def ltIntULong (a : Int) (b : Nat) : Bool :=
  decide ((a % (2 : Int) ^ 64).toNat < b)


/-! ## InputEditorModel.cpp

Out-of-bounds accesses of `input_set`, `movie->input_list` and
`controller_buttons` (undefined behaviour in C++) make the function return `none`. -/

/-- The members of `InputEditorModel`: `context`, `movie` and `input_set`. -/
structure InputEditorModel where
  context : Context
  movie : MovieFile
  input_set : List SingleInput
deriving DecidableEq, Repr

/-- The `for (k=0; k < AllInputs::MAXKEYS; k++)` loop of `toggleInput`, entered at
`k` with `fuel = MAXKEYS - k` iterations left; `kb` is `ai.keyboard`.  Returns `k`,
`is_set` and the keyboard array on leaving the loop. -/
def toggleKeyLoop (value : KeySym) :
    Nat → Nat → Bool → Nat → List KeySym → Nat × Bool × List KeySym
  | 0, k, is_set, _, kb => (k, is_set, kb)
  | fuel + 1, k, is_set, index_set, kb =>
    match kb[k]? with
    | none => (k, is_set, kb)
    | some x =>
      if x = XK_VoidSymbol then
        if is_set then
          /- switch the last set key and the removed key -/
          (k, is_set,
            (kb.set index_set (kb.getD (k - 1) XK_VoidSymbol)).set (k - 1) XK_VoidSymbol)
        else
          (k, is_set, kb)
      else if value = x then
        toggleKeyLoop value fuel (k + 1) true k (kb.set k XK_VoidSymbol)
      else
        toggleKeyLoop value fuel (k + 1) is_set index_set kb

/-- The `si.type == IT_KEYBOARD` branch of `toggleInput` on the keyboard array. -/
def toggleKeyboard (value : KeySym) (kb : List KeySym) : List KeySym :=
  match toggleKeyLoop value kb.length 0 false 0 kb with
  | (k, is_set, kb1) =>
    if !is_set then
      if k < kb.length then kb1.set k value else kb1
    else
      kb1

/-- The `si.type & IT_CONTROLLER_ID_MASK` branch of `toggleInput`.  The shift is
done on an `unsigned int`, the result is stored in a 16-bit button mask. -/
def toggleController (E : Extern) (si : SingleInput) (ai : AllInputs) : Option AllInputs :=
  if si.type &&& E.IT_CONTROLLER_ID_MASK ≠ 0 then
    let controller_i : Int :=
      (((si.type &&& E.IT_CONTROLLER_ID_MASK) >>> E.IT_CONTROLLER_ID_SHIFT : Nat) : Int) - 1
    let controller_axis := si.type &&& E.IT_CONTROLLER_AXIS_MASK
    let controller_type := si.type &&& E.IT_CONTROLLER_TYPE_MASK
    if controller_axis = 0 then
      if 0 ≤ controller_i ∧ controller_type < 32 then
        match ai.controller_buttons[controller_i.toNat]? with
        | some b =>
          some { ai with
            controller_buttons := ai.controller_buttons.set controller_i.toNat
              ((b ^^^ (((si.value &&& 1) <<< controller_type) % 2 ^ 32)) % 2 ^ 16) }
        | none => none
      else
        none
    else
      some ai
  else
    some ai

/-- What `toggleInput` does to the frame `ai` for the input `si`. -/
def toggleFrame (E : Extern) (si : SingleInput) (ai : AllInputs) : Option AllInputs :=
  let ai1 :=
    if si.type = E.IT_KEYBOARD then
      { ai with keyboard := toggleKeyboard si.value ai.keyboard }
    else
      ai
  toggleController E si ai1

/-- `InputEditorModel::toggleInput(index)` with `row = index.row()` and
`col = index.column()`. -/
def toggleInput (E : Extern) (m : InputEditorModel) (row col : Int) : Option InputEditorModel :=
  /- don't toggle past inputs -/
  if ltIntULong row m.context.framecount then
    some m
  else if row < 0 ∨ col < 0 then
    none
  else
    match m.input_set[col.toNat]?, m.movie.input_list[row.toNat]? with
    | some si, some ai =>
      match toggleFrame E si ai with
      | some ai1 =>
        some { m with movie := { input_list := m.movie.input_list.set row.toNat ai1 } }
      | none => none
    | _, _ => none

/-- The tail shared by `insertRows` and `removeRows`: update the movie framecount
and mark the shared config as modified. -/
def updateFramecount (m : InputEditorModel) (movie : MovieFile) : InputEditorModel :=
  { m with
    movie := movie
    context := { m.context with
      config := { m.context.config with
        sc := { m.context.config.sc with movie_framecount := movie.nbFrames }
        sc_modified := true } } }

/-- `InputEditorModel::insertRows(row, count, parent)`: the returned flag and the
model afterwards. -/
def insertRows (E : Extern) (m : InputEditorModel) (row count : Int) : Bool × InputEditorModel :=
  /- don't insert past inputs -/
  if ltIntULong row m.context.framecount then
    (false, m)
  else
    (true, updateFramecount m
      ((fun mv => E.insertInputsBefore mv E.emptyInputs row)^[count.toNat] m.movie))

/-- `InputEditorModel::removeRows(row, count, parent)`: the returned flag and the
model afterwards. -/
def removeRows (E : Extern) (m : InputEditorModel) (row count : Int) : Bool × InputEditorModel :=
  /- don't delete past inputs -/
  if ltIntULong row m.context.framecount then
    (false, m)
  else
    (true, updateFramecount m ((fun mv => E.deleteInputs mv row)^[count.toNat] m.movie))


/-! ## game.cpp: state, socket and display -/

/-- The static `pseudosavestate` of game.cpp (`PseudoSaveState`). -/
structure PseudoSaveState where
  loading : Bool
  framecount : Nat
  recording : RecStatus
deriving DecidableEq, Repr

/-- The message tags of messages.h that `launchGame` sends. -/
inductive MsgN where
  | MSGN_CONFIG
  | MSGN_DUMP_FILE
  | MSGN_LIB_FILE
  | MSGN_END_INIT
  | MSGN_SAVESTATE
  | MSGN_LOADSTATE
  | MSGN_ALL_INPUTS
  | MSGN_USERQUIT
  | MSGN_END_FRAMEBOUNDARY
deriving DecidableEq, Repr

/-- What `launchGame` does to the socket and to the movie, one entry per call. -/
inductive Effect where
  /-- The call `sendMessage(m)`. -/
  | sendMessage (m : MsgN)
  /-- The call `sendData(&context->config.sc, sizeof(SharedConfig))`. -/
  | sendConfig (sc : SharedConfig)
  /-- The call `sendData(&ai, sizeof(AllInputs))`. -/
  | sendInputs (ai : AllInputs)
  /-- The call `sendString(str)`. -/
  | sendString (str : String)
  /-- The call `movie.saveMovie(path)`. -/
  | saveMovie (path : String)
  /-- The call `movie.loadMovie(path)` on the live movie. -/
  | loadMovie (path : String)
  /-- The call `movie.setInputs(ai)`. -/
  | setInputs (ai : AllInputs)
deriving DecidableEq, Repr

/-- Whether an effect is a write to the socket. -/
def Effect.isSend : Effect → Bool
  | .sendMessage _ => true
  | .sendConfig _ => true
  | .sendInputs _ => true
  | .sendString _ => true
  | _ => false

/-- The socket writes of a trace, in order. -/
def sent (trace : List Effect) : List Effect := trace.filter Effect.isSend

/-- The `type` of an `XEvent`, as far as `launchGame` distinguishes it. -/
inductive XEventType where
  | KeyPress
  | KeyRelease
  | FocusOut
  | Other
deriving DecidableEq, Repr

/-- An `XEvent`: its type and the `xkey.keycode`, `xkey.time` of a key event. -/
structure XEvent where
  type : XEventType
  keycode : Nat
  time : Nat
deriving DecidableEq, Repr

/-- One iteration of the `do ... while` poll loop as the display presents it: the
result of `build_modifiers` and the events that have arrived since the last
iteration. -/
structure Poll where
  modifiers : KeySym
  arrivals : List XEvent
deriving DecidableEq, Repr

/-- The answers of the display while the inputs of one frame are sampled: the
windows returned by the `XGetInputFocus` calls of the two `haveFocus` calls, the
`AllInputs` that `XQueryKeymap` and `buildAllInputs` produce, and the outputs of
`XQueryPointer`. -/
structure LiveSample where
  focus1 : Nat
  built : AllInputs
  focus2 : Nat
  onScreen : Bool
  pointer_x : Int
  pointer_y : Int
  pointer_mask : Nat
deriving DecidableEq, Repr

/-- The display during one boundary cycle. -/
structure CycleEnv where
  polls : List Poll
  sample : LiveSample
deriving DecidableEq, Repr

/-- The state of `launchGame`: the context, the static pseudo savestate, the live
`movie`, the movie files on disk, the locals `last_savestate_slot`, `ar_ticks`,
`advance_frame` and `message`, the scripts of the socket (`messages`: results of
the coming `receiveMessage()` calls, `datas`: values of the coming `receiveData`
calls, `strings`: of `receiveString`), the windows the coming `XGetInputFocus`
calls of the message loop return, the pending X events, and the trace so far. -/
structure GameState where
  context : Context
  pseudosavestate : PseudoSaveState
  movie : MovieFile
  files : Files
  last_savestate_slot : Int
  ar_ticks : Int
  advance_frame : Bool
  message : Int
  messages : List Int
  datas : List Nat
  strings : List String
  xfocus : List Nat
  xqueue : List XEvent
  trace : List Effect
deriving DecidableEq, Repr

/-- How a piece of `launchGame` is left: it runs on to the next statement, leaves
the enclosing loop by `break`, leaves `launchGame` by `return`, or waits for an
answer the scripts do not contain (`blocked`, with the state reached). -/
inductive Flow where
  | next (s : GameState)
  | brk (s : GameState)
  | ret (s : GameState)
  | blocked (s : GameState)
deriving DecidableEq, Repr

/-- The state in which a piece of `launchGame` is left. -/
def Flow.state : Flow → GameState
  | Flow.next s => s
  | Flow.brk s => s
  | Flow.ret s => s
  | Flow.blocked s => s

/-- Append effects to the trace. -/
def GameState.emit (s : GameState) (es : List Effect) : GameState :=
  { s with trace := s.trace ++ es }

/-- Assign `context->config.sc_modified = true`. -/
def GameState.setScModified (s : GameState) : GameState :=
  { s with context := { s.context with config := { s.context.config with sc_modified := true } } }

/-- Assign the shared config `context->config.sc`. -/
def GameState.setSc (s : GameState) (sc : SharedConfig) : GameState :=
  { s with context := { s.context with config := { s.context.config with sc := sc } } }

/-- Assign `context->recording`. -/
def GameState.setRecording (s : GameState) (r : RecStatus) : GameState :=
  { s with context := { s.context with recording := r } }

/-- The companion movie path of slot `statei`:
`savestatedir + '/' + gamename + ".movie" + std::to_string(statei) + ".ltm"`. -/
def moviePath (c : Context) (statei : Int) : String :=
  c.config.savestatedir ++ "/" ++ c.gamename ++ ".movie" ++ toString statei ++ ".ltm"

/-- The savestate path of slot `statei`:
`savestatedir + '/' + gamename + ".state" + std::to_string(statei)`. -/
def savestatePath (c : Context) (statei : Int) : String :=
  c.config.savestatedir ++ "/" ++ c.gamename ++ ".state" ++ toString statei

/-- `haveFocus(context)`; `window` is the window `XGetInputFocus` reports. -/
def haveFocus (E : Extern) (c : Context) (window : Nat) : Bool :=
  if c.inputs_focus &&& E.FOCUS_ALL ≠ 0 then
    true
  else if c.inputs_focus &&& E.FOCUS_GAME ≠ 0 ∧ window = c.game_window then
    true
  else if c.inputs_focus &&& E.FOCUS_UI ≠ 0 ∧ window = c.ui_window then
    true
  else
    false


/-! ## game.cpp: the hotkeys of a `KeyPress` event (calls into the UI are not modelled) -/

/-- `HOTKEY_FRAMEADVANCE` pressed. -/
def hotkeyFrameAdvance (s : GameState) : GameState :=
  let s1 :=
    if s.context.config.sc.running then
      (s.setSc { s.context.config.sc with running := false }).setScModified
    else
      s
  /- activate auto-repeat, advance one frame -/
  { s1 with ar_ticks := 0, advance_frame := true }

/-- `HOTKEY_PLAYPAUSE` pressed. -/
def hotkeyPlayPause (s : GameState) : GameState :=
  (s.setSc { s.context.config.sc with running := !s.context.config.sc.running }).setScModified

/-- `HOTKEY_FASTFORWARD` pressed. -/
def hotkeyFastForward (s : GameState) : GameState :=
  (s.setSc { s.context.config.sc with fastforward := true }).setScModified

/-- `HOTKEY_SAVEPSEUDOSTATE` pressed. -/
def hotkeySavePseudoState (s : GameState) : GameState :=
  { s with pseudosavestate := { s.pseudosavestate with framecount := s.context.framecount } }

/-- `HOTKEY_LOADPSEUDOSTATE` pressed; `Flow.brk` is the `break` out of the event loop. -/
def hotkeyLoadPseudoState (s : GameState) : Flow :=
  if s.pseudosavestate.framecount > 0 ∧
      (s.context.recording = RecStatus.RECORDING_READ_WRITE ∨
       s.context.recording = RecStatus.RECORDING_WRITE) then
    let s1 := (s.setSc { s.context.config.sc with running := true, fastforward := true }).setScModified
    let s2 := { s1 with
      pseudosavestate := { s1.pseudosavestate with loading := true, recording := s1.context.recording } }
    let s3 := s2.setRecording RecStatus.RECORDING_READ_WRITE
    Flow.brk { s3 with context := { s3.context with status := RunStatus.QUITTING } }
  else
    Flow.next s

/-- A hotkey in `HOTKEY_SAVESTATE1 .. HOTKEY_SAVESTATE9` pressed. -/
def hotkeySaveState (E : Extern) (s : GameState) (hk : Int) : GameState :=
  /- slot number -/
  let statei := hk - E.HOTKEY_SAVESTATE1 + 1
  let s1 := { s with last_savestate_slot := statei }
  let s2 :=
    if s1.context.recording ≠ RecStatus.NO_RECORDING then
      /- save the movie file -/
      ({ s1 with files := E.saveMovie s1.files (moviePath s1.context statei) s1.movie }).emit
        [Effect.saveMovie (moviePath s1.context statei)]
    else
      s1
  s2.emit [Effect.sendMessage MsgN.MSGN_SAVESTATE, Effect.sendString (savestatePath s2.context statei)]

/-- The `switch (context->recording)` of the load hotkey: the state afterwards and
`doload`.  In the read modes `savedmovie` is a fresh `MovieFile` into which the
companion movie is loaded. -/
def loadStateSwitch (E : Extern) (s : GameState) (statei : Int) : GameState × Bool :=
  match s.context.recording with
  | RecStatus.NO_RECORDING => (s, true)
  | RecStatus.RECORDING_WRITE =>
    if s.last_savestate_slot ≠ statei then
      /- load the movie file -/
      (({ s with movie := E.loadMovie s.files (moviePath s.context statei) s.movie }).emit
        [Effect.loadMovie (moviePath s.context statei)], true)
    else
      (s, true)
  | RecStatus.RECORDING_READ_WRITE | RecStatus.RECORDING_READ_ONLY =>
    let savedmovie := E.loadMovie s.files (moviePath s.context statei) { input_list := [] }
    if !E.isPrefix s.movie savedmovie then
      /- not a prefix, we don't allow loading -/
      (s, false)
    else
      (s, true)

/-- The `if (doload)` block of the load hotkey. -/
def doLoadState (E : Extern) (s : GameState) (statei : Int) : Flow :=
  let s1 := (s.emit [Effect.sendMessage MsgN.MSGN_LOADSTATE,
    Effect.sendString (savestatePath s.context statei)]).setScModified
  /- the frame count has changed, we must get the new one -/
  match s1.messages with
  | [] => Flow.blocked s1
  | message :: rest =>
    let s2 := { s1 with message := message, messages := rest }
    if message ≠ E.MSGB_FRAMECOUNT then
      Flow.ret s2
    else
      match s2.datas with
      | [] => Flow.blocked s2
      | d :: ds =>
        Flow.next { s2 with datas := ds, context := { s2.context with framecount := d } }

/-- A hotkey in `HOTKEY_LOADSTATE1 .. HOTKEY_LOADSTATE9` pressed. -/
def hotkeyLoadState (E : Extern) (s : GameState) (hk : Int) : Flow :=
  /- slot number -/
  let statei := hk - E.HOTKEY_LOADSTATE1 + 1
  match loadStateSwitch E s statei with
  | (s1, doload) =>
    if doload then doLoadState E s1 statei else Flow.next s1

/-- `HOTKEY_READWRITE` pressed. -/
def hotkeyReadWrite (s : GameState) : GameState :=
  match s.context.recording with
  | RecStatus.RECORDING_WRITE => s.setRecording RecStatus.RECORDING_READ_WRITE
  | RecStatus.RECORDING_READ_WRITE => s.setRecording RecStatus.RECORDING_WRITE
  | _ => s

/-- `HOTKEY_TOGGLE_ENCODE` pressed. -/
def hotkeyToggleEncode (s : GameState) : GameState :=
  if !s.context.config.sc.av_dumping then
    let s1 := (s.setSc { s.context.config.sc with av_dumping := true }).setScModified
    { s1 with context := { s1.context with config := { s1.context.config with dumpfile_modified := true } } }
  else
    (s.setSc { s.context.config.sc with av_dumping := false }).setScModified

/-- The body of `if (event.type == KeyPress)` for the hotkey type `hk` (`hk.type`):
the `if`s are run one after the other, in source order. -/
def keyPress (E : Extern) (s : GameState) (hk : Int) : Flow :=
  let s1 := if hk = E.HOTKEY_FRAMEADVANCE then hotkeyFrameAdvance s else s
  let s2 := if hk = E.HOTKEY_PLAYPAUSE then hotkeyPlayPause s1 else s1
  let s3 := if hk = E.HOTKEY_FASTFORWARD then hotkeyFastForward s2 else s2
  let s4 := if hk = E.HOTKEY_SAVEPSEUDOSTATE then hotkeySavePseudoState s3 else s3
  match (if hk = E.HOTKEY_LOADPSEUDOSTATE then hotkeyLoadPseudoState s4 else Flow.next s4) with
  | Flow.next s5 =>
    let s6 :=
      if E.HOTKEY_SAVESTATE1 ≤ hk ∧ hk ≤ E.HOTKEY_SAVESTATE9 then hotkeySaveState E s5 hk else s5
    match (if E.HOTKEY_LOADSTATE1 ≤ hk ∧ hk ≤ E.HOTKEY_LOADSTATE9 then hotkeyLoadState E s6 hk
           else Flow.next s6) with
    | Flow.next s7 =>
      let s8 := if hk = E.HOTKEY_READWRITE then hotkeyReadWrite s7 else s7
      Flow.next (if hk = E.HOTKEY_TOGGLE_ENCODE then hotkeyToggleEncode s8 else s8)
    | f => f
  | f => f

/-- The body of `if (event.type == KeyRelease)` for the event `event` and the hotkey
type `hk`; `s.xqueue` holds the events queued after `event`. -/
def keyRelease (E : Extern) (s : GameState) (event : XEvent) (hk : Int) : GameState :=
  match s.xqueue with
  | nev :: _ =>
    if nev.type = XEventType.KeyPress ∧ nev.time = event.time ∧ nev.keycode = event.keycode then
      /- skip current KeyRelease event -/
      s
    else
      let s1 :=
        if hk = E.HOTKEY_FASTFORWARD then
          (s.setSc { s.context.config.sc with fastforward := false }).setScModified
        else s
      if hk = E.HOTKEY_FRAMEADVANCE then { s1 with ar_ticks := -1 } else s1
  | [] =>
    let s1 :=
      if hk = E.HOTKEY_FASTFORWARD then
        (s.setSc { s.context.config.sc with fastforward := false }).setScModified
      else s
    if hk = E.HOTKEY_FRAMEADVANCE then { s1 with ar_ticks := -1 } else s1

/-- The body of the `while (XPending(...))` loop for one event taken from the queue;
`modifiers` is the result of `build_modifiers`. -/
def handleEvent (E : Extern) (modifiers : KeySym) (s : GameState) (event : XEvent) : Flow :=
  let s1 := if event.type = XEventType.FocusOut then { s with ar_ticks := -1 } else s
  if event.type = XEventType.KeyPress ∨ event.type = XEventType.KeyRelease then
    let ks := E.keysym event.keycode
    /- if the key is a modifier, skip it -/
    if E.is_modifier ks then
      Flow.next s1
    else
      match (match s1.context.config.hotkey_mapping.lookup (ks ||| modifiers) with
             | some hk => some hk
             | none => s1.context.config.hotkey_mapping.lookup ks) with
      | none => Flow.next s1
      | some hk =>
        if event.type = XEventType.KeyPress then keyPress E s1 hk
        else Flow.next (keyRelease E s1 event hk)
  else
    Flow.next s1

/-- The `while (XPending(...))` loop over the pending events `queue`; a `break`
leaves the remaining events pending. -/
def eventLoop (E : Extern) (modifiers : KeySym) : List XEvent → GameState → Flow
  | [], s => Flow.next { s with xqueue := [] }
  | event :: rest, s =>
    match handleEvent E modifiers { s with xqueue := rest } event with
    | Flow.next s1 => eventLoop E modifiers rest s1
    | Flow.brk s1 => Flow.next s1
    | f => f


/-! ## game.cpp: the boundary cycle -/

/-- The auto-repeat delay `ar_delay`. -/
def ar_delay : Int := 50

/-- The auto-repeat frequency `ar_freq`. -/
def ar_freq : Int := 2

/-- The auto-repeat step at the head of a poll iteration. -/
def autoRepeat (s : GameState) : GameState :=
  if s.ar_ticks ≥ 0 then
    let t := s.ar_ticks + 1
    if t > ar_delay ∧ t % ar_freq = 0 then
      /- trigger auto-repeat -/
      { s with ar_ticks := t, advance_frame := true }
    else
      { s with ar_ticks := t }
  else
    s

/-- The `do ... while (!running && !advance_frame)` loop; each iteration takes the
next `Poll` of the display. -/
def pollLoop (E : Extern) : List Poll → GameState → Flow
  | [], s =>
    /- if we did not yet receive the game window id, just make the game running -/
    if s.context.game_window = 0 then Flow.next s else Flow.blocked s
  | p :: ps, s =>
    if s.context.game_window = 0 then
      Flow.next s
    else
      let s1 := autoRepeat s
      match eventLoop E p.modifiers (s1.xqueue ++ p.arrivals)
          { s1 with xqueue := s1.xqueue ++ p.arrivals } with
      | Flow.next s2 =>
        if !s2.context.config.sc.running && !s2.advance_frame then pollLoop E ps s2
        else Flow.next s2
      | f => f

/-- The body of the `switch (message)` in the wait loop, for the current
`s.message`; `Flow.ret` is the `return` on an unknown message. -/
def handleBoundaryMessage (E : Extern) (s : GameState) : Flow :=
  if s.message = E.MSGB_WINDOW_ID then
    match s.datas with
    | [] => Flow.blocked s
    | w :: ds =>
      if w = 0 then
        /- libTAS could not get the window id, let's get the active window -/
        match s.xfocus with
        | [] => Flow.blocked s
        | f :: fs =>
          Flow.next { s with datas := ds, xfocus := fs, context := { s.context with game_window := f } }
      else
        Flow.next { s with datas := ds, context := { s.context with game_window := w } }
  else if s.message = E.MSGB_ERROR_MSG then
    match s.strings with
    | [] => Flow.blocked s
    | _ :: ss => Flow.next { s with strings := ss }
  else if s.message = E.MSGB_ENCODE_FAILED then
    Flow.next (s.setSc { s.context.config.sc with av_dumping := false }).setScModified
  else if s.message = E.MSGB_FRAMECOUNT then
    match s.datas with
    | [] => Flow.blocked s
    | d :: ds => Flow.next { s with datas := ds, context := { s.context with framecount := d } }
  else
    Flow.ret s

/-- The inner `while` of "wait for frame boundary", entered with the message just
received in `s.message`; the first argument is the script `s.messages`. -/
def waitLoop (E : Extern) : List Int → GameState → Flow
  | [], s =>
    if s.message ≥ 0 ∧ s.message ≠ E.MSGB_QUIT ∧ s.message ≠ E.MSGB_START_FRAMEBOUNDARY then
      match handleBoundaryMessage E s with
      | Flow.next s1 => Flow.blocked s1
      | f => f
    else
      Flow.next s
  | m :: rest, s =>
    if s.message ≥ 0 ∧ s.message ≠ E.MSGB_QUIT ∧ s.message ≠ E.MSGB_START_FRAMEBOUNDARY then
      match handleBoundaryMessage E s with
      | Flow.next s1 => waitLoop E rest { s1 with message := m, messages := rest }
      | f => f
    else
      Flow.next s

/-- "Wait for frame boundary" up to the two `break`s that follow the wait loop:
`Flow.next` when the cycle goes on, `Flow.brk` on a socket error or `MSGB_QUIT`. -/
def waitFrameBoundary (E : Extern) (s : GameState) : Flow :=
  match s.messages with
  | [] => Flow.blocked s
  | m :: rest =>
    match waitLoop E rest { s with message := m, messages := rest } with
    | Flow.next s1 =>
      if s1.message = -1 then Flow.brk s1
      else if s1.message = E.MSGB_QUIT then Flow.brk s1
      else Flow.next s1
    | f => f

/-- The `unsigned long` difference `pseudosavestate.framecount - 30`. -/
def pseudoThreshold (framecount : Nat) : Nat :=
  (((framecount : Int) - 30) % (2 : Int) ^ 64).toNat

/-- "Check if we are loading a pseudo savestate". -/
def checkPseudoSaveState (s : GameState) : GameState :=
  if s.pseudosavestate.loading then
    let s1 :=
      if s.context.framecount > pseudoThreshold s.pseudosavestate.framecount then
        (s.setSc { s.context.config.sc with fastforward := false }).setScModified
      else s
    if s1.pseudosavestate.framecount = s1.context.framecount then
      let s2 := { s1 with pseudosavestate := { s1.pseudosavestate with loading := false } }
      let s3 := (s2.setSc { s2.context.config.sc with running := false, fastforward := false }).setScModified
      s3.setRecording s3.pseudosavestate.recording
    else s1
  else s

/-- The live inputs of a frame: the `NO_RECORDING` / `RECORDING_WRITE` branch up to
the movie append. -/
def sampleInputs (E : Extern) (c : Context) (x : LiveSample) : AllInputs :=
  if haveFocus E c x.focus1 then
    if c.config.sc.mouse_support ∧ c.game_window ≠ 0 ∧ haveFocus E c x.focus2 then
      { x.built with
        pointer_x := if x.onScreen then x.pointer_x else -1
        pointer_y := if x.onScreen then x.pointer_y else -1
        pointer_mask := x.pointer_mask }
    else
      x.built
  else
    E.emptyInputs

/-- "Record inputs or get inputs from movie file": the `AllInputs` of the frame. -/
def frameInputs (E : Extern) (s : GameState) (x : LiveSample) : AllInputs :=
  match s.context.recording with
  | RecStatus.NO_RECORDING | RecStatus.RECORDING_WRITE => sampleInputs E s.context x
  | RecStatus.RECORDING_READ_WRITE | RecStatus.RECORDING_READ_ONLY =>
    (E.getInputs s.context.framecount s.movie E.emptyInputs).2

/-- The `switch (context->recording)` that computes the inputs: in write mode
they are saved to the movie. -/
def recordInputs (E : Extern) (s : GameState) (x : LiveSample) : GameState :=
  if s.context.recording = RecStatus.RECORDING_WRITE then
    /- save inputs to moviefile -/
    ({ s with movie := E.setInputs s.context.framecount s.movie (frameInputs E s x) }).emit
      [Effect.setInputs (frameInputs E s x)]
  else
    s

/-- "Send shared config if modified". -/
def sendConfigIfModified (s : GameState) : GameState :=
  if s.context.config.sc_modified then
    let s1 := s.emit [Effect.sendMessage MsgN.MSGN_CONFIG, Effect.sendConfig s.context.config.sc]
    { s1 with context := { s1.context with config := { s1.context.config with sc_modified := false } } }
  else s

/-- "Send dump file if modified". -/
def sendDumpFileIfModified (s : GameState) : GameState :=
  if s.context.config.dumpfile_modified then
    let s1 := s.emit [Effect.sendMessage MsgN.MSGN_DUMP_FILE, Effect.sendString s.context.config.dumpfile]
    { s1 with context := { s1.context with config := { s1.context.config with dumpfile_modified := false } } }
  else s

/-- "Send inputs and end of frame". -/
def sendInputsAndEnd (s : GameState) (ai : AllInputs) : GameState :=
  let s1 := s.emit [Effect.sendMessage MsgN.MSGN_ALL_INPUTS, Effect.sendInputs ai]
  let s2 :=
    if s1.context.status = RunStatus.QUITTING then s1.emit [Effect.sendMessage MsgN.MSGN_USERQUIT]
    else s1
  s2.emit [Effect.sendMessage MsgN.MSGN_END_FRAMEBOUNDARY]

/-- The end of a boundary cycle, from `AllInputs ai;` to the end of the loop body. -/
def finishBoundary (E : Extern) (s : GameState) (x : LiveSample) : GameState :=
  sendInputsAndEnd (sendDumpFileIfModified (sendConfigIfModified (recordInputs E s x)))
    (frameInputs E s x)

/-- The body of the `while (1)` loop after a frame boundary has been received. -/
def cycleBody (E : Extern) (c : CycleEnv) (s : GameState) : Flow :=
  match pollLoop E c.polls { checkPseudoSaveState s with advance_frame := false } with
  | Flow.next s1 => Flow.next (finishBoundary E s1 c.sample)
  | f => f

/-- One iteration of the `while (1)` loop. -/
def boundaryCycle (E : Extern) (c : CycleEnv) (s : GameState) : Flow :=
  match waitFrameBoundary E s with
  | Flow.next s1 => cycleBody E c s1
  | f => f

/-- The `while (1)` loop; `Flow.brk` is its `break`, `cycles` the display during
the cycles to come. -/
def mainLoop (E : Extern) : List CycleEnv → GameState → Flow
  | [], s =>
    match waitFrameBoundary E s with
    | Flow.next s1 => Flow.blocked s1
    | f => f
  | c :: cs, s =>
    match boundaryCycle E c s with
    | Flow.next s1 => mainLoop E cs s1
    | f => f


/-! ## game.cpp: `launchGame` -/

/-- The `while (message != MSGB_END_INIT)` loop of the handshake, entered with the
message just received in `s.message`; the first argument is the script `s.messages`. -/
def initLoop (E : Extern) : List Int → GameState → Flow
  | [], s =>
    if s.message ≠ E.MSGB_END_INIT then
      if s.message = E.MSGB_PID then Flow.blocked s else Flow.ret s
    else
      Flow.next s
  | m :: rest, s =>
    if s.message ≠ E.MSGB_END_INIT then
      if s.message = E.MSGB_PID then
        match s.datas with
        | [] => Flow.blocked s
        | d :: ds =>
          initLoop E rest
            { s with datas := ds, context := { s.context with game_pid := d },
                     message := m, messages := rest }
      else
        Flow.ret s
    else
      Flow.next s

/-- "Send informations to the game": the effects between the handshake and the loop. -/
def sendInit (s : GameState) (linked_libs : List String) : GameState :=
  s.emit
    ([Effect.sendMessage MsgN.MSGN_CONFIG, Effect.sendConfig s.context.config.sc] ++
     (if s.context.config.sc.av_dumping then
        [Effect.sendMessage MsgN.MSGN_DUMP_FILE, Effect.sendString s.context.config.dumpfile]
      else []) ++
     linked_libs.flatMap (fun name => [Effect.sendMessage MsgN.MSGN_LIB_FILE, Effect.sendString name]) ++
     [Effect.sendMessage MsgN.MSGN_END_INIT])

/-- The statements after the `while (1)` loop. -/
def afterLoop (s : GameState) : GameState :=
  if s.pseudosavestate.loading then
    { s with context := { s.context with status := RunStatus.RESTARTING } }
  else
    { s with
      pseudosavestate := { s.pseudosavestate with framecount := 0 }
      context := { s.context with status := RunStatus.INACTIVE } }

/-- `launchGame(context)` from the handshake on.  Starting the game process and
reading its linked libraries are outside the model: `linked_libs` is what `ldd`
reported.  The result is the state when `launchGame` returns, `none` when it waits
for an answer that the scripts do not contain. -/
def launchGame (E : Extern) (linked_libs : List String) (cycles : List CycleEnv)
    (s : GameState) : Option GameState :=
  let s0 := { s with context := { s.context with
    game_window := 0
    gamename := (s.context.gamepath.splitOn "/").getLastD s.context.gamepath
    status := RunStatus.ACTIVE } }
  match s0.messages with
  | [] => none
  | m :: rest =>
    match initLoop E rest { s0 with message := m, messages := rest } with
    | Flow.next s1 =>
      let s2 := sendInit s1 linked_libs
      let s3 := { s2 with
        movie :=
          if s2.context.recording = RecStatus.RECORDING_READ_WRITE ∨
              s2.context.recording = RecStatus.RECORDING_READ_ONLY then
            E.loadMovie s2.files s2.context.config.moviefile { input_list := [] }
          else
            { input_list := [] }
        last_savestate_slot := -1
        ar_ticks := -1 }
      match mainLoop E cycles s3 with
      | Flow.brk s4 => some (afterLoop s4)
      | Flow.ret s4 => some s4
      | _ => none
    | Flow.ret s1 => some s1
    | _ => none

/-! ## Instances used to evaluate the definitions -/

/-- Modelled from the spec: `MovieLog.load(path)`: the frames stored under `path`;
a path that holds no movie leaves the log as it is. -/
def specLoadMovie (files : Files) (path : String) (m : MovieFile) : MovieFile :=
  match files.lookup path with
  | some frames => { input_list := frames }
  | none => m

/-- Modelled from the spec: `MovieLog.save(path)`: the frames are stored under `path`,
replacing what was there. -/
def specSaveMovie (files : Files) (path : String) (m : MovieFile) : Files :=
  (path, m.input_list) :: files.filter (fun f => f.1 ≠ path)

/-- Modelled from the spec: `MovieLog.append(input)`: appends to the end. -/
def specSetInputs (_framecount : Nat) (m : MovieFile) (ai : AllInputs) : MovieFile :=
  { input_list := m.input_list ++ [ai] }

/-- Modelled from the spec: `MovieLog.readFrame(index, &out)`: fails when
`index ≥ length`. -/
def specGetInputs (framecount : Nat) (m : MovieFile) (ai : AllInputs) : Bool × AllInputs :=
  match m.input_list[framecount]? with
  | some a => (true, a)
  | none => (false, ai)

/-- Modelled from the spec: the prefix relation: `a` is a prefix of `b` iff every
frame index present in `a` has an identical `AllInputs` value in `b`. -/
def specIsPrefix (a b : MovieFile) : Bool :=
  decide (a.input_list <+: b.input_list)

/-- Modelled from the spec: `MovieLog.insertBefore(index, input)`: shifts the
subsequent frames; an index outside `0 .. length` leaves the log as it is. -/
def specInsertInputsBefore (m : MovieFile) (ai : AllInputs) (pos : Int) : MovieFile :=
  if 0 ≤ pos ∧ pos.toNat ≤ m.input_list.length then
    { input_list := m.input_list.take pos.toNat ++ ai :: m.input_list.drop pos.toNat }
  else m

/-- Modelled from the spec: `MovieLog.deleteAt(index)`: shifts the subsequent frames;
an index outside `0 .. length - 1` leaves the log as it is. -/
def specDeleteInputs (m : MovieFile) (pos : Int) : MovieFile :=
  if 0 ≤ pos ∧ pos.toNat < m.input_list.length then
    { input_list := m.input_list.eraseIdx pos.toNat }
  else m

/-- An instance of `Extern`: the enumerations in the order of their headers, an
empty `AllInputs` with 16 keys and 4 controllers, and the movie log of the spec. -/
def specExtern : Extern :=
  { HOTKEY_PLAYPAUSE := 0
    HOTKEY_FRAMEADVANCE := 1
    HOTKEY_FASTFORWARD := 2
    HOTKEY_READWRITE := 3
    HOTKEY_SAVESTATE1 := 4
    HOTKEY_SAVESTATE9 := 12
    HOTKEY_LOADSTATE1 := 13
    HOTKEY_LOADSTATE9 := 21
    HOTKEY_TOGGLE_ENCODE := 22
    HOTKEY_SAVEPSEUDOSTATE := 23
    HOTKEY_LOADPSEUDOSTATE := 24
    MSGB_START_FRAMEBOUNDARY := 0
    MSGB_PID := 1
    MSGB_END_INIT := 2
    MSGB_QUIT := 3
    MSGB_WINDOW_ID := 4
    MSGB_ERROR_MSG := 5
    MSGB_ENCODE_FAILED := 6
    MSGB_FRAMECOUNT := 7
    FOCUS_GAME := 1
    FOCUS_UI := 2
    FOCUS_ALL := 4
    IT_KEYBOARD := 0
    IT_CONTROLLER_ID_MASK := 0x70
    IT_CONTROLLER_ID_SHIFT := 4
    IT_CONTROLLER_AXIS_MASK := 0x80
    IT_CONTROLLER_TYPE_MASK := 0xf
    emptyInputs :=
      { keyboard := List.replicate 16 XK_VoidSymbol
        pointer_x := 0
        pointer_y := 0
        pointer_mask := 0
        controller_axes := List.replicate 4 (List.replicate 6 0)
        controller_buttons := List.replicate 4 0 }
    loadMovie := specLoadMovie
    saveMovie := specSaveMovie
    setInputs := specSetInputs
    getInputs := specGetInputs
    isPrefix := specIsPrefix
    insertInputsBefore := specInsertInputsBefore
    deleteInputs := specDeleteInputs
    keysym := fun kc => kc
    is_modifier := fun ks => decide (0xffe1 ≤ ks ∧ ks ≤ 0xffee) }


/-- The enumerators of the hotkey enumeration that stand alone. -/
def Extern.singleHotkeys (E : Extern) : List Int :=
  [E.HOTKEY_FRAMEADVANCE, E.HOTKEY_PLAYPAUSE, E.HOTKEY_FASTFORWARD, E.HOTKEY_SAVEPSEUDOSTATE,
   E.HOTKEY_LOADPSEUDOSTATE, E.HOTKEY_READWRITE, E.HOTKEY_TOGGLE_ENCODE]

/-- The hotkey enumerators denote different values: the single ones are pairwise
distinct and lie outside the save and load ranges, and the two ranges do not meet. -/
def Extern.HotkeysDistinct (E : Extern) : Prop :=
  E.singleHotkeys.Nodup ∧
  (∀ h ∈ E.singleHotkeys,
    ¬ (E.HOTKEY_SAVESTATE1 ≤ h ∧ h ≤ E.HOTKEY_SAVESTATE9) ∧
    ¬ (E.HOTKEY_LOADSTATE1 ≤ h ∧ h ≤ E.HOTKEY_LOADSTATE9)) ∧
  (E.HOTKEY_SAVESTATE9 < E.HOTKEY_LOADSTATE1 ∨ E.HOTKEY_LOADSTATE9 < E.HOTKEY_SAVESTATE1)

instance (E : Extern) : Decidable E.HotkeysDistinct := by
  unfold Extern.HotkeysDistinct
  infer_instance

/-- A context for evaluating the definitions: write mode, paused, game window 7. -/
def sampleContext : Context :=
  { config :=
      { sc := { running := false, fastforward := false, av_dumping := false,
                mouse_support := false, movie_framecount := 0 }
        sc_modified := false
        dumpfile := "dump.mkv"
        dumpfile_modified := false
        savestatedir := "/tmp"
        moviefile := "movie.ltm"
        hotkey_mapping := []
        input_list := [] }
    framecount := 5
    recording := RecStatus.RECORDING_WRITE
    status := RunStatus.ACTIVE
    game_window := 7
    ui_window := 8
    inputs_focus := 1
    gamepath := "/usr/bin/game"
    gamename := "game"
    game_pid := 100 }

/-- A state of `launchGame` for evaluating the definitions. -/
def sampleState : GameState :=
  { context := sampleContext
    pseudosavestate := { loading := false, framecount := 0, recording := RecStatus.NO_RECORDING }
    movie := { input_list := [] }
    files := []
    last_savestate_slot := -1
    ar_ticks := -1
    advance_frame := false
    message := 0
    messages := [7]
    datas := [42]
    strings := []
    xfocus := []
    xqueue := []
    trace := [] }


/-- The controller button that the input `si` addresses exists in an array of `n`
button masks, or `si` is no controller button. -/
def buttonInRange (E : Extern) (si : SingleInput) (n : Nat) : Prop :=
  si.type &&& E.IT_CONTROLLER_ID_MASK = 0 ∨
  si.type &&& E.IT_CONTROLLER_AXIS_MASK ≠ 0 ∨
  (1 ≤ (si.type &&& E.IT_CONTROLLER_ID_MASK) >>> E.IT_CONTROLLER_ID_SHIFT ∧
   (si.type &&& E.IT_CONTROLLER_ID_MASK) >>> E.IT_CONTROLLER_ID_SHIFT ≤ n ∧
   si.type &&& E.IT_CONTROLLER_TYPE_MASK < 32)

/-- An input editor over a movie of three empty frames with the playhead at frame 2
and the key `0x61` as its only column. -/
def sampleEditor : InputEditorModel :=
  { context := { sampleContext with framecount := 2 }
    movie := { input_list := List.replicate 3 specExtern.emptyInputs }
    input_set := [{ type := 0, value := 0x61, description := "a" }] }

/-- The state `sampleState` in read-only mode with a live movie of one frame; no
companion movie is on disk. -/
def sampleReadState : GameState :=
  { sampleState with
    context := { sampleContext with recording := RecStatus.RECORDING_READ_ONLY }
    movie := { input_list := [specExtern.emptyInputs] } }

/-- The display while the game window (7) has the focus and no key is held. -/
def sampleLive : LiveSample :=
  { focus1 := 7
    built := specExtern.emptyInputs
    focus2 := 7
    onScreen := true
    pointer_x := 10
    pointer_y := 20
    pointer_mask := 0 }

/-! ## Notions used in the statements -/

/-- Whether an effect is a call of `movie.setInputs`. -/
def Effect.isSetInputs : Effect → Bool
  | .setInputs _ => true
  | _ => false

/-- The `movie.setInputs` calls of a trace, in order. -/
def appended (trace : List Effect) : List Effect := trace.filter Effect.isSetInputs

/-- The socket writes that end a boundary cycle, for the state `s` in which the
inputs `ai` of the frame have been determined: `MSGN_CONFIG` and the shared config
only when `sc_modified` is set, `MSGN_DUMP_FILE` and the dump path only when
`dumpfile_modified` is set, `MSGN_ALL_INPUTS` and the inputs, `MSGN_USERQUIT` only
when the status is `QUITTING`, and last `MSGN_END_FRAMEBOUNDARY`. -/
def boundarySends (s : GameState) (ai : AllInputs) : List Effect :=
  (if s.context.config.sc_modified then
    [Effect.sendMessage MsgN.MSGN_CONFIG, Effect.sendConfig s.context.config.sc] else []) ++
  (if s.context.config.dumpfile_modified then
    [Effect.sendMessage MsgN.MSGN_DUMP_FILE, Effect.sendString s.context.config.dumpfile] else []) ++
  [Effect.sendMessage MsgN.MSGN_ALL_INPUTS, Effect.sendInputs ai] ++
  (if s.context.status = RunStatus.QUITTING then [Effect.sendMessage MsgN.MSGN_USERQUIT] else []) ++
  [Effect.sendMessage MsgN.MSGN_END_FRAMEBOUNDARY]

/-- A relation between an earlier and a later state of `launchGame` that holds
across every elementary step taken before the end of a boundary cycle: the hotkeys,
the key releases, the bookkeeping of the loops and the messages of the wait loop. -/
structure StepInvariant (E : Extern) (R : GameState → GameState → Prop) : Prop where
  refl : ∀ s, R s s
  trans : ∀ a b c, R a b → R b c → R a c
  frameAdvance : ∀ s, R s (hotkeyFrameAdvance s)
  playPause : ∀ s, R s (hotkeyPlayPause s)
  fastForward : ∀ s, R s (hotkeyFastForward s)
  savePseudoState : ∀ s, R s (hotkeySavePseudoState s)
  loadPseudoState : ∀ s, R s (hotkeyLoadPseudoState s).state
  saveState : ∀ s hk, R s (hotkeySaveState E s hk)
  loadState : ∀ s hk, R s (hotkeyLoadState E s hk).state
  readWrite : ∀ s, R s (hotkeyReadWrite s)
  toggleEncode : ∀ s, R s (hotkeyToggleEncode s)
  release : ∀ s event hk, R s (keyRelease E s event hk)
  arTicks : ∀ s t, R s { s with ar_ticks := t }
  advanceFrame : ∀ s b, R s { s with advance_frame := b }
  queue : ∀ s q, R s { s with xqueue := q }
  received : ∀ s m rest, R s { s with message := m, messages := rest }
  boundaryMessage : ∀ s, R s (handleBoundaryMessage E s).state
  pseudoSaveState : ∀ s, R s (checkPseudoSaveState s)

/-- The state `b` is reached from the state `a` by elementary steps of a boundary
cycle: every step invariant relates them. -/
def Reaches (E : Extern) (a b : GameState) : Prop :=
  ∀ R : GameState → GameState → Prop, StepInvariant E R → R a b

/-- The state in which `launchGame` starts the handshake: the game window is
unvalidated, `gamename` is extracted from `gamepath`, the status is `ACTIVE`. -/
def launchStart (s : GameState) : GameState :=
  { s with context := { s.context with
    game_window := 0
    gamename := (s.context.gamepath.splitOn "/").getLastD s.context.gamepath
    status := RunStatus.ACTIVE } }

/-- The state in which `launchGame` enters the `while (1)` loop when the handshake
ended in `s1`: the initial sends are done, the movie is opened, and
`last_savestate_slot` and `ar_ticks` are -1. -/
def loopStart (E : Extern) (linked_libs : List String) (s1 : GameState) : GameState :=
  { sendInit s1 linked_libs with
    movie :=
      if (sendInit s1 linked_libs).context.recording = RecStatus.RECORDING_READ_WRITE ∨
          (sendInit s1 linked_libs).context.recording = RecStatus.RECORDING_READ_ONLY then
        E.loadMovie (sendInit s1 linked_libs).files
          (sendInit s1 linked_libs).context.config.moviefile { input_list := [] }
      else
        { input_list := [] }
    last_savestate_slot := -1
    ar_ticks := -1 }

/-- The enumerators `HOTKEY_SAVESTATE1 .. HOTKEY_SAVESTATE9` and
`HOTKEY_LOADSTATE1 .. HOTKEY_LOADSTATE9` are consecutive values. -/
def Extern.SlotsConsecutive (E : Extern) : Prop :=
  E.HOTKEY_SAVESTATE9 = E.HOTKEY_SAVESTATE1 + 8 ∧ E.HOTKEY_LOADSTATE9 = E.HOTKEY_LOADSTATE1 + 8

instance (E : Extern) : Decidable E.SlotsConsecutive := by
  unfold Extern.SlotsConsecutive
  infer_instance

/-- The test that makes `launchGame` skip a `KeyRelease` event: the next queued
event is a `KeyPress` of the same key at the same time (an auto-repeat generated by
the X server, not a release of the key). -/
def retriggered (s : GameState) (event : XEvent) : Bool :=
  match s.xqueue with
  | nev :: _ =>
    decide (nev.type = XEventType.KeyPress ∧ nev.time = event.time ∧ nev.keycode = event.keycode)
  | [] => false

/-- The hotkey a key event resolves to: the key with the current modifiers if that
is mapped, else the key alone if that is mapped (`hotkey_mapping.find`). -/
def hotkeyOf (c : Config) (modifiers ks : KeySym) : Option Int :=
  match c.hotkey_mapping.lookup (ks ||| modifiers) with
  | some hk => some hk
  | none => c.hotkey_mapping.lookup ks

/-! ## sockethelpers.cpp

The socket is a byte stream in each direction.  `send` and `recv` are system calls
that can be interrupted (`EINTR`), fail, or transfer fewer bytes than asked for:
`Socket.faults` lists what the coming calls run into; once it is exhausted every call
transfers all it is asked for (`recv` with `MSG_WAITALL`: all that the peer has sent
before closing).  What is written to `std::cerr` is not modelled. -/

/-- A byte. -/
abbrev Byte := Fin 256

/-- The outcome of one `send` or `recv` system call that does not simply complete:
-1 with `errno == EINTR`, -1 with another `errno`, or a count of `n` bytes. -/
inductive SysResult where
  | eintr
  | error
  | done (n : Nat)
deriving DecidableEq, Repr

/-- The socket `socket_fd` as the helpers see it: the bytes written so far, the
bytes the peer has sent and that are not yet received, and the outcomes of the
coming system calls. -/
structure Socket where
  outgoing : List Byte
  incoming : List Byte
  faults : List SysResult
deriving DecidableEq, Repr

/-- The object representation of an `unsigned int` (4 bytes, native byte order of
x86: least significant byte first). -/
def encodeU32 (n : Nat) : List Byte :=
  [Fin.ofNat (n % 256), Fin.ofNat (n / 256 % 256), Fin.ofNat (n / 65536 % 256),
   Fin.ofNat (n / 16777216 % 256)]

/-- The `unsigned int` that an object representation denotes. -/
def decodeU32 (bytes : List Byte) : Nat :=
  bytes.foldr (fun b acc => b.val + 256 * acc) 0

/-- The object representation of an `int` (two's complement). -/
def encodeI32 (n : Int) : List Byte := encodeU32 (n % (2 : Int) ^ 32).toNat

/-- The `int` that an object representation denotes. -/
def decodeI32 (bytes : List Byte) : Int :=
  if decodeU32 bytes < 2 ^ 31 then (decodeU32 bytes : Int) else (decodeU32 bytes : Int) - 2 ^ 32

/-- The `do ... while` loop of `sendData(elem, size)` on the outgoing bytes: `send`
is called again while it is interrupted.  Returns the outgoing bytes and the faults
left. -/
def sendLoop (elem : List Byte) (size : Nat) : List SysResult → List Byte →
    List Byte × List SysResult
  | [], out => (out ++ elem.take size, [])
  | SysResult.eintr :: faults, out => sendLoop elem size faults out
  | SysResult.error :: faults, out => (out, faults)
  | SysResult.done n :: faults, out => (out ++ elem.take (min n size), faults)

/-- `sendData(elem, size)`; `elem` are the bytes at the pointer. -/
def sendData (elem : List Byte) (size : Nat) (sock : Socket) : Socket :=
  { sock with
    outgoing := (sendLoop elem size sock.faults sock.outgoing).1
    faults := (sendLoop elem size sock.faults sock.outgoing).2 }

/-- `sendMessage(message)`. -/
def sendMessage (message : Int) (sock : Socket) : Socket :=
  sendData (encodeI32 message) 4 sock

/-- `sendString(str)`: `str_size` is `str.size()` converted to `unsigned int`. -/
def sendString (str : List Byte) (sock : Socket) : Socket :=
  sendData str (str.length % 2 ^ 32) (sendData (encodeU32 (str.length % 2 ^ 32)) 4 sock)

/-- The `do ... while` loop of `receiveData(elem, size)` on the incoming bytes.
Returns `ret`, the bytes received, the incoming bytes left and the faults left. -/
def recvLoop (size : Nat) : List SysResult → List Byte →
    Int × List Byte × List Byte × List SysResult
  | [], inc => (((inc.take size).length : Nat), inc.take size, inc.drop size, [])
  | SysResult.eintr :: faults, inc => recvLoop size faults inc
  | SysResult.error :: faults, inc => (-1, [], inc, faults)
  | SysResult.done n :: faults, inc =>
    (((inc.take (min n size)).length : Nat), inc.take (min n size), inc.drop (min n size), faults)

/-- `receiveData(elem, size)`: `ret`, the bytes at `elem` afterwards (`elem` are the
bytes there before the call; the bytes received overwrite its beginning) and the
socket. -/
def receiveData (elem : List Byte) (size : Nat) (sock : Socket) : Int × List Byte × Socket :=
  match recvLoop size sock.faults sock.incoming with
  | (ret, received, inc, faults) =>
    (ret, received ++ elem.drop received.length, { sock with incoming := inc, faults := faults })

/-- `receiveMessage()`; `msg` is the object representation of the uninitialised
local `msg`. -/
def receiveMessage (msg : List Byte) (sock : Socket) : Int × Socket :=
  match receiveData msg 4 sock with
  | (ret, bytes, sock1) => if ret < 0 then (ret, sock1) else (decodeI32 bytes, sock1)

/-- `receiveString()`; `str_size` is the object representation of the uninitialised
local `str_size`. -/
def receiveString (str_size : List Byte) (sock : Socket) : List Byte × Socket :=
  match receiveData str_size 4 sock with
  | (_, size_bytes, sock1) =>
    match receiveData (List.replicate (decodeU32 size_bytes) 0) (decodeU32 size_bytes) sock1 with
    | (_, buf, sock2) => (buf.take (decodeU32 size_bytes), sock2)

/-- What `initSocketProgram` does, in order: it sleeps (`nanosleep`) and it calls
`connect`. -/
inductive ConnectStep where
  | sleep
  | connect
deriving DecidableEq, Repr

/-- `MAX_RETRIES` of `initSocketProgram`. -/
def MAX_RETRIES : Nat := 10

/-- The `while (connect(...))` loop of `initSocketProgram`, entered with `retry`
failed attempts and the steps `steps` behind it; `connect i` tells whether the
attempt number `i` (from 0) succeeds.  `fuel` bounds the number of attempts; the
result is `none` when it runs out. -/
def connectLoop (connect : Nat → Bool) : Nat → Nat → List ConnectStep →
    Option (Bool × List ConnectStep)
  | 0, _, _ => none
  | fuel + 1, retry, steps =>
    if connect retry then
      some (true, steps ++ [ConnectStep.connect])
    else if retry + 1 < MAX_RETRIES then
      connectLoop connect fuel (retry + 1) (steps ++ [ConnectStep.connect, ConnectStep.sleep])
    else
      some (false, steps ++ [ConnectStep.connect])

/-- `initSocketProgram()`: the value returned and the steps taken. -/
def initSocketProgram (connect : Nat → Bool) : Option (Bool × List ConnectStep) :=
  connectLoop connect MAX_RETRIES 0 [ConnectStep.sleep]

/-- The coming system calls are at most interrupted: none fails and none transfers
fewer bytes than asked for. -/
def onlyInterrupts (faults : List SysResult) : Prop :=
  ∀ f ∈ faults, f = SysResult.eintr

instance (faults : List SysResult) : Decidable (onlyInterrupts faults) := by
  unfold onlyInterrupts
  infer_instance

/-! ## main.c (the command-line controller)

The definitions of main.c live in the namespace `MainC`.  `recv` is called directly
and its result is ignored: an entry `none` of a script is a `recv` that delivered
nothing and left the variable as it was.  Output to `stdout` and `stderr` is not
modelled. -/

namespace MainC

/-- The fields of `struct TasFlags` (tasflags.h) that main.c uses. -/
structure TasFlags where
  running : Int
  recording : Int
  fastforward : Int
  av_dumping : Int
deriving DecidableEq, Repr

/-- Declarations main.c takes from headers that are not part of the sources: the
message tags of messages.h, the entries of the `hotkeys` array after
`default_hotkeys(hotkeys)`, and `XkbKeycodeToKeysym(display, kc, 0, 0)`. -/
structure Decls where
  MSGB_PID : Int
  MSGB_END_INIT : Int
  MSGB_QUIT : Int
  MSGB_START_FRAMEBOUNDARY : Int
  MSGN_TASFLAGS : Int
  MSGN_DUMP_FILE : Int
  MSGN_END_INIT : Int
  MSGN_KEYBOARD_INPUT : Int
  MSGN_END_FRAMEBOUNDARY : Int
  HOTKEY_FRAMEADVANCE : KeySym
  HOTKEY_PLAYPAUSE : KeySym
  HOTKEY_FASTFORWARD : KeySym
  HOTKEY_SAVESTATE : KeySym
  HOTKEY_LOADSTATE : KeySym
  HOTKEY_READWRITE : KeySym
  keysym : Nat → KeySym

/-- What `main` does to the socket, to the recording and to the savestate, one entry
per call. -/
inductive Effect where
  /-- The call `send(socket_fd, &message, sizeof(int), 0)`. -/
  | sendMessage (message : Int)
  /-- The call `send(socket_fd, &tasflags, sizeof(struct TasFlags), 0)`. -/
  | sendTasFlags (tasflags : TasFlags)
  /-- The calls that send `dumpfile_size` and the bytes of `dumpfile`. -/
  | sendDumpFile (dumpfile : Option String)
  /-- The call `send(socket_fd, ai.keyboard, ALLINPUTS_MAXKEY * sizeof(KeySym), 0)`. -/
  | sendKeyboard (keyboard : List KeySym)
  /-- The call `openRecording(moviefile, tasflags.recording)`. -/
  | openRecording (moviefile : Option String) (recording : Int)
  /-- The call `truncateRecording(fp)`. -/
  | truncateRecording
  /-- The call `writeFrame(fp, frame_counter, ai)`. -/
  | writeFrame (frame_counter : Nat) (keyboard : List KeySym)
  /-- The call `readFrame(fp, frame_counter, &ai)`. -/
  | readFrame (frame_counter : Nat)
  /-- The call `closeRecording(fp)`. -/
  | closeRecording
  /-- The call `saveState(game_pid, &savestate)`. -/
  | saveState
  /-- The call `loadState(game_pid, &savestate)`. -/
  | loadState
  /-- The call `deallocState(&savestate)`. -/
  | deallocState
deriving DecidableEq, Repr

/-- The globals of main.c and the locals `message`, `isidle` and `tasflagsmod` of
`main`, the scripts of the socket (`messages`: what the coming `recv` calls into
`message` deliver, `datas`: those into `game_pid` and `frame_counter`), and the trace
so far. -/
structure State where
  tasflags : TasFlags
  moviefile : Option String
  dumpfile : Option String
  game_pid : Nat
  frame_counter : Nat
  didSave : Int
  message : Int
  isidle : Int
  tasflagsmod : Int
  messages : List (Option Int)
  datas : List (Option Nat)
  trace : List Effect
deriving DecidableEq, Repr

/-- How a piece of `main` is left: it runs on, leaves the `while (1)` loop by
`break`, ends the process with an exit code (`return` from `main` or `exit`), or
waits for an answer that the scripts do not contain. -/
inductive Flow where
  | next (s : State)
  | brk (s : State)
  | exit (code : Int) (s : State)
  | blocked (s : State)
deriving DecidableEq, Repr

/-- The state in which a piece of `main` is left. -/
def Flow.state : Flow → State
  | Flow.next s => s
  | Flow.brk s => s
  | Flow.exit _ s => s
  | Flow.blocked s => s

/-- The exit code with which the process has ended, if it has. -/
def Flow.exitCode : Flow → Option Int
  | Flow.exit code _ => some code
  | _ => none

/-- The display during one boundary cycle: the events of the successive iterations
of the `do ... while (isidle)` loop, the keyboard that `format_keyboard` produces,
the content of the uninitialised `ai.keyboard`, the result of `writeFrame`, and the
keyboard that `readFrame` delivers (`none` when it fails). -/
structure CycleEnv where
  polls : List (List XEvent)
  keyboard : List KeySym
  garbage : List KeySym
  writeOk : Bool
  readFrame : Option (List KeySym)
deriving DecidableEq, Repr

/-- Append effects to the trace. -/
def State.emit (s : State) (es : List Effect) : State :=
  { s with trace := s.trace ++ es }

/-- The C operator `!` on an `int`. -/
def lnot (x : Int) : Int := if x = 0 then 1 else 0

/-- The option loop `while ((c = getopt(argc, argv, "r:w:d:")) != -1)`; `opts` are
the successive results of `getopt` with the `optarg` they come with.  For this option
string `getopt` returns `'?'` for an unknown option and for an option whose argument
is missing. -/
def parseOptions : List (Char × String) → State → Flow
  | [], s => Flow.next s
  | (c, optarg) :: opts, s =>
    if c = 'r' then
      parseOptions opts { s with tasflags := { s.tasflags with recording := 0 }, moviefile := some optarg }
    else if c = 'w' then
      parseOptions opts { s with tasflags := { s.tasflags with recording := 1 }, moviefile := some optarg }
    else if c = 'd' then
      parseOptions opts { s with tasflags := { s.tasflags with av_dumping := 1 }, dumpfile := some optarg }
    else if c = '?' then
      /- "Unknown option character" is printed -/
      parseOptions opts s
    else
      Flow.exit 1 s

/-- One `recv(socket_fd, &message, sizeof(int), 0)`; `none` when the script is
exhausted. -/
def recvMessage (s : State) : Option State :=
  match s.messages with
  | [] => none
  | none :: rest => some { s with messages := rest }
  | some m :: rest => some { s with message := m, messages := rest }

/-- The `while (message != MSGB_END_INIT)` loop of the handshake, entered with the
message just received in `s.message`; `fuel` bounds the number of messages handled.
Without fuel a `MSGB_PID` message waits for what follows it, and any other message
than `MSGB_END_INIT` ends the process as it does with fuel. -/
def initLoop (D : Decls) : Nat → State → Flow
  | 0, s =>
    if s.message ≠ D.MSGB_END_INIT then
      if s.message = D.MSGB_PID then
        Flow.blocked s
      else
        /- "Message init: unknown message" -/
        Flow.exit 1 s
    else
      Flow.next s
  | fuel + 1, s =>
    if s.message ≠ D.MSGB_END_INIT then
      if s.message = D.MSGB_PID then
        match s.datas with
        | [] => Flow.blocked s
        | d :: ds =>
          match recvMessage { s with datas := ds, game_pid := d.getD s.game_pid } with
          | none => Flow.blocked { s with datas := ds, game_pid := d.getD s.game_pid }
          | some s1 => initLoop D fuel s1
      else
        /- "Message init: unknown message" -/
        Flow.exit 1 s
    else
      Flow.next s

/-- "Send informations to the game" and what follows it up to the loop. -/
def sendInit (D : Decls) (s : State) : State :=
  let s1 := { s with message := D.MSGN_TASFLAGS }.emit
    [Effect.sendMessage D.MSGN_TASFLAGS, Effect.sendTasFlags s.tasflags]
  let s2 :=
    if s1.tasflags.av_dumping ≠ 0 then
      { s1 with message := D.MSGN_DUMP_FILE }.emit
        [Effect.sendMessage D.MSGN_DUMP_FILE, Effect.sendDumpFile s1.dumpfile]
    else s1
  let s3 := { s2 with message := D.MSGN_END_INIT }.emit [Effect.sendMessage D.MSGN_END_INIT]
  if s3.tasflags.recording ≥ 0 then
    s3.emit [Effect.openRecording s3.moviefile s3.tasflags.recording]
  else s3

/-- The block `if (ks == hotkeys[HOTKEY_FRAMEADVANCE])`. -/
def pressFrameAdvance (D : Decls) (ks : KeySym) (s : State) : State :=
  if ks = D.HOTKEY_FRAMEADVANCE then
    { s with isidle := 0, tasflags := { s.tasflags with running := 0 }, tasflagsmod := 1 }
  else s

/-- The block `if (ks == hotkeys[HOTKEY_PLAYPAUSE])`: `isidle` is the negation of
the new value of `tasflags.running`. -/
def pressPlayPause (D : Decls) (ks : KeySym) (s : State) : State :=
  if ks = D.HOTKEY_PLAYPAUSE then
    { s with
      tasflags := { s.tasflags with running := lnot s.tasflags.running }
      tasflagsmod := 1
      isidle := lnot (lnot s.tasflags.running) }
  else s

/-- The block `if (ks == hotkeys[HOTKEY_FASTFORWARD])` of a key press. -/
def pressFastForward (D : Decls) (ks : KeySym) (s : State) : State :=
  if ks = D.HOTKEY_FASTFORWARD then
    { s with tasflags := { s.tasflags with fastforward := 1 }, tasflagsmod := 1 }
  else s

/-- The block `if (ks == hotkeys[HOTKEY_SAVESTATE])`. -/
def pressSaveState (D : Decls) (ks : KeySym) (s : State) : State :=
  if ks = D.HOTKEY_SAVESTATE then
    { (if s.didSave ≠ 0 then s.emit [Effect.deallocState] else s).emit [Effect.saveState] with
      didSave := 1 }
  else s

/-- The block `if (ks == hotkeys[HOTKEY_LOADSTATE])`. -/
def pressLoadState (D : Decls) (ks : KeySym) (s : State) : State :=
  if ks = D.HOTKEY_LOADSTATE then
    if s.didSave ≠ 0 then s.emit [Effect.loadState] else s
  else s

/-- The block `if (ks == hotkeys[HOTKEY_READWRITE])`. -/
def pressReadWrite (D : Decls) (ks : KeySym) (s : State) : State :=
  if ks = D.HOTKEY_READWRITE then
    let s1 :=
      if s.tasflags.recording ≥ 0 then
        { s with tasflags := { s.tasflags with recording := lnot s.tasflags.recording } }
      else s
    let s2 := if s1.tasflags.recording = 1 then s1.emit [Effect.truncateRecording] else s1
    { s2 with tasflagsmod := 1 }
  else s

/-- The body of `if (event.type == KeyPress)` for the key `ks`: the six `if` blocks
are run one after the other, in source order. -/
def keyPress (D : Decls) (s : State) (ks : KeySym) : State :=
  pressReadWrite D ks (pressLoadState D ks (pressSaveState D ks
    (pressFastForward D ks (pressPlayPause D ks (pressFrameAdvance D ks s)))))

/-- The body of `if (event.type == KeyRelease)` for the key `ks`. -/
def keyRelease (D : Decls) (s : State) (ks : KeySym) : State :=
  if ks = D.HOTKEY_FASTFORWARD then
    { s with tasflags := { s.tasflags with fastforward := 0 }, tasflagsmod := 1 }
  else s

/-- The body of the `while (XPending(display) > 0)` loop for one event. -/
def handleEvent (D : Decls) (s : State) (event : XEvent) : State :=
  let s1 := if event.type = XEventType.KeyPress then keyPress D s (D.keysym event.keycode) else s
  if event.type = XEventType.KeyRelease then keyRelease D s1 (D.keysym event.keycode) else s1

/-- The `while (XPending(display) > 0)` loop over the pending events. -/
def eventLoop (D : Decls) (events : List XEvent) (s : State) : State :=
  events.foldl (handleEvent D) s

/-- The `do ... while (isidle)` loop; each iteration takes the events that are
pending then. -/
def pollLoop (D : Decls) : List (List XEvent) → State → Flow
  | [], s => Flow.blocked s
  | events :: polls, s =>
    if (eventLoop D events s).isidle ≠ 0 then pollLoop D polls (eventLoop D events s)
    else Flow.next (eventLoop D events s)

/-- The keyboard of `ai` after the three `if (tasflags.recording == ...)` blocks. -/
def frameKeyboard (c : CycleEnv) (s : State) : List KeySym :=
  if s.tasflags.recording = 0 then
    match c.readFrame with
    | some keyboard => keyboard
    | none => c.garbage
  else if s.tasflags.recording = -1 ∨ s.tasflags.recording = 1 then c.keyboard
  else c.garbage

/-- The three `if (tasflags.recording == ...)` blocks: the frame is written or read,
and the recording mode falls back to -1 when that fails. -/
def recordFrame (c : CycleEnv) (s : State) : State :=
  let s1 :=
    if s.tasflags.recording = 1 then
      let s0 := s.emit [Effect.writeFrame s.frame_counter c.keyboard]
      if !c.writeOk then
        /- writing failed, returning to no recording mode -/
        { s0 with tasflags := { s0.tasflags with recording := -1 } }
      else s0
    else s
  if s1.tasflags.recording = 0 then
    let s0 := s1.emit [Effect.readFrame s1.frame_counter]
    if c.readFrame.isNone then
      { s0 with tasflags := { s0.tasflags with recording := -1 } }
    else s0
  else s1

/-- "Send tasflags if modified" and "Send inputs and end of frame". -/
def sendFrame (D : Decls) (s : State) (keyboard : List KeySym) : State :=
  let s1 :=
    if s.tasflagsmod ≠ 0 then
      { s with message := D.MSGN_TASFLAGS }.emit
        [Effect.sendMessage D.MSGN_TASFLAGS, Effect.sendTasFlags s.tasflags]
    else s
  { s1 with message := D.MSGN_END_FRAMEBOUNDARY }.emit
    [Effect.sendMessage D.MSGN_KEYBOARD_INPUT, Effect.sendKeyboard keyboard,
     Effect.sendMessage D.MSGN_END_FRAMEBOUNDARY]

/-- The end of a boundary cycle, from `struct AllInputs ai;` on. -/
def finishFrame (D : Decls) (c : CycleEnv) (s : State) : State :=
  sendFrame D (recordFrame c s) (frameKeyboard c s)

/-- The head of a boundary cycle: "wait for frame boundary", the two tests of the
message, the `recv` of `frame_counter` and the initialisation of `isidle` and
`tasflagsmod`. -/
def receiveBoundary (D : Decls) (s : State) : Flow :=
  match recvMessage s with
  | none => Flow.blocked s
  | some s1 =>
    if s1.message = D.MSGB_QUIT then
      Flow.brk s1
    else if s1.message ≠ D.MSGB_START_FRAMEBOUNDARY then
      Flow.exit 1 s1
    else
      match s1.datas with
      | [] => Flow.blocked s1
      | d :: ds =>
        Flow.next { s1 with
          datas := ds
          frame_counter := d.getD s1.frame_counter
          isidle := lnot s1.tasflags.running
          tasflagsmod := 0 }

/-- One iteration of the `while (1)` loop. -/
def cycle (D : Decls) (c : CycleEnv) (s : State) : Flow :=
  match receiveBoundary D s with
  | Flow.next s1 =>
    match pollLoop D c.polls s1 with
    | Flow.next s2 => Flow.next (finishFrame D c s2)
    | f => f
  | f => f

/-- The `while (1)` loop; `Flow.brk` is its `break`. -/
def loop (D : Decls) : List CycleEnv → State → Flow
  | [], s =>
    match receiveBoundary D s with
    | Flow.next s1 => Flow.blocked s1
    | f => f
  | c :: cs, s =>
    match cycle D c s with
    | Flow.next s1 => loop D cs s1
    | f => f

/-- The statements after the `while (1)` loop. -/
def afterLoop (s : State) : Flow :=
  let s1 := if s.didSave ≠ 0 then s.emit [Effect.deallocState] else s
  let s2 := if s1.tasflags.recording ≥ 0 then s1.emit [Effect.closeRecording] else s1
  Flow.exit 0 s2

/-- `main(argc, argv)`: `opts` are the results of `getopt`, `display` tells whether
`XOpenDisplay` succeeds, `connect` whether `connect` does, `cycles` is the display
during the boundary cycles.  The result is `Flow.exit` with the exit code, or
`Flow.blocked`. -/
def main (D : Decls) (opts : List (Char × String)) (display connect : Bool)
    (cycles : List CycleEnv) (s : State) : Flow :=
  match parseOptions opts s with
  | Flow.next s1 =>
    if !display then
      /- "Cannot open display" -/
      Flow.exit 1 s1
    else if !connect then
      /- "Couldn't connect to socket." -/
      Flow.exit 1 s1
    else
      match recvMessage s1 with
      | none => Flow.blocked s1
      | some s2 =>
        match initLoop D s2.messages.length s2 with
        | Flow.next s3 =>
          match loop D cycles (sendInit D s3) with
          | Flow.brk s4 => afterLoop s4
          | f => f
        | f => f
  | f => f

end MainC

/-- An instance of `MainC.Decls` for evaluating the definitions. -/
def sampleDecls : MainC.Decls :=
  { MSGB_START_FRAMEBOUNDARY := 0
    MSGB_PID := 1
    MSGB_END_INIT := 2
    MSGB_QUIT := 3
    MSGN_TASFLAGS := 10
    MSGN_DUMP_FILE := 11
    MSGN_END_INIT := 12
    MSGN_KEYBOARD_INPUT := 13
    MSGN_END_FRAMEBOUNDARY := 14
    HOTKEY_FRAMEADVANCE := 0x76
    HOTKEY_PLAYPAUSE := 0xff13
    HOTKEY_FASTFORWARD := 0xff09
    HOTKEY_SAVESTATE := 0xffc2
    HOTKEY_LOADSTATE := 0xffc4
    HOTKEY_READWRITE := 0x6f
    keysym := fun kc => kc }

/-- A state of `main` for evaluating the definitions: running, recording disabled,
the game sends `MSGB_END_INIT` and then `MSGB_QUIT`. -/
def sampleMain : MainC.State :=
  { tasflags := { running := 1, recording := -1, fastforward := 0, av_dumping := 0 }
    moviefile := none
    dumpfile := none
    game_pid := 0
    frame_counter := 0
    didSave := 0
    message := 0
    isidle := 0
    tasflagsmod := 0
    messages := [some 2, some 3]
    datas := []
    trace := [] }

/-- A state of `main` in playback mode at the head of a boundary cycle: the game
sends `MSGB_START_FRAMEBOUNDARY` and the frame counter 7. -/
def samplePlayback : MainC.State :=
  { sampleMain with
    tasflags := { running := 1, recording := 0, fastforward := 0, av_dumping := 0 }
    moviefile := some "movie"
    messages := [some 0]
    datas := [some 7] }

/-- A boundary cycle without events in which `readFrame` fails. -/
def sampleFailedRead : MainC.CycleEnv :=
  { polls := [[]]
    keyboard := [0x61]
    garbage := [0x62]
    writeOk := true
    readFrame := none }

/-- An input editor over a movie of one frame in which 16 keys are held, so that the
keyboard array is full, with the playhead at frame 0 and the first held key as its
only column. -/
def sampleFullEditor : InputEditorModel :=
  { context := { sampleContext with framecount := 0 }
    movie := { input_list := [{ specExtern.emptyInputs with keyboard := List.range' 0x61 16 }] }
    input_set := [{ type := 0, value := 0x61, description := "a" }] }

/-- A state of `launchGame` that is loading a pseudo savestate stored at frame 10:
the restarted game is at frame 5 and runs with fast-forward on. -/
def samplePseudoLoading : GameState :=
  { sampleState with
    pseudosavestate :=
      { loading := true, framecount := 10, recording := RecStatus.RECORDING_WRITE }
    context := { sampleContext with
      recording := RecStatus.RECORDING_READ_WRITE
      config := { sampleContext.config with
        sc := { sampleContext.config.sc with running := true, fastforward := true } } } }

/-- A socket whose peer has closed the connection without sending anything: `recv`
returns 0. -/
def sampleClosedSocket : Socket :=
  { outgoing := [], incoming := [], faults := [] }

/-- The display while the game window (7) has the focus and the key `0x61` is held. -/
def sampleLiveKey : LiveSample :=
  { sampleLive with
    built := { specExtern.emptyInputs with
      keyboard := 0x61 :: List.replicate 15 XK_VoidSymbol } }

/-- The state `sampleState` at frame 1 with a live movie of one frame and nothing
pending on the socket. -/
def sampleSlotStart : GameState :=
  { sampleState with
    context := { sampleContext with framecount := 1 }
    movie := { input_list := [specExtern.emptyInputs] }
    messages := []
    datas := [] }

/-- The state after: save to slot 1 at frame 1; the end of the boundary, which
records a frame with the key `0x61`; the next boundary, at which the game reports
frame 2; save to slot 2. -/
def sampleSlotSaved : GameState :=
  (keyPress specExtern
    (waitFrameBoundary specExtern
      { finishBoundary specExtern
          (keyPress specExtern sampleSlotStart specExtern.HOTKEY_SAVESTATE1).state
          sampleLiveKey with
        messages := [specExtern.MSGB_FRAMECOUNT, specExtern.MSGB_START_FRAMEBOUNDARY]
        datas := [2] }).state
    (specExtern.HOTKEY_SAVESTATE1 + 1)).state

/-- The state after the hotkeys load from slot 1 and load from slot 2, pressed in
`sampleSlotSaved`; the game answers each load with the frame count of the slot. -/
def sampleSlotLoaded : GameState :=
  (keyPress specExtern
    { (keyPress specExtern
        { sampleSlotSaved with messages := [specExtern.MSGB_FRAMECOUNT], datas := [1] }
        specExtern.HOTKEY_LOADSTATE1).state with
      messages := [specExtern.MSGB_FRAMECOUNT], datas := [2] }
    (specExtern.HOTKEY_LOADSTATE1 + 1)).state

/-! ## sdlversion.cpp

The dynamic linker is an environment: what `dlsym` and `dlopen` answer during a call.
A function pointer is modelled by the version the function reports, `none` being
`nullptr`.  Calls of `debuglog` are not modelled. -/

/-- The `SDL_version` of SDL: three `Uint8` fields. -/
structure SDL_version where
  major : Fin 256
  minor : Fin 256
  patch : Fin 256
deriving DecidableEq, Repr

/-- What the dynamic linker answers during one call of `get_sdlversion`: the results
of `dlsym(RTLD_DEFAULT, "SDL_GetVersion")` and of
`dlsym(RTLD_DEFAULT, "SDL_Linked_Version")` (the version the function found reports),
and whether `dlopen("libSDL-1.2.so.0", RTLD_NOLOAD)` and
`dlopen("libSDL2-2.0.so.0", RTLD_NOLOAD)` return a handle. -/
structure SdlLinker where
  SDL_GetVersion : Option SDL_version
  SDL_Linked_Version : Option SDL_version
  sdl1 : Bool
  sdl2 : Bool
deriving DecidableEq, Repr

/-- A call into the dynamic linker or into SDL made by `get_sdlversion`. -/
inductive SdlCall where
  | dlsym (symbol : String)
  | SDL_GetVersion
  | SDL_Linked_Version
  | dlopen (file : String)
  | dlclose (file : String)
deriving DecidableEq, Repr

/-- The static `SDLver` of `get_sdlversion`, the pointers `orig::SDL_GetVersion` and
`orig::SDL_Linked_Version`, and the calls made so far. -/
structure SdlState where
  SDLver : Int
  SDL_GetVersion : Option SDL_version
  SDL_Linked_Version : Option SDL_version
  calls : List SdlCall
deriving DecidableEq, Repr

/-- "First look if symbols are already accessible": the two `dlsym` lookups. -/
def lookupSymbols (env : SdlLinker) (s : SdlState) : SdlState :=
  let s1 :=
    if s.SDL_GetVersion = none then
      { s with SDL_GetVersion := env.SDL_GetVersion
               calls := s.calls ++ [SdlCall.dlsym "SDL_GetVersion"] }
    else s
  { s1 with SDL_Linked_Version := env.SDL_Linked_Version
            calls := s1.calls ++ [SdlCall.dlsym "SDL_Linked_Version"] }

/-- The local `ver` after the two `if` blocks that call the version functions, and
the state after the calls. -/
def readVersion (s : SdlState) : SDL_version × SdlState :=
  let r1 : SDL_version × SdlState :=
    match s.SDL_GetVersion with
    | some v => (v, { s with calls := s.calls ++ [SdlCall.SDL_GetVersion] })
    | none => ({ major := 0, minor := 0, patch := 0 }, s)
  match r1.2.SDL_Linked_Version with
  | some v => (v, { r1.2 with calls := r1.2.calls ++ [SdlCall.SDL_Linked_Version] })
  | none => r1

/-- "Determine which library was already dynamically loaded." -/
def detectLibrary (env : SdlLinker) (s : SdlState) : SdlState :=
  let s1 := { s with calls := s.calls ++
    [SdlCall.dlopen "libSDL-1.2.so.0", SdlCall.dlopen "libSDL2-2.0.so.0"] }
  if env.sdl1 ∧ ¬ env.sdl2 then
    { s1 with SDLver := 1, calls := s1.calls ++ [SdlCall.dlclose "libSDL-1.2.so.0"] }
  else if ¬ env.sdl1 ∧ env.sdl2 then
    { s1 with SDLver := 2, calls := s1.calls ++ [SdlCall.dlclose "libSDL2-2.0.so.0"] }
  else if env.sdl1 ∧ env.sdl2 then
    { s1 with calls := s1.calls ++
      [SdlCall.dlclose "libSDL-1.2.so.0", SdlCall.dlclose "libSDL2-2.0.so.0"] }
  else
    s1

/-- `get_sdlversion()`: the value returned and the state afterwards. -/
def get_sdlversion (env : SdlLinker) (s : SdlState) : Int × SdlState :=
  if s.SDLver ≠ -1 then
    (s.SDLver, s)
  else
    let r := readVersion (lookupSymbols env s)
    if r.1.major > 0 then
      (((r.1.major : Nat) : Int), { r.2 with SDLver := ((r.1.major : Nat) : Int) })
    else
      ((detectLibrary env r.2).SDLver, detectLibrary env r.2)

/-- The values returned by successive calls of `get_sdlversion`, one per linker
environment. -/
def sdlversionRun : List SdlLinker → SdlState → List Int
  | [], _ => []
  | env :: envs, s => (get_sdlversion env s).1 :: sdlversionRun envs (get_sdlversion env s).2

/-- The state in which the program starts: `SDLver` is -1, the pointers are null. -/
def sdlStart : SdlState :=
  { SDLver := -1, SDL_GetVersion := none, SDL_Linked_Version := none, calls := [] }

/-! ## InputEditorModel.cpp: `buildInputSet`

`std::set<SingleInput>` is the list of its elements in increasing order.  The
operators `<` and `==` of `SingleInput` are declared in a header that is not part of
the sources and are parameters. -/

/-- The comparison operators of `SingleInput`: `lt a b` is `a < b`, `eq a b` is
`a == b`. -/
structure SingleInputOps where
  lt : SingleInput → SingleInput → Bool
  eq : SingleInput → SingleInput → Bool

/-- The operators compare the type first and the value second, and do not look at the
description. -/
def SingleInputOps.ByTypeValue (ops : SingleInputOps) : Prop :=
  (∀ a b, ops.lt a b = true ↔ (a.type < b.type ∨ (a.type = b.type ∧ a.value < b.value))) ∧
  (∀ a b, ops.eq a b = true ↔ (a.type = b.type ∧ a.value = b.value))

/-- `std::set<SingleInput>::insert(si)`: `si` is put at its place in the order unless
the set holds an equivalent element (neither is less than the other). -/
def setInsert (ops : SingleInputOps) (si : SingleInput) : List SingleInput → List SingleInput
  | [] => [si]
  | x :: xs =>
    if ops.lt si x then si :: x :: xs
    else if ops.lt x si then x :: setInsert ops si xs
    else x :: xs

/-- The `SingleInput` that `buildInputSet` makes of the key `ks`:
`{IT_KEYBOARD, static_cast<unsigned int>(ks), std::to_string(ks)}`. -/
def keyInput (E : Extern) (ks : KeySym) : SingleInput :=
  { type := E.IT_KEYBOARD, value := ks % 2 ^ 32, description := toString ks }

/-- The `SingleInput` that `buildInputSet` makes of the button `b` of the controller
`c`: `{((c+1) << IT_CONTROLLER_ID_SHIFT) + b, 1, ""}`. -/
def buttonInput (E : Extern) (c b : Nat) : SingleInput :=
  { type := ((c + 1) <<< E.IT_CONTROLLER_ID_SHIFT) + b, value := 1, description := "" }

/-- The loop `for (const KeySym& ks : ai.keyboard)` of `buildInputSet`: it ends at
the first `XK_VoidSymbol`. -/
def gatherKeys (E : Extern) (ops : SingleInputOps) :
    List KeySym → List SingleInput → List SingleInput
  | [], new_input_set => new_input_set
  | ks :: rest, new_input_set =>
    if ks ≠ XK_VoidSymbol then
      gatherKeys E ops rest (setInsert ops (keyInput E ks) new_input_set)
    else
      new_input_set

/-- The loop `for (int b=0; b<16; b++)` of `buildInputSet` for the controller `c`
with the button mask `mask`. -/
def gatherButtons (E : Extern) (ops : SingleInputOps) (c mask : Nat)
    (new_input_set : List SingleInput) : List SingleInput :=
  (List.range 16).foldl
    (fun acc b => if mask &&& (1 <<< b) ≠ 0 then setInsert ops (buttonInput E c b) acc else acc)
    new_input_set

/-- The loop `for (int c = 0; c < AllInputs::MAXJOYS; c++)` of `buildInputSet`. -/
def gatherControllers (E : Extern) (ops : SingleInputOps) (controller_buttons : List Nat)
    (new_input_set : List SingleInput) : List SingleInput :=
  controller_buttons.enum.foldl
    (fun acc cm => if cm.2 = 0 then acc else gatherButtons E ops cm.1 cm.2 acc)
    new_input_set

/-- The body of the loop over the frames of the movie. -/
def gatherFrame (E : Extern) (ops : SingleInputOps) (new_input_set : List SingleInput)
    (ai : AllInputs) : List SingleInput :=
  gatherControllers E ops ai.controller_buttons (gatherKeys E ops ai.keyboard new_input_set)

/-- "Gather input description": the description of the first entry of the key
mapping's `input_list` that `si` is equal to, if there is one. -/
def describeInput (ops : SingleInputOps) (input_list : List SingleInput) (si : SingleInput) :
    SingleInput :=
  match input_list.find? (fun ti => ops.eq si ti) with
  | some ti => { si with description := ti.description }
  | none => si

/-- `InputEditorModel::buildInputSet()`. -/
def buildInputSet (E : Extern) (ops : SingleInputOps) (m : InputEditorModel) :
    InputEditorModel :=
  { m with
    input_set :=
      (m.movie.input_list.foldl (gatherFrame E ops) []).map
        (describeInput ops m.context.config.input_list) }

/-- The set `set` has an entry of type `t` and value `v`. -/
def hasInput (set : List SingleInput) (t v : Nat) : Prop :=
  ∃ si ∈ set, si.type = t ∧ si.value = v

/-- Operators of `SingleInput` for evaluating the definitions. -/
def sampleOps : SingleInputOps :=
  { lt := fun a b => decide (a.type < b.type ∨ (a.type = b.type ∧ a.value < b.value))
    eq := fun a b => decide (a.type = b.type ∧ a.value = b.value) }

/-- An input editor over a movie of two frames: the keys `0x62`, `0x61` and the
buttons 0 and 3 of the second controller, then the key `0x61` once more; the key
mapping describes the key `0x61` as "A". -/
def sampleBuildEditor : InputEditorModel :=
  { context := { sampleContext with
      config := { sampleContext.config with
        input_list := [{ type := 0, value := 0x61, description := "A" }] } }
    movie := { input_list :=
      [{ specExtern.emptyInputs with
          keyboard := 0x62 :: 0x61 :: List.replicate 14 XK_VoidSymbol
          controller_buttons := [0, 9, 0, 0] },
       { specExtern.emptyInputs with
          keyboard := 0x61 :: List.replicate 15 XK_VoidSymbol }] }
    input_set := [] }

/-- The state `sampleState` with the game running and `MSGB_START_FRAMEBOUNDARY` as
the next message. -/
def sampleRunning : GameState :=
  { sampleState with
    context := { sampleContext with
      config := { sampleContext.config with
        sc := { sampleContext.config.sc with running := true } } }
    messages := [specExtern.MSGB_START_FRAMEBOUNDARY]
    datas := [] }

/-- A boundary cycle in which the poll loop runs once without events, while the game
window has the focus and no key is held. -/
def sampleQuietCycle : CycleEnv :=
  { polls := [{ modifiers := 0, arrivals := [] }]
    sample := sampleLive }

/-! ## Properties: threads.cpp -/

theorem setMainThread_fixed (p : Option ThreadId) (m : ThreadId) (h : m ≠ 0) :
    setMainThread p m = m := by
  simp [setMainThread, h]

theorem setMainThreadRun_fixed (calls : List (Option ThreadId)) (m : ThreadId) (h : m ≠ 0) :
    setMainThreadRun calls m = m := by
  induction calls with
  | nil => rfl
  | cons c cs ih =>
    simp only [setMainThreadRun, List.foldl_cons] at ih ⊢
    rw [setMainThread_fixed c m h]
    exact ih

theorem mainThreadChanges_fixed (calls : List (Option ThreadId)) (m : ThreadId) (h : m ≠ 0) :
    mainThreadChanges calls m = 0 := by
  induction calls with
  | nil => rfl
  | cons c cs ih =>
    simp only [mainThreadChanges, setMainThread_fixed c m h, if_true]
    simpa using ih

theorem mainThreadChanges_le_one (calls : List (Option ThreadId)) (m : ThreadId) :
    mainThreadChanges calls m ≤ 1 := by
  induction calls generalizing m with
  | nil => simp [mainThreadChanges]
  | cons c cs ih =>
    simp only [mainThreadChanges]
    by_cases hc : setMainThread c m = m
    · rw [hc]; simp only [if_true]; have := ih m; omega
    · have hm : m = 0 := by
        by_contra hne
        exact hc (setMainThread_fixed c m hne)
      have hne : setMainThread c m ≠ 0 := by
        intro h0; apply hc; rw [h0, hm]
      rw [mainThreadChanges_fixed cs _ hne]
      simp [hc]

theorem setMainThread_idem (p : Option ThreadId) (m : ThreadId) :
    setMainThread p (setMainThread p m) = setMainThread p m := by
  cases p with
  | none => simp [setMainThread]
  | some t =>
    by_cases hm : m = 0
    · by_cases ht : t = 0 <;> simp [setMainThread, hm, ht]
    · simp [setMainThread, hm]

/-- C9, as stated, fails: with the pthread library loaded (`pthread_self_real`
returns 5) and no main thread designated yet (`mainThread = 0`), `isMainThread`
returns 0, although the claim makes it true whenever `mainThread` is still 0. -/
theorem isMainThread_undesignated_counterexample :
    ¬ (isMainThread (some 5) 0 ≠ 0 ↔ (getThreadId (some 5) = 0 ∨ (0 : ThreadId) = 0)) := by
  decide

/-- C9, amended: `isMainThread` returns true if and only if `pthread_self_real` is
not available (the pthread library is not loaded) or the calling thread's id equals
`mainThread`; the result is 0 or 1. -/
theorem isMainThread_iff (pthread_self_real : Option ThreadId) (mainThread : ThreadId) :
    (isMainThread pthread_self_real mainThread ≠ 0 ↔
      (pthread_self_real = none ∨ pthread_self_real = some mainThread)) ∧
    (isMainThread pthread_self_real mainThread = 0 ∨
      isMainThread pthread_self_real mainThread = 1) := by
  cases pthread_self_real with
  | none => simp [isMainThread]
  | some t =>
    by_cases h : t = mainThread <;> simp [isMainThread, h]

/-- C10: `setMainThread` is idempotent and the first caller wins.  Once `mainThread`
is non-zero, a call from any thread (`p`), and any sequence of calls (`calls`),
leaves it unchanged; when a call has set it to a non-zero id, a later call by any
other thread (`q`) keeps that id; calling twice equals calling once; and over any
sequence of calls, from any initial value, `mainThread` changes at most once. -/
theorem setMainThread_first_caller_wins (calls : List (Option ThreadId))
    (p q : Option ThreadId) (mainThread : ThreadId) :
    (mainThread ≠ 0 → setMainThread p mainThread = mainThread) ∧
    (mainThread ≠ 0 → setMainThreadRun calls mainThread = mainThread) ∧
    (setMainThread p mainThread ≠ 0 →
      setMainThreadRun (q :: calls) (setMainThread p mainThread) = setMainThread p mainThread) ∧
    setMainThread p (setMainThread p mainThread) = setMainThread p mainThread ∧
    mainThreadChanges calls mainThread ≤ 1 :=
  ⟨setMainThread_fixed p mainThread,
   setMainThreadRun_fixed calls mainThread,
   setMainThreadRun_fixed (q :: calls) _,
   setMainThread_idem p mainThread,
   mainThreadChanges_le_one calls mainThread⟩

/-- C10 at a concrete input: thread 7 is the first caller, threads 9, 3 and 8 call
afterwards. -/
theorem setMainThread_first_caller_wins_witness :
    setMainThreadRun [some 9, some 3, none, some 8] (setMainThread (some 7) 0) = 7 ∧
    mainThreadChanges [some 3, none, some 8] 0 ≤ 1 :=
  ⟨(setMainThread_first_caller_wins [some 3, none, some 8] (some 7) (some 9) 0).2.2.1 (by decide),
   (setMainThread_first_caller_wins [some 3, none, some 8] (some 7) (some 9) 0).2.2.2.2⟩

/-! ## Properties: InputEditorModel.cpp -/

theorem ltIntULong_of_nonneg_lt (row : Int) (fc : Nat) (h0 : 0 ≤ row) (h : row < (fc : Int)) :
    ltIntULong row fc = true := by
  unfold ltIntULong
  simp only [decide_eq_true_eq]
  omega

theorem ltIntULong_of_past (row : Int) (fc : Nat)
    (h : ltIntULong row fc = true ∨ (0 ≤ row ∧ row < (fc : Int))) :
    ltIntULong row fc = true := by
  rcases h with h | ⟨h0, h1⟩
  · exact h
  · exact ltIntULong_of_nonneg_lt row fc h0 h1

theorem toggleController_isSome (E : Extern) (si : SingleInput) (ai : AllInputs)
    (h : buttonInRange E si ai.controller_buttons.length) :
    (toggleController E si ai).isSome = true := by
  unfold toggleController
  rcases h with h | h | ⟨h1, h2, h3⟩
  · simp [h]
  · by_cases hm : si.type &&& E.IT_CONTROLLER_ID_MASK = 0
    · simp [hm]
    · simp [hm, h]
  · by_cases hm : si.type &&& E.IT_CONTROLLER_ID_MASK = 0
    · simp [hm]
    · by_cases ha : si.type &&& E.IT_CONTROLLER_AXIS_MASK = 0
      · have hlt : (((si.type &&& E.IT_CONTROLLER_ID_MASK) >>> E.IT_CONTROLLER_ID_SHIFT : Nat) - 1 : Int).toNat
            < ai.controller_buttons.length := by omega
        have hnn : (0 : Int) ≤
            (((si.type &&& E.IT_CONTROLLER_ID_MASK) >>> E.IT_CONTROLLER_ID_SHIFT : Nat) : Int) - 1 := by
          omega
        simp only [hm, ha, ne_eq, not_false_eq_true, if_true, hnn, h3, and_self]
        rw [List.getElem?_eq_getElem hlt]
        simp
      · simp [hm, ha]

theorem toggleInput_some_frames (E : Extern) (m m1 : InputEditorModel) (row col : Int)
    (h : toggleInput E m row col = some m1) :
    m1.movie.input_list.length = m.movie.input_list.length ∧
    ∀ i : Nat, (i : Int) ≠ row → m1.movie.input_list[i]? = m.movie.input_list[i]? := by
  unfold toggleInput at h
  split at h
  · cases h; exact ⟨rfl, fun _ _ => rfl⟩
  · split at h
    · cases h
    · rename_i hneg
      push_neg at hneg
      split at h
      · split at h
        · cases h
          refine ⟨by simp, fun i hi => ?_⟩
          have : row.toNat ≠ i := by omega
          simp [List.getElem?_set_ne this]
        · cases h
      · cases h

theorem toggleInput_isSome (E : Extern) (m : InputEditorModel) (row col : Int)
    (si : SingleInput) (ai : AllInputs) (hrow : 0 ≤ row) (hcol : 0 ≤ col)
    (hsi : m.input_set[col.toNat]? = some si) (hai : m.movie.input_list[row.toNat]? = some ai)
    (hb : buttonInRange E si ai.controller_buttons.length) :
    (toggleInput E m row col).isSome = true := by
  unfold toggleInput
  split
  · rfl
  · have hneg : ¬ (row < 0 ∨ col < 0) := by omega
    simp only [hneg, if_false, hsi, hai]
    have hs : (toggleFrame E si ai).isSome = true := by
      unfold toggleFrame
      split
      · exact toggleController_isSome E si _ hb
      · exact toggleController_isSome E si _ hb
    cases hf : toggleFrame E si ai with
    | none => rw [hf] at hs; cases hs
    | some a => rfl

/-- C8: `toggleInput` on a cell whose row is below `context->framecount` changes
nothing; on any other cell, whenever it completes, the movie keeps its length and
every frame other than `row` is identical; and it does complete on every cell that
exists (for a controller button: whose controller exists). -/
theorem toggleInput_changes_own_row_only (E : Extern) (m : InputEditorModel) (row col : Int) :
    ((ltIntULong row m.context.framecount = true ∨
        (0 ≤ row ∧ row < (m.context.framecount : Int))) →
      toggleInput E m row col = some m) ∧
    (∀ m1, toggleInput E m row col = some m1 →
      m1.movie.input_list.length = m.movie.input_list.length ∧
      ∀ i : Nat, (i : Int) ≠ row → m1.movie.input_list[i]? = m.movie.input_list[i]?) ∧
    (∀ si ai, 0 ≤ row → 0 ≤ col → m.input_set[col.toNat]? = some si →
      m.movie.input_list[row.toNat]? = some ai →
      buttonInRange E si ai.controller_buttons.length →
      (toggleInput E m row col).isSome = true) := by
  refine ⟨fun h => ?_, fun m1 h => toggleInput_some_frames E m m1 row col h,
    fun si ai h0 h1 h2 h3 h4 => toggleInput_isSome E m row col si ai h0 h1 h2 h3 h4⟩
  have hg := ltIntULong_of_past row _ h
  simp [toggleInput, hg]

/-- C8 at a concrete input: a cell of the past row 1 and a cell of the row 2 at the
playhead. -/
theorem toggleInput_changes_own_row_only_witness :
    toggleInput specExtern sampleEditor 1 0 = some sampleEditor ∧
    (toggleInput specExtern sampleEditor 2 0).isSome = true :=
  ⟨(toggleInput_changes_own_row_only specExtern sampleEditor 1 0).1
      (Or.inr ⟨by decide, by decide⟩),
   (toggleInput_changes_own_row_only specExtern sampleEditor 2 0).2.2
      { type := 0, value := 0x61, description := "a" } specExtern.emptyInputs
      (by decide) (by decide) rfl rfl (Or.inl (by decide))⟩

/-! ## Properties: game.cpp, save and load hotkeys -/

theorem sent_append (a b : List Effect) : sent (a ++ b) = sent a ++ sent b := by
  simp [sent]

theorem loadKey_facts (E : Extern) (hE : E.HotkeysDistinct) (hk : Int)
    (h : E.HOTKEY_LOADSTATE1 ≤ hk ∧ hk ≤ E.HOTKEY_LOADSTATE9) :
    hk ≠ E.HOTKEY_FRAMEADVANCE ∧ hk ≠ E.HOTKEY_PLAYPAUSE ∧ hk ≠ E.HOTKEY_FASTFORWARD ∧
    hk ≠ E.HOTKEY_SAVEPSEUDOSTATE ∧ hk ≠ E.HOTKEY_LOADPSEUDOSTATE ∧ hk ≠ E.HOTKEY_READWRITE ∧
    hk ≠ E.HOTKEY_TOGGLE_ENCODE ∧ ¬ (E.HOTKEY_SAVESTATE1 ≤ hk ∧ hk ≤ E.HOTKEY_SAVESTATE9) := by
  obtain ⟨_, hs, hr⟩ := hE
  have key : ∀ x ∈ E.singleHotkeys, hk ≠ x := by
    intro x hx hxe
    exact (hs x hx).2 (hxe ▸ h)
  refine ⟨key _ ?_, key _ ?_, key _ ?_, key _ ?_, key _ ?_, key _ ?_, key _ ?_, ?_⟩
  all_goals first
    | (simp [Extern.singleHotkeys]; done)
    | omega

theorem saveKey_facts (E : Extern) (hE : E.HotkeysDistinct) (hk : Int)
    (h : E.HOTKEY_SAVESTATE1 ≤ hk ∧ hk ≤ E.HOTKEY_SAVESTATE9) :
    hk ≠ E.HOTKEY_FRAMEADVANCE ∧ hk ≠ E.HOTKEY_PLAYPAUSE ∧ hk ≠ E.HOTKEY_FASTFORWARD ∧
    hk ≠ E.HOTKEY_SAVEPSEUDOSTATE ∧ hk ≠ E.HOTKEY_LOADPSEUDOSTATE ∧ hk ≠ E.HOTKEY_READWRITE ∧
    hk ≠ E.HOTKEY_TOGGLE_ENCODE ∧ ¬ (E.HOTKEY_LOADSTATE1 ≤ hk ∧ hk ≤ E.HOTKEY_LOADSTATE9) := by
  obtain ⟨_, hs, hr⟩ := hE
  have key : ∀ x ∈ E.singleHotkeys, hk ≠ x := by
    intro x hx hxe
    exact (hs x hx).1 (hxe ▸ h)
  refine ⟨key _ ?_, key _ ?_, key _ ?_, key _ ?_, key _ ?_, key _ ?_, key _ ?_, ?_⟩
  all_goals first
    | (simp [Extern.singleHotkeys]; done)
    | omega

theorem keyPress_loadKey (E : Extern) (hE : E.HotkeysDistinct) (s : GameState) (hk : Int)
    (h : E.HOTKEY_LOADSTATE1 ≤ hk ∧ hk ≤ E.HOTKEY_LOADSTATE9) :
    keyPress E s hk = hotkeyLoadState E s hk := by
  obtain ⟨h1, h2, h3, h4, h5, h6, h7, h8⟩ := loadKey_facts E hE hk h
  unfold keyPress
  simp only [h1, h2, h3, h4, h5, h6, h7, h8, h, if_false, if_true, and_self]
  cases hotkeyLoadState E s hk <;> rfl

theorem keyPress_saveKey (E : Extern) (hE : E.HotkeysDistinct) (s : GameState) (hk : Int)
    (h : E.HOTKEY_SAVESTATE1 ≤ hk ∧ hk ≤ E.HOTKEY_SAVESTATE9) :
    keyPress E s hk = Flow.next (hotkeySaveState E s hk) := by
  obtain ⟨h1, h2, h3, h4, h5, h6, h7, h8⟩ := saveKey_facts E hE hk h
  unfold keyPress
  simp only [h1, h2, h3, h4, h5, h6, h7, h8, h, if_false, if_true, and_self]

theorem loadSwitch_refused (E : Extern) (s : GameState) (statei : Int)
    (h : (s.context.recording = RecStatus.RECORDING_READ_WRITE ∨
          s.context.recording = RecStatus.RECORDING_READ_ONLY) ∧
         E.isPrefix s.movie (E.loadMovie s.files (moviePath s.context statei) { input_list := [] }) = false) :
    loadStateSwitch E s statei = (s, false) := by
  obtain ⟨hr, hp⟩ := h
  unfold loadStateSwitch
  rcases hr with hr | hr <;> simp [hr, hp]

theorem loadSwitch_accepted (E : Extern) (s : GameState) (statei : Int)
    (h : ¬ ((s.context.recording = RecStatus.RECORDING_READ_WRITE ∨
          s.context.recording = RecStatus.RECORDING_READ_ONLY) ∧
         E.isPrefix s.movie (E.loadMovie s.files (moviePath s.context statei) { input_list := [] }) = false)) :
    (loadStateSwitch E s statei).2 = true ∧
    sent (loadStateSwitch E s statei).1.trace = sent s.trace ∧
    (loadStateSwitch E s statei).1.context = s.context ∧
    (loadStateSwitch E s statei).1.messages = s.messages ∧
    (loadStateSwitch E s statei).1.datas = s.datas ∧
    (loadStateSwitch E s statei).1.xqueue = s.xqueue := by
  unfold loadStateSwitch
  cases hr : s.context.recording with
  | NO_RECORDING => simp
  | RECORDING_WRITE =>
    by_cases hl : s.last_savestate_slot = statei
    · simp [hl]
    · simp [hl, GameState.emit, sent_append, sent, Effect.isSend]
  | RECORDING_READ_WRITE =>
    simp only [hr, true_or, true_and, Bool.not_eq_false] at h
    simp [h]
  | RECORDING_READ_ONLY =>
    simp only [hr, or_true, true_and, Bool.not_eq_false] at h
    simp [h]

theorem doLoadState_sent (E : Extern) (s : GameState) (statei : Int) :
    sent (doLoadState E s statei).state.trace =
      sent s.trace ++ [Effect.sendMessage MsgN.MSGN_LOADSTATE,
        Effect.sendString (savestatePath s.context statei)] ∧
    (doLoadState E s statei).state.context.config.sc_modified = true ∧
    (doLoadState E s statei).state.movie = s.movie := by
  unfold doLoadState
  cases hm : s.messages with
  | nil => simp [hm, GameState.emit, GameState.setScModified, Flow.state, sent_append, sent, Effect.isSend]
  | cons m rest =>
    by_cases hf : m = E.MSGB_FRAMECOUNT
    · cases hd : s.datas with
      | nil => simp [hm, hd, hf, GameState.emit, GameState.setScModified, Flow.state, sent_append, sent, Effect.isSend]
      | cons d ds => simp [hm, hd, hf, GameState.emit, GameState.setScModified, Flow.state, sent_append, sent, Effect.isSend]
    · simp [hm, hf, GameState.emit, GameState.setScModified, Flow.state, sent_append, sent, Effect.isSend]

theorem hotkeyLoadState_accepted (E : Extern) (s : GameState) (hk : Int)
    (h : ¬ ((s.context.recording = RecStatus.RECORDING_READ_WRITE ∨
          s.context.recording = RecStatus.RECORDING_READ_ONLY) ∧
         E.isPrefix s.movie (E.loadMovie s.files
           (moviePath s.context (hk - E.HOTKEY_LOADSTATE1 + 1)) { input_list := [] }) = false)) :
    hotkeyLoadState E s hk =
      doLoadState E (loadStateSwitch E s (hk - E.HOTKEY_LOADSTATE1 + 1)).1
        (hk - E.HOTKEY_LOADSTATE1 + 1) := by
  have h2 := (loadSwitch_accepted E s _ h).1
  simp [hotkeyLoadState, h2]

theorem hotkeyLoadState_sent (E : Extern) (s : GameState) (hk : Int)
    (h : ¬ ((s.context.recording = RecStatus.RECORDING_READ_WRITE ∨
          s.context.recording = RecStatus.RECORDING_READ_ONLY) ∧
         E.isPrefix s.movie (E.loadMovie s.files
           (moviePath s.context (hk - E.HOTKEY_LOADSTATE1 + 1)) { input_list := [] }) = false)) :
    sent (hotkeyLoadState E s hk).state.trace =
      sent s.trace ++ [Effect.sendMessage MsgN.MSGN_LOADSTATE,
        Effect.sendString (savestatePath s.context (hk - E.HOTKEY_LOADSTATE1 + 1))] ∧
    (hotkeyLoadState E s hk).state.context.config.sc_modified = true := by
  rw [hotkeyLoadState_accepted E s hk h]
  obtain ⟨_, h2, h3, _, _⟩ := loadSwitch_accepted E s _ h
  obtain ⟨d1, d2, _⟩ := doLoadState_sent E (loadStateSwitch E s (hk - E.HOTKEY_LOADSTATE1 + 1)).1
    (hk - E.HOTKEY_LOADSTATE1 + 1)
  rw [h2, h3] at d1
  exact ⟨d1, d2⟩

/-- C1: a load-from-slot hotkey is refused exactly when the recording mode is
`RECORDING_READ_WRITE` or `RECORDING_READ_ONLY` and `movie.isPrefix(savedmovie)` is
false for the slot's companion movie.  A refused load leaves the whole state as it
was (`Flow.next s`: nothing sent, nothing received, movie, `context->framecount` and
recording mode unchanged) and the event loop goes on; every load that is not refused,
and so every load in `NO_RECORDING` mode, sends `MSGN_LOADSTATE` with the state path. -/
theorem loadState_refused_iff_isPrefix_false (E : Extern) (hE : E.HotkeysDistinct) (s : GameState)
    (hk : Int) (hk_load : E.HOTKEY_LOADSTATE1 ≤ hk ∧ hk ≤ E.HOTKEY_LOADSTATE9) :
    (keyPress E s hk = Flow.next s ↔
      ((s.context.recording = RecStatus.RECORDING_READ_WRITE ∨
        s.context.recording = RecStatus.RECORDING_READ_ONLY) ∧
       E.isPrefix s.movie (E.loadMovie s.files
         (moviePath s.context (hk - E.HOTKEY_LOADSTATE1 + 1)) { input_list := [] }) = false)) ∧
    (keyPress E s hk ≠ Flow.next s →
      sent (keyPress E s hk).state.trace =
        sent s.trace ++ [Effect.sendMessage MsgN.MSGN_LOADSTATE,
          Effect.sendString (savestatePath s.context (hk - E.HOTKEY_LOADSTATE1 + 1))]) ∧
    (s.context.recording = RecStatus.NO_RECORDING →
      sent (keyPress E s hk).state.trace =
        sent s.trace ++ [Effect.sendMessage MsgN.MSGN_LOADSTATE,
          Effect.sendString (savestatePath s.context (hk - E.HOTKEY_LOADSTATE1 + 1))]) := by
  rw [keyPress_loadKey E hE s hk hk_load]
  have hiff : hotkeyLoadState E s hk = Flow.next s ↔
      ((s.context.recording = RecStatus.RECORDING_READ_WRITE ∨
        s.context.recording = RecStatus.RECORDING_READ_ONLY) ∧
       E.isPrefix s.movie (E.loadMovie s.files
         (moviePath s.context (hk - E.HOTKEY_LOADSTATE1 + 1)) { input_list := [] }) = false) := by
    constructor
    · intro heq
      by_contra hacc
      have hs := (hotkeyLoadState_sent E s hk hacc).1
      rw [heq] at hs
      have hl := congrArg List.length hs
      simp [Flow.state] at hl
    · intro href
      simp [hotkeyLoadState, loadSwitch_refused E s _ href]
  refine ⟨hiff, fun hne => ?_, fun hno => ?_⟩
  · exact (hotkeyLoadState_sent E s hk (fun href => hne (hiff.2 href))).1
  · exact (hotkeyLoadState_sent E s hk (fun href => by
      rcases href.1 with h | h <;> rw [hno] at h <;> cases h)).1

/-- A relation between the state before and after that every hotkey respects is
respected by the whole `KeyPress` body. -/
theorem keyPress_rel (E : Extern) (R : GameState → GameState → Prop)
    (hrefl : ∀ s, R s s) (htrans : ∀ a b c, R a b → R b c → R a c) (hk : Int)
    (h1 : ∀ s, R s (hotkeyFrameAdvance s)) (h2 : ∀ s, R s (hotkeyPlayPause s))
    (h3 : ∀ s, R s (hotkeyFastForward s)) (h4 : ∀ s, R s (hotkeySavePseudoState s))
    (h5 : ∀ s, R s (hotkeyLoadPseudoState s).state)
    (h6 : E.HOTKEY_SAVESTATE1 ≤ hk ∧ hk ≤ E.HOTKEY_SAVESTATE9 → ∀ s, R s (hotkeySaveState E s hk))
    (h7 : E.HOTKEY_LOADSTATE1 ≤ hk ∧ hk ≤ E.HOTKEY_LOADSTATE9 → ∀ s, R s (hotkeyLoadState E s hk).state)
    (h8 : ∀ s, R s (hotkeyReadWrite s)) (h9 : ∀ s, R s (hotkeyToggleEncode s))
    (s : GameState) : R s (keyPress E s hk).state := by
  unfold keyPress
  simp only []
  have r1 : R s (if hk = E.HOTKEY_FRAMEADVANCE then hotkeyFrameAdvance s else s) := by
    split
    · exact h1 s
    · exact hrefl s
  generalize (if hk = E.HOTKEY_FRAMEADVANCE then hotkeyFrameAdvance s else s) = s1 at r1 ⊢
  have r2 : R s (if hk = E.HOTKEY_PLAYPAUSE then hotkeyPlayPause s1 else s1) := by
    split
    · exact htrans _ _ _ r1 (h2 s1)
    · exact r1
  generalize (if hk = E.HOTKEY_PLAYPAUSE then hotkeyPlayPause s1 else s1) = s2 at r2 ⊢
  have r3 : R s (if hk = E.HOTKEY_FASTFORWARD then hotkeyFastForward s2 else s2) := by
    split
    · exact htrans _ _ _ r2 (h3 s2)
    · exact r2
  generalize (if hk = E.HOTKEY_FASTFORWARD then hotkeyFastForward s2 else s2) = s3 at r3 ⊢
  have r4 : R s (if hk = E.HOTKEY_SAVEPSEUDOSTATE then hotkeySavePseudoState s3 else s3) := by
    split
    · exact htrans _ _ _ r3 (h4 s3)
    · exact r3
  generalize (if hk = E.HOTKEY_SAVEPSEUDOSTATE then hotkeySavePseudoState s3 else s3) = s4 at r4 ⊢
  have r5 : R s (if hk = E.HOTKEY_LOADPSEUDOSTATE then hotkeyLoadPseudoState s4
      else Flow.next s4).state := by
    split
    · exact htrans _ _ _ r4 (h5 s4)
    · exact r4
  generalize (if hk = E.HOTKEY_LOADPSEUDOSTATE then hotkeyLoadPseudoState s4
      else Flow.next s4) = f5 at r5 ⊢
  cases f5 with
  | next s5 =>
    simp only [Flow.state] at r5
    simp only []
    have r6 : R s (if E.HOTKEY_SAVESTATE1 ≤ hk ∧ hk ≤ E.HOTKEY_SAVESTATE9
        then hotkeySaveState E s5 hk else s5) := by
      split
      · rename_i hc
        exact htrans _ _ _ r5 (h6 hc s5)
      · exact r5
    generalize (if E.HOTKEY_SAVESTATE1 ≤ hk ∧ hk ≤ E.HOTKEY_SAVESTATE9
        then hotkeySaveState E s5 hk else s5) = s6 at r6 ⊢
    have r7 : R s (if E.HOTKEY_LOADSTATE1 ≤ hk ∧ hk ≤ E.HOTKEY_LOADSTATE9
        then hotkeyLoadState E s6 hk else Flow.next s6).state := by
      split
      · rename_i hc
        exact htrans _ _ _ r6 (h7 hc s6)
      · exact r6
    generalize (if E.HOTKEY_LOADSTATE1 ≤ hk ∧ hk ≤ E.HOTKEY_LOADSTATE9
        then hotkeyLoadState E s6 hk else Flow.next s6) = f7 at r7 ⊢
    cases f7 with
    | next s7 =>
      simp only [Flow.state] at r7 ⊢
      have r8 : R s (if hk = E.HOTKEY_READWRITE then hotkeyReadWrite s7 else s7) := by
        split
        · exact htrans _ _ _ r7 (h8 s7)
        · exact r7
      generalize (if hk = E.HOTKEY_READWRITE then hotkeyReadWrite s7 else s7) = s8 at r8 ⊢
      split
      · exact htrans _ _ _ r8 (h9 s8)
      · exact r8
    | brk s7 => exact r7
    | ret s7 => exact r7
    | blocked s7 => exact r7
  | brk s5 => exact r5
  | ret s5 => exact r5
  | blocked s5 => exact r5

theorem hotkeys_keep_last_slot (s : GameState) :
    (hotkeyFrameAdvance s).last_savestate_slot = s.last_savestate_slot ∧
    (hotkeyPlayPause s).last_savestate_slot = s.last_savestate_slot ∧
    (hotkeyFastForward s).last_savestate_slot = s.last_savestate_slot ∧
    (hotkeySavePseudoState s).last_savestate_slot = s.last_savestate_slot ∧
    (hotkeyLoadPseudoState s).state.last_savestate_slot = s.last_savestate_slot ∧
    (hotkeyReadWrite s).last_savestate_slot = s.last_savestate_slot ∧
    (hotkeyToggleEncode s).last_savestate_slot = s.last_savestate_slot := by
  refine ⟨?_, ?_, ?_, ?_, ?_, ?_, ?_⟩
  · unfold hotkeyFrameAdvance; split <;> rfl
  · rfl
  · rfl
  · rfl
  · unfold hotkeyLoadPseudoState; split <;> rfl
  · unfold hotkeyReadWrite; split <;> rfl
  · unfold hotkeyToggleEncode; split <;> rfl

theorem hotkeyLoadState_last (E : Extern) (s : GameState) (hk : Int) :
    (hotkeyLoadState E s hk).state.last_savestate_slot = s.last_savestate_slot := by
  unfold hotkeyLoadState loadStateSwitch doLoadState
  simp only [GameState.emit, GameState.setScModified]
  repeat' split
  all_goals rfl

theorem keyPress_last_slot (E : Extern) (s : GameState) (hk : Int)
    (h : ¬ (E.HOTKEY_SAVESTATE1 ≤ hk ∧ hk ≤ E.HOTKEY_SAVESTATE9)) :
    (keyPress E s hk).state.last_savestate_slot = s.last_savestate_slot := by
  have key := keyPress_rel E (fun a b => b.last_savestate_slot = a.last_savestate_slot)
    (fun _ => rfl) (fun a b c h1 h2 => h2.trans h1) hk
    (fun s => (hotkeys_keep_last_slot s).1) (fun s => (hotkeys_keep_last_slot s).2.1) (fun s => (hotkeys_keep_last_slot s).2.2.1)
    (fun s => (hotkeys_keep_last_slot s).2.2.2.1) (fun s => (hotkeys_keep_last_slot s).2.2.2.2.1)
    (fun hc => absurd hc h) (fun _ s => hotkeyLoadState_last E s hk)
    (fun s => (hotkeys_keep_last_slot s).2.2.2.2.2.1) (fun s => (hotkeys_keep_last_slot s).2.2.2.2.2.2) s
  exact key

theorem hotkeyLoadState_write_movie (E : Extern) (s : GameState) (hk : Int)
    (hw : s.context.recording = RecStatus.RECORDING_WRITE) :
    (hotkeyLoadState E s hk).state.movie =
      if s.last_savestate_slot ≠ hk - E.HOTKEY_LOADSTATE1 + 1 then
        E.loadMovie s.files (moviePath s.context (hk - E.HOTKEY_LOADSTATE1 + 1)) s.movie
      else s.movie := by
  have hacc : ¬ ((s.context.recording = RecStatus.RECORDING_READ_WRITE ∨
          s.context.recording = RecStatus.RECORDING_READ_ONLY) ∧
         E.isPrefix s.movie (E.loadMovie s.files
           (moviePath s.context (hk - E.HOTKEY_LOADSTATE1 + 1)) { input_list := [] }) = false) := by
    rw [hw]; simp
  rw [hotkeyLoadState_accepted E s hk hacc, (doLoadState_sent E _ _).2.2]
  unfold loadStateSwitch
  rw [hw]
  simp only []
  split <;> simp_all [GameState.emit]

/-- C2: in `RECORDING_WRITE` mode, load-from-slot(n) keeps the live movie when n is
`last_savestate_slot` and otherwise replaces it by `movie.loadMovie` of slot n's
companion movie path; in both cases `MSGN_LOADSTATE` with slot n's state path is
sent.  `last_savestate_slot` is the slot of the most recent save-to-slot: a save
hotkey sets it to its slot, every other hotkey leaves it as it is. -/
theorem loadState_write_mode_movie (E : Extern) (hE : E.HotkeysDistinct) (s : GameState)
    (hk : Int) (hk_load : E.HOTKEY_LOADSTATE1 ≤ hk ∧ hk ≤ E.HOTKEY_LOADSTATE9)
    (hw : s.context.recording = RecStatus.RECORDING_WRITE) :
    (s.last_savestate_slot = hk - E.HOTKEY_LOADSTATE1 + 1 →
      (keyPress E s hk).state.movie = s.movie) ∧
    (s.last_savestate_slot ≠ hk - E.HOTKEY_LOADSTATE1 + 1 →
      (keyPress E s hk).state.movie =
        E.loadMovie s.files (moviePath s.context (hk - E.HOTKEY_LOADSTATE1 + 1)) s.movie) ∧
    sent (keyPress E s hk).state.trace =
      sent s.trace ++ [Effect.sendMessage MsgN.MSGN_LOADSTATE,
        Effect.sendString (savestatePath s.context (hk - E.HOTKEY_LOADSTATE1 + 1))] ∧
    (∀ (s0 : GameState) (hk0 : Int),
      E.HOTKEY_SAVESTATE1 ≤ hk0 ∧ hk0 ≤ E.HOTKEY_SAVESTATE9 →
      (keyPress E s0 hk0).state.last_savestate_slot = hk0 - E.HOTKEY_SAVESTATE1 + 1) ∧
    (∀ (s0 : GameState) (hk0 : Int),
      ¬ (E.HOTKEY_SAVESTATE1 ≤ hk0 ∧ hk0 ≤ E.HOTKEY_SAVESTATE9) →
      (keyPress E s0 hk0).state.last_savestate_slot = s0.last_savestate_slot) := by
  have hacc : ¬ ((s.context.recording = RecStatus.RECORDING_READ_WRITE ∨
          s.context.recording = RecStatus.RECORDING_READ_ONLY) ∧
         E.isPrefix s.movie (E.loadMovie s.files
           (moviePath s.context (hk - E.HOTKEY_LOADSTATE1 + 1)) { input_list := [] }) = false) := by
    rw [hw]; simp
  rw [keyPress_loadKey E hE s hk hk_load, hotkeyLoadState_write_movie E s hk hw]
  refine ⟨fun h => by simp [h], fun h => by simp [h], (hotkeyLoadState_sent E s hk hacc).1,
    fun s0 hk0 h0 => ?_, fun s0 hk0 h0 => keyPress_last_slot E s0 hk0 h0⟩
  rw [keyPress_saveKey E hE s0 hk0 h0]
  simp only [Flow.state, hotkeySaveState, GameState.emit]
  split <;> rfl

/-- C6: a save-to-slot(n) hotkey calls `movie.saveMovie` on slot n's companion movie
path if and only if the recording mode is not `NO_RECORDING`, does so before the save
command, and then sends exactly one `MSGN_SAVESTATE` followed by slot n's state
path; nothing else is added to the trace, and the live movie and the context are
unchanged. -/
theorem saveState_persists_then_sends (E : Extern) (hE : E.HotkeysDistinct) (s : GameState)
    (hk : Int) (hk_save : E.HOTKEY_SAVESTATE1 ≤ hk ∧ hk ≤ E.HOTKEY_SAVESTATE9) :
    ∃ s1, keyPress E s hk = Flow.next s1 ∧
      s1.trace = s.trace ++
        (if s.context.recording ≠ RecStatus.NO_RECORDING then
          [Effect.saveMovie (moviePath s.context (hk - E.HOTKEY_SAVESTATE1 + 1))] else []) ++
        [Effect.sendMessage MsgN.MSGN_SAVESTATE,
         Effect.sendString (savestatePath s.context (hk - E.HOTKEY_SAVESTATE1 + 1))] ∧
      s1.files =
        (if s.context.recording ≠ RecStatus.NO_RECORDING then
          E.saveMovie s.files (moviePath s.context (hk - E.HOTKEY_SAVESTATE1 + 1)) s.movie
         else s.files) ∧
      s1.movie = s.movie ∧ s1.context = s.context ∧
      s1.last_savestate_slot = hk - E.HOTKEY_SAVESTATE1 + 1 := by
  refine ⟨hotkeySaveState E s hk, keyPress_saveKey E hE s hk hk_save, ?_⟩
  unfold hotkeySaveState
  by_cases hr : s.context.recording = RecStatus.NO_RECORDING
  · simp [hr, GameState.emit]
  · simp [hr, GameState.emit]

theorem boundarySends_isSend (s : GameState) (ai : AllInputs) :
    ∀ e ∈ boundarySends s ai, e.isSend = true := by
  intro e he
  unfold boundarySends at he
  simp only [List.mem_append, List.mem_cons, List.mem_singleton, List.not_mem_nil, or_false] at he
  rcases he with (((he | he) | he) | he) | he
  · split at he
    · simp only [List.mem_cons, List.mem_singleton, List.not_mem_nil, or_false] at he
      rcases he with he | he <;> subst he <;> rfl
    · cases he
  · split at he
    · simp only [List.mem_cons, List.mem_singleton, List.not_mem_nil, or_false] at he
      rcases he with he | he <;> subst he <;> rfl
    · cases he
  · rcases he with he | he <;> subst he <;> rfl
  · split at he
    · simp only [List.mem_cons, List.mem_singleton, List.not_mem_nil, or_false] at he
      subst he; rfl
    · cases he
  · subst he; rfl

theorem sent_boundarySends (s : GameState) (ai : AllInputs) :
    sent (boundarySends s ai) = boundarySends s ai := by
  unfold sent
  exact List.filter_eq_self.2 (boundarySends_isSend s ai)

theorem finishBoundary_trace (E : Extern) (s : GameState) (x : LiveSample) :
    (finishBoundary E s x).trace =
      s.trace ++
      (if s.context.recording = RecStatus.RECORDING_WRITE then
        [Effect.setInputs (frameInputs E s x)] else []) ++
      boundarySends s (frameInputs E s x) := by
  unfold finishBoundary sendInputsAndEnd sendDumpFileIfModified sendConfigIfModified recordInputs
    boundarySends
  by_cases h1 : s.context.recording = RecStatus.RECORDING_WRITE <;>
  by_cases h2 : s.context.config.sc_modified = true <;>
  by_cases h3 : s.context.config.dumpfile_modified = true <;>
  by_cases h4 : s.context.status = RunStatus.QUITTING <;>
  simp [h1, h2, h3, h4, GameState.emit]

theorem finishBoundary_fields (E : Extern) (s : GameState) (x : LiveSample) :
    (finishBoundary E s x).context.config.sc_modified = false ∧
    (finishBoundary E s x).context.config.dumpfile_modified = false ∧
    (finishBoundary E s x).movie =
      (if s.context.recording = RecStatus.RECORDING_WRITE then
        E.setInputs s.context.framecount s.movie (frameInputs E s x) else s.movie) := by
  unfold finishBoundary sendInputsAndEnd sendDumpFileIfModified sendConfigIfModified recordInputs
  by_cases h1 : s.context.recording = RecStatus.RECORDING_WRITE <;>
  by_cases h2 : s.context.config.sc_modified = true <;>
  by_cases h3 : s.context.config.dumpfile_modified = true <;>
  by_cases h4 : s.context.status = RunStatus.QUITTING <;>
  simp [h1, h2, h3, h4, GameState.emit]

theorem keyPress_inv (E : Extern) (R : GameState → GameState → Prop) (hR : StepInvariant E R)
    (s : GameState) (hk : Int) : R s (keyPress E s hk).state :=
  keyPress_rel E R hR.refl hR.trans hk hR.frameAdvance hR.playPause hR.fastForward
    hR.savePseudoState hR.loadPseudoState (fun _ s => hR.saveState s hk)
    (fun _ s => hR.loadState s hk) hR.readWrite hR.toggleEncode s

theorem handleEvent_inv (E : Extern) (R : GameState → GameState → Prop) (hR : StepInvariant E R)
    (modifiers : KeySym) (s : GameState) (event : XEvent) :
    R s (handleEvent E modifiers s event).state := by
  unfold handleEvent
  simp only []
  have r1 : R s (if event.type = XEventType.FocusOut then { s with ar_ticks := -1 } else s) := by
    split
    · exact hR.arTicks s _
    · exact hR.refl s
  generalize (if event.type = XEventType.FocusOut then { s with ar_ticks := -1 } else s) = s1
    at r1 ⊢
  split
  · split
    · exact r1
    · split
      · exact r1
      · split
        · exact hR.trans _ _ _ r1 (keyPress_inv E R hR s1 _)
        · exact hR.trans _ _ _ r1 (hR.release s1 event _)
  · exact r1

theorem eventLoop_inv (E : Extern) (R : GameState → GameState → Prop) (hR : StepInvariant E R)
    (modifiers : KeySym) (queue : List XEvent) (s : GameState) :
    R s (eventLoop E modifiers queue s).state := by
  induction queue generalizing s with
  | nil => exact hR.queue s []
  | cons event rest ih =>
    unfold eventLoop
    have h1 := hR.trans _ _ _ (hR.queue s rest)
      (handleEvent_inv E R hR modifiers { s with xqueue := rest } event)
    cases hf : handleEvent E modifiers { s with xqueue := rest } event with
    | next s1 =>
      rw [hf] at h1
      exact hR.trans _ _ _ h1 (ih s1)
    | brk s1 => rw [hf] at h1; exact h1
    | ret s1 => rw [hf] at h1; exact h1
    | blocked s1 => rw [hf] at h1; exact h1

theorem autoRepeat_inv (E : Extern) (R : GameState → GameState → Prop) (hR : StepInvariant E R)
    (s : GameState) : R s (autoRepeat s) := by
  unfold autoRepeat
  split
  · simp only []
    split
    · exact hR.trans _ _ _ (hR.arTicks s (s.ar_ticks + 1)) (hR.advanceFrame _ true)
    · exact hR.arTicks s _
  · exact hR.refl s

theorem pollLoop_inv (E : Extern) (R : GameState → GameState → Prop) (hR : StepInvariant E R)
    (polls : List Poll) (s : GameState) : R s (pollLoop E polls s).state := by
  induction polls generalizing s with
  | nil =>
    unfold pollLoop
    split <;> exact hR.refl s
  | cons p ps ih =>
    unfold pollLoop
    split
    · exact hR.refl s
    · simp only []
      have h1 : R s (eventLoop E p.modifiers ((autoRepeat s).xqueue ++ p.arrivals)
          { autoRepeat s with xqueue := (autoRepeat s).xqueue ++ p.arrivals }).state :=
        hR.trans _ _ _ (hR.trans _ _ _ (autoRepeat_inv E R hR s) (hR.queue _ _))
          (eventLoop_inv E R hR _ _ _)
      cases hf : eventLoop E p.modifiers ((autoRepeat s).xqueue ++ p.arrivals)
          { autoRepeat s with xqueue := (autoRepeat s).xqueue ++ p.arrivals } with
      | next s2 =>
        rw [hf] at h1
        simp only []
        split
        · exact hR.trans _ _ _ h1 (ih s2)
        · exact h1
      | brk s2 => rw [hf] at h1; exact h1
      | ret s2 => rw [hf] at h1; exact h1
      | blocked s2 => rw [hf] at h1; exact h1

theorem waitLoop_inv (E : Extern) (R : GameState → GameState → Prop) (hR : StepInvariant E R)
    (msgs : List Int) (s : GameState) : R s (waitLoop E msgs s).state := by
  induction msgs generalizing s with
  | nil =>
    unfold waitLoop
    split
    · have h1 := hR.boundaryMessage s
      cases hf : handleBoundaryMessage E s <;> rw [hf] at h1 <;> exact h1
    · exact hR.refl s
  | cons m rest ih =>
    unfold waitLoop
    split
    · have h1 := hR.boundaryMessage s
      cases hf : handleBoundaryMessage E s with
      | next s1 =>
        rw [hf] at h1
        exact hR.trans _ _ _ (hR.trans _ _ _ h1 (hR.received s1 m rest)) (ih _)
      | brk s1 => rw [hf] at h1; exact h1
      | ret s1 => rw [hf] at h1; exact h1
      | blocked s1 => rw [hf] at h1; exact h1
    · exact hR.refl s

theorem waitFrameBoundary_inv (E : Extern) (R : GameState → GameState → Prop)
    (hR : StepInvariant E R) (s : GameState) : R s (waitFrameBoundary E s).state := by
  unfold waitFrameBoundary
  split
  · exact hR.refl s
  · rename_i m rest _
    have h1 := hR.trans _ _ _ (hR.received s m rest) (waitLoop_inv E R hR rest _)
    cases hf : waitLoop E rest { s with message := m, messages := rest } with
    | next s1 =>
      rw [hf] at h1
      simp only []
      split
      · exact h1
      · split <;> exact h1
    | brk s1 => rw [hf] at h1; exact h1
    | ret s1 => rw [hf] at h1; exact h1
    | blocked s1 => rw [hf] at h1; exact h1

/-- Every boundary cycle that completes ends with `finishBoundary`, run in a state
`mid` that is related to the state at the start of the cycle by every step invariant. -/
theorem boundaryCycle_next (E : Extern) (c : CycleEnv) (s s1 : GameState)
    (h : boundaryCycle E c s = Flow.next s1) :
    ∃ mid, s1 = finishBoundary E mid c.sample ∧
      ∀ R, StepInvariant E R → R s mid := by
  unfold boundaryCycle at h
  cases hw : waitFrameBoundary E s with
  | next s2 =>
    rw [hw] at h
    simp only [cycleBody] at h
    cases hp : pollLoop E c.polls { checkPseudoSaveState s2 with advance_frame := false } with
    | next mid =>
      rw [hp] at h
      simp only [Flow.next.injEq] at h
      refine ⟨mid, h.symm, fun R hR => ?_⟩
      have h1 := waitFrameBoundary_inv E R hR s
      rw [hw] at h1
      have h2 := pollLoop_inv E R hR c.polls { checkPseudoSaveState s2 with advance_frame := false }
      rw [hp] at h2
      exact hR.trans _ _ _ h1 (hR.trans _ _ _
        (hR.trans _ _ _ (hR.pseudoSaveState s2) (hR.advanceFrame _ false)) h2)
    | brk s3 => rw [hp] at h; cases h
    | ret s3 => rw [hp] at h; cases h
    | blocked s3 => rw [hp] at h; cases h
  | brk s2 => rw [hw] at h; cases h
  | ret s2 => rw [hw] at h; cases h
  | blocked s2 => rw [hw] at h; cases h


/-- A boundary cycle whose wait for the frame boundary ends in `s1` and whose poll
loop ends in `mid` runs the end of the boundary in `mid`, and the `while (1)` loop
goes on with the next cycle; `mid` is related to the state at the start of the cycle
by every step invariant. -/
theorem boundaryCycle_forward (E : Extern) (c : CycleEnv) (s s1 mid : GameState)
    (hw : waitFrameBoundary E s = Flow.next s1)
    (hp : pollLoop E c.polls { checkPseudoSaveState s1 with advance_frame := false } =
      Flow.next mid) :
    boundaryCycle E c s = Flow.next (finishBoundary E mid c.sample) ∧
    (∀ cs, mainLoop E (c :: cs) s = mainLoop E cs (finishBoundary E mid c.sample)) ∧
    ∀ R, StepInvariant E R → R s mid := by
  have hb : boundaryCycle E c s = Flow.next (finishBoundary E mid c.sample) := by
    simp only [boundaryCycle, hw, cycleBody, hp]
  refine ⟨hb, fun cs => ?_, fun R hR => ?_⟩
  · rw [mainLoop, hb]
  · have h1 := waitFrameBoundary_inv E R hR s
    rw [hw] at h1
    have h2 := pollLoop_inv E R hR c.polls { checkPseudoSaveState s1 with advance_frame := false }
    rw [hp] at h2
    exact hR.trans _ _ _ h1 (hR.trans _ _ _
      (hR.trans _ _ _ (hR.pseudoSaveState s1) (hR.advanceFrame _ false)) h2)

/-- The wait for the frame boundary ends at once when `MSGB_START_FRAMEBOUNDARY` is
the first message. -/
theorem waitFrameBoundary_start (E : Extern) (s : GameState) (rest : List Int)
    (hm : s.messages = E.MSGB_START_FRAMEBOUNDARY :: rest)
    (h1 : E.MSGB_START_FRAMEBOUNDARY ≠ -1)
    (hq : E.MSGB_START_FRAMEBOUNDARY ≠ E.MSGB_QUIT) :
    waitFrameBoundary E s =
      Flow.next { s with message := E.MSGB_START_FRAMEBOUNDARY, messages := rest } := by
  cases rest <;> simp [waitFrameBoundary, waitLoop, hm, h1, hq]

theorem checkPseudoSaveState_game_window (s : GameState) :
    (checkPseudoSaveState s).context.game_window = s.context.game_window := by
  simp only [checkPseudoSaveState]
  split_ifs <;> rfl

/-- As long as the game window is not known, a boundary cycle that starts with
`MSGB_START_FRAMEBOUNDARY` goes through the pseudo-savestate check and straight to
the end of the boundary, whatever the display shows. -/
theorem boundaryCycle_no_window (E : Extern) (c : CycleEnv) (s : GameState) (rest : List Int)
    (hm : s.messages = E.MSGB_START_FRAMEBOUNDARY :: rest)
    (h1 : E.MSGB_START_FRAMEBOUNDARY ≠ -1)
    (hq : E.MSGB_START_FRAMEBOUNDARY ≠ E.MSGB_QUIT)
    (hwin : s.context.game_window = 0) :
    boundaryCycle E c s =
      Flow.next (finishBoundary E
        { checkPseudoSaveState
            { s with message := E.MSGB_START_FRAMEBOUNDARY, messages := rest } with
          advance_frame := false } c.sample) := by
  have hw := waitFrameBoundary_start E s rest hm h1 hq
  have hg : ({ checkPseudoSaveState
      { s with message := E.MSGB_START_FRAMEBOUNDARY, messages := rest } with
      advance_frame := false } : GameState).context.game_window = 0 := by
    show (checkPseudoSaveState _).context.game_window = 0
    rw [checkPseudoSaveState_game_window]
    exact hwin
  have hp : pollLoop E c.polls { checkPseudoSaveState
      { s with message := E.MSGB_START_FRAMEBOUNDARY, messages := rest } with
      advance_frame := false } = Flow.next { checkPseudoSaveState
      { s with message := E.MSGB_START_FRAMEBOUNDARY, messages := rest } with
      advance_frame := false } := by
    cases hc : c.polls with
    | nil => rw [pollLoop, if_pos hg]
    | cons p ps => rw [pollLoop, if_pos hg]
  exact (boundaryCycle_forward E c s _ _ hw hp).1

theorem appended_append (a b : List Effect) : appended (a ++ b) = appended a ++ appended b := by
  simp [appended]

theorem appended_of_isSend (es : List Effect) (h : ∀ e ∈ es, e.isSend = true) :
    appended es = [] := by
  unfold appended
  rw [List.filter_eq_nil_iff]
  intro e he
  have := h e he
  cases e <;> simp_all [Effect.isSend, Effect.isSetInputs]

theorem appended_inv (E : Extern) :
    StepInvariant E (fun a b => appended b.trace = appended a.trace) where
  refl := fun _ => rfl
  trans := fun _ _ _ h1 h2 => h2.trans h1
  frameAdvance := fun s => by unfold hotkeyFrameAdvance; split <;> rfl
  playPause := fun _ => rfl
  fastForward := fun _ => rfl
  savePseudoState := fun _ => rfl
  loadPseudoState := fun s => by unfold hotkeyLoadPseudoState; split <;> rfl
  saveState := fun s hk => by
    unfold hotkeySaveState
    simp only [GameState.emit]
    split <;> simp [appended, Effect.isSetInputs]
  loadState := fun s hk => by
    unfold hotkeyLoadState loadStateSwitch doLoadState
    simp only [GameState.emit, GameState.setScModified]
    repeat' split
    all_goals simp_all [Flow.state, appended, Effect.isSetInputs]
  readWrite := fun s => by unfold hotkeyReadWrite; split <;> rfl
  toggleEncode := fun s => by unfold hotkeyToggleEncode; split <;> rfl
  release := fun s event hk => by
    unfold keyRelease
    repeat' split
    all_goals rfl
  arTicks := fun _ _ => rfl
  advanceFrame := fun _ _ => rfl
  queue := fun _ _ => rfl
  received := fun _ _ _ => rfl
  boundaryMessage := fun s => by
    unfold handleBoundaryMessage
    repeat' split
    all_goals rfl
  pseudoSaveState := fun s => by
    simp only [checkPseudoSaveState]
    split_ifs <;> rfl

theorem scModified_inv (E : Extern) :
    StepInvariant E (fun a b =>
      a.context.config.sc_modified = true → b.context.config.sc_modified = true) where
  refl := fun _ h => h
  trans := fun _ _ _ h1 h2 h => h2 (h1 h)
  frameAdvance := fun s => by
    unfold hotkeyFrameAdvance
    split <;> simp [GameState.setSc, GameState.setScModified]
  playPause := fun _ _ => rfl
  fastForward := fun _ _ => rfl
  savePseudoState := fun _ h => h
  loadPseudoState := fun s => by
    unfold hotkeyLoadPseudoState
    split <;> simp [Flow.state, GameState.setSc, GameState.setScModified, GameState.setRecording]
  saveState := fun s hk => by
    unfold hotkeySaveState
    simp only [GameState.emit]
    split <;> simp
  loadState := fun s hk => by
    unfold hotkeyLoadState loadStateSwitch doLoadState
    simp only [GameState.emit, GameState.setScModified]
    repeat' split
    all_goals simp_all [Flow.state]
  readWrite := fun s => by
    unfold hotkeyReadWrite
    split <;> simp [GameState.setRecording]
  toggleEncode := fun s => by
    unfold hotkeyToggleEncode
    split <;> simp [GameState.setSc, GameState.setScModified]
  release := fun s event hk => by
    unfold keyRelease
    repeat' split
    all_goals simp [GameState.setSc, GameState.setScModified]
  arTicks := fun _ _ h => h
  advanceFrame := fun _ _ h => h
  queue := fun _ _ h => h
  received := fun _ _ _ h => h
  boundaryMessage := fun s => by
    unfold handleBoundaryMessage
    repeat' split
    all_goals simp [Flow.state, GameState.setSc, GameState.setScModified]
  pseudoSaveState := fun s => by
    simp only [checkPseudoSaveState]
    split_ifs <;> simp [GameState.setSc, GameState.setScModified, GameState.setRecording]

theorem pollLoop_ret (E : Extern) (p : Poll) (ps : List Poll) (s s1 : GameState)
    (hw : s.context.game_window ≠ 0)
    (h : eventLoop E p.modifiers ((autoRepeat s).xqueue ++ p.arrivals)
      { autoRepeat s with xqueue := (autoRepeat s).xqueue ++ p.arrivals } = Flow.ret s1) :
    pollLoop E (p :: ps) s = Flow.ret s1 := by
  unfold pollLoop
  simp only [hw, if_false]
  rw [h]

theorem cycleBody_ret (E : Extern) (c : CycleEnv) (s s1 : GameState)
    (h : pollLoop E c.polls { checkPseudoSaveState s with advance_frame := false } = Flow.ret s1) :
    cycleBody E c s = Flow.ret s1 := by
  unfold cycleBody
  rw [h]

theorem boundaryCycle_ret (E : Extern) (c : CycleEnv) (s s1 s2 : GameState)
    (hw : waitFrameBoundary E s = Flow.next s1) (h : cycleBody E c s1 = Flow.ret s2) :
    boundaryCycle E c s = Flow.ret s2 := by
  unfold boundaryCycle
  rw [hw]
  exact h

theorem mainLoop_ret (E : Extern) (c : CycleEnv) (cs : List CycleEnv) (s s1 : GameState)
    (h : boundaryCycle E c s = Flow.ret s1) : mainLoop E (c :: cs) s = Flow.ret s1 := by
  unfold mainLoop
  rw [h]

theorem finishBoundary_sends_config (E : Extern) (mid : GameState) (x : LiveSample)
    (h : mid.context.config.sc_modified = true) :
    ∃ rest, sent (finishBoundary E mid x).trace =
      sent mid.trace ++ Effect.sendMessage MsgN.MSGN_CONFIG ::
        Effect.sendConfig mid.context.config.sc :: rest := by
  have hnil : sent (if mid.context.recording = RecStatus.RECORDING_WRITE then
      [Effect.setInputs (frameInputs E mid x)] else []) = [] := by
    split <;> simp [sent, Effect.isSend]
  rw [finishBoundary_trace, sent_append, sent_append, sent_boundarySends, hnil, List.append_nil]
  unfold boundarySends
  rw [if_pos h]
  exact ⟨(if mid.context.config.dumpfile_modified then
      [Effect.sendMessage MsgN.MSGN_DUMP_FILE, Effect.sendString mid.context.config.dumpfile]
      else []) ++
    [Effect.sendMessage MsgN.MSGN_ALL_INPUTS, Effect.sendInputs (frameInputs E mid x)] ++
    (if mid.context.status = RunStatus.QUITTING then [Effect.sendMessage MsgN.MSGN_USERQUIT]
      else []) ++
    [Effect.sendMessage MsgN.MSGN_END_FRAMEBOUNDARY], by simp⟩

/-- C3: at the end of a boundary cycle in `RECORDING_WRITE` mode `movie.setInputs` is
called once, with the `AllInputs` that the `MSGN_ALL_INPUTS` message of the cycle
carries, and before any of the closing sends (`MSGN_ALL_INPUTS`,
`MSGN_END_FRAMEBOUNDARY`); with the appending `setInputs` of the spec the frame list
grows by exactly that one frame.  In the other modes the movie is unchanged.  A
boundary cycle whose wait and poll loop end (in `mid`) does run this end of the
boundary, and the loop goes on; over the whole cycle the `setInputs` calls are
exactly the one of its end in write mode and none in the other modes.  Before the
game window is known this holds for every cycle that starts with
`MSGB_START_FRAMEBOUNDARY`. -/
theorem write_mode_appends_inputs_once (E : Extern) (s : GameState) (x : LiveSample) :
    (s.context.recording = RecStatus.RECORDING_WRITE →
      (finishBoundary E s x).trace =
        s.trace ++ Effect.setInputs (frameInputs E s x) :: boundarySends s (frameInputs E s x) ∧
      (finishBoundary E s x).movie =
        E.setInputs s.context.framecount s.movie (frameInputs E s x)) ∧
    (s.context.recording ≠ RecStatus.RECORDING_WRITE →
      (finishBoundary E s x).trace = s.trace ++ boundarySends s (frameInputs E s x) ∧
      (finishBoundary E s x).movie = s.movie) ∧
    (s.context.recording = RecStatus.RECORDING_WRITE → E.setInputs = specSetInputs →
      (finishBoundary E s x).movie.input_list = s.movie.input_list ++ [frameInputs E s x]) ∧
    appended (boundarySends s (frameInputs E s x)) = [] ∧
    (∃ pre post, boundarySends s (frameInputs E s x) =
      pre ++ Effect.sendMessage MsgN.MSGN_ALL_INPUTS :: Effect.sendInputs (frameInputs E s x) ::
        (post ++ [Effect.sendMessage MsgN.MSGN_END_FRAMEBOUNDARY])) ∧
    (∀ (c : CycleEnv) (s0 s1 : GameState), boundaryCycle E c s0 = Flow.next s1 →
      ∃ mid, s1 = finishBoundary E mid c.sample ∧
        appended s1.trace = appended s0.trace ++
          (if mid.context.recording = RecStatus.RECORDING_WRITE then
            [Effect.setInputs (frameInputs E mid c.sample)] else [])) ∧
    (∀ (c : CycleEnv) (s0 s1 mid : GameState), waitFrameBoundary E s0 = Flow.next s1 →
      pollLoop E c.polls { checkPseudoSaveState s1 with advance_frame := false } =
        Flow.next mid →
      boundaryCycle E c s0 = Flow.next (finishBoundary E mid c.sample) ∧
      (∀ cs, mainLoop E (c :: cs) s0 = mainLoop E cs (finishBoundary E mid c.sample)) ∧
      appended (finishBoundary E mid c.sample).trace = appended s0.trace ++
        (if mid.context.recording = RecStatus.RECORDING_WRITE then
          [Effect.setInputs (frameInputs E mid c.sample)] else [])) ∧
    (∀ (c : CycleEnv) (s0 : GameState) (rest : List Int),
      s0.messages = E.MSGB_START_FRAMEBOUNDARY :: rest →
      E.MSGB_START_FRAMEBOUNDARY ≠ -1 → E.MSGB_START_FRAMEBOUNDARY ≠ E.MSGB_QUIT →
      s0.context.game_window = 0 →
      ∃ mid, mid = { checkPseudoSaveState
            { s0 with message := E.MSGB_START_FRAMEBOUNDARY, messages := rest } with
          advance_frame := false } ∧
        boundaryCycle E c s0 = Flow.next (finishBoundary E mid c.sample) ∧
        appended (finishBoundary E mid c.sample).trace = appended s0.trace ++
          (if mid.context.recording = RecStatus.RECORDING_WRITE then
            [Effect.setInputs (frameInputs E mid c.sample)] else [])) := by
  have hf := finishBoundary_fields E s x
  have ht := finishBoundary_trace E s x
  have hend : ∀ (s0 mid : GameState) (y : LiveSample), appended mid.trace = appended s0.trace →
      appended (finishBoundary E mid y).trace = appended s0.trace ++
        (if mid.context.recording = RecStatus.RECORDING_WRITE then
          [Effect.setInputs (frameInputs E mid y)] else []) := by
    intro s0 mid y h3
    rw [finishBoundary_trace, appended_append, appended_append, h3,
      appended_of_isSend _ (boundarySends_isSend _ _), List.append_nil]
    split <;> simp [appended, Effect.isSetInputs]
  refine ⟨fun hw => ?_, fun hw => ?_, fun hw hE => by rw [hf.2.2, if_pos hw, hE]; rfl,
    appended_of_isSend _ (boundarySends_isSend _ _),
    ⟨(if s.context.config.sc_modified then
        [Effect.sendMessage MsgN.MSGN_CONFIG, Effect.sendConfig s.context.config.sc] else []) ++
      (if s.context.config.dumpfile_modified then
        [Effect.sendMessage MsgN.MSGN_DUMP_FILE, Effect.sendString s.context.config.dumpfile]
        else []),
     (if s.context.status = RunStatus.QUITTING then [Effect.sendMessage MsgN.MSGN_USERQUIT]
        else []),
     by unfold boundarySends; simp only [List.append_assoc, List.cons_append,
      List.nil_append]⟩, fun c s0 s1 h => ?_, fun c s0 s1 mid hw hp => ?_,
    fun c s0 rest hm h1 hq hwin => ?_⟩
  · rw [ht, hf.2.2]
    simp [hw]
  · rw [ht, hf.2.2]
    simp [hw]
  · obtain ⟨mid, h1, h2⟩ := boundaryCycle_next E c s0 s1 h
    refine ⟨mid, h1, ?_⟩
    rw [h1]
    exact hend s0 mid c.sample (h2 _ (appended_inv E))
  · obtain ⟨hb, hl, hr⟩ := boundaryCycle_forward E c s0 s1 mid hw hp
    exact ⟨hb, hl, hend s0 mid c.sample (hr _ (appended_inv E))⟩
  · refine ⟨_, rfl, boundaryCycle_no_window E c s0 rest hm h1 hq hwin, ?_⟩
    apply hend
    exact (appended_inv E).pseudoSaveState
      { s0 with message := E.MSGB_START_FRAMEBOUNDARY, messages := rest }

/-- C3 at a concrete input: at the end of a boundary in write mode the frame list
grows by the inputs of the frame; and a whole boundary cycle of a running game, with
one poll without events, is completed and calls `setInputs` exactly once. -/
theorem write_mode_appends_inputs_once_witness :
    (finishBoundary specExtern sampleState sampleLive).movie.input_list =
      sampleState.movie.input_list ++ [frameInputs specExtern sampleState sampleLive] ∧
    boundaryCycle specExtern sampleQuietCycle sampleRunning =
      Flow.next (finishBoundary specExtern { sampleRunning with messages := [] } sampleLive) ∧
    appended (finishBoundary specExtern { sampleRunning with messages := [] } sampleLive).trace =
      [Effect.setInputs specExtern.emptyInputs] ∧
    (finishBoundary specExtern { sampleRunning with messages := [] } sampleLive).movie.input_list =
      [specExtern.emptyInputs] :=
  ⟨(write_mode_appends_inputs_once specExtern sampleState sampleLive).2.2.1 rfl rfl,
   ((write_mode_appends_inputs_once specExtern sampleState sampleLive).2.2.2.2.2.2.1
      sampleQuietCycle sampleRunning { sampleRunning with messages := [] }
      { sampleRunning with messages := [] } (by decide) (by decide)).1,
   ((write_mode_appends_inputs_once specExtern sampleState sampleLive).2.2.2.2.2.2.1
      sampleQuietCycle sampleRunning { sampleRunning with messages := [] }
      { sampleRunning with messages := [] } (by decide) (by decide)).2.2,
   by decide⟩

/-- C1 at a concrete input: read-only mode, a live movie of one frame and no
companion movie for slot 1: the load is refused. -/
theorem loadState_refused_iff_isPrefix_false_witness :
    keyPress specExtern sampleReadState 13 = Flow.next sampleReadState :=
  (loadState_refused_iff_isPrefix_false specExtern (by decide) sampleReadState 13
    (by decide)).1.2 ⟨Or.inr rfl, by decide⟩

/-- C2 at a concrete input: write mode, no save before, load from slot 1. -/
theorem loadState_write_mode_movie_witness :
    (keyPress specExtern sampleState 13).state.movie =
      specExtern.loadMovie sampleState.files
        (moviePath sampleState.context (13 - specExtern.HOTKEY_LOADSTATE1 + 1)) sampleState.movie :=
  (loadState_write_mode_movie specExtern (by decide) sampleState 13 (by decide) rfl).2.1
    (by decide)

/-- C6 at a concrete input: write mode, save to slot 1. -/
theorem saveState_persists_then_sends_witness :
    ∃ s1, keyPress specExtern sampleState 4 = Flow.next s1 ∧
      s1.trace = sampleState.trace ++
        (if sampleState.context.recording ≠ RecStatus.NO_RECORDING then
          [Effect.saveMovie (moviePath sampleState.context (4 - specExtern.HOTKEY_SAVESTATE1 + 1))]
         else []) ++
        [Effect.sendMessage MsgN.MSGN_SAVESTATE,
         Effect.sendString (savestatePath sampleState.context (4 - specExtern.HOTKEY_SAVESTATE1 + 1))] ∧
      s1.files =
        (if sampleState.context.recording ≠ RecStatus.NO_RECORDING then
          specExtern.saveMovie sampleState.files
            (moviePath sampleState.context (4 - specExtern.HOTKEY_SAVESTATE1 + 1)) sampleState.movie
         else sampleState.files) ∧
      s1.movie = sampleState.movie ∧ s1.context = sampleState.context ∧
      s1.last_savestate_slot = 4 - specExtern.HOTKEY_SAVESTATE1 + 1 :=
  saveState_persists_then_sends specExtern (by decide) sampleState 4 (by decide)

/-- C13: `haveFocus(context)` returns true if and only if the `FOCUS_ALL` bit of
`inputs_focus` is set, or the `FOCUS_GAME` bit is set and the window that holds the
input focus is `context->game_window`, or the `FOCUS_UI` bit is set and that window
is `context->ui_window`.  Without focus the live inputs of a frame are empty. -/
theorem haveFocus_iff (E : Extern) (c : Context) (window : Nat) :
    (haveFocus E c window = true ↔
      (c.inputs_focus &&& E.FOCUS_ALL ≠ 0 ∨
       (c.inputs_focus &&& E.FOCUS_GAME ≠ 0 ∧ window = c.game_window) ∨
       (c.inputs_focus &&& E.FOCUS_UI ≠ 0 ∧ window = c.ui_window))) ∧
    (∀ x : LiveSample, haveFocus E c x.focus1 = false → sampleInputs E c x = E.emptyInputs) := by
  constructor
  · unfold haveFocus
    by_cases h1 : c.inputs_focus &&& E.FOCUS_ALL ≠ 0
    · simp [h1]
    · by_cases h2 : c.inputs_focus &&& E.FOCUS_GAME ≠ 0 ∧ window = c.game_window
      · simp [h2]
      · by_cases h3 : c.inputs_focus &&& E.FOCUS_UI ≠ 0 ∧ window = c.ui_window
        · simp [h3]
        · simp only [h1, h2, h3, if_false, or_self]
          simp
  · intro x hx
    simp [sampleInputs, hx]

theorem launchGame_eq (E : Extern) (linked_libs : List String) (cycles : List CycleEnv)
    (s : GameState) :
    launchGame E linked_libs cycles s =
      match (launchStart s).messages with
      | [] => none
      | m :: rest =>
        match initLoop E rest { launchStart s with message := m, messages := rest } with
        | Flow.next s1 =>
          match mainLoop E cycles (loopStart E linked_libs s1) with
          | Flow.brk s4 => some (afterLoop s4)
          | Flow.ret s4 => some s4
          | _ => none
        | Flow.ret s1 => some s1
        | _ => none := rfl

theorem initLoop_trace (E : Extern) (msgs : List Int) (s : GameState) :
    (initLoop E msgs s).state.trace = s.trace := by
  induction msgs generalizing s with
  | nil =>
    unfold initLoop
    repeat' split
    all_goals rfl
  | cons m rest ih =>
    unfold initLoop
    repeat' split
    all_goals first
      | rfl
      | (rw [ih])

theorem handleBoundaryMessage_trace (E : Extern) (s : GameState) :
    (handleBoundaryMessage E s).state.trace = s.trace := by
  unfold handleBoundaryMessage
  repeat' split
  all_goals rfl

theorem waitLoop_trace (E : Extern) (msgs : List Int) (s : GameState) :
    (waitLoop E msgs s).state.trace = s.trace := by
  induction msgs generalizing s with
  | nil =>
    unfold waitLoop
    have h := handleBoundaryMessage_trace E s
    split
    · cases hf : handleBoundaryMessage E s <;> rw [hf] at h <;> exact h
    · rfl
  | cons m rest ih =>
    unfold waitLoop
    have h := handleBoundaryMessage_trace E s
    split
    · cases hf : handleBoundaryMessage E s with
      | next s1 =>
        rw [hf] at h
        simp only []
        rw [ih]
        exact h
      | brk s1 => rw [hf] at h; exact h
      | ret s1 => rw [hf] at h; exact h
      | blocked s1 => rw [hf] at h; exact h
    · rfl

theorem waitFrameBoundary_trace (E : Extern) (s : GameState) :
    (waitFrameBoundary E s).state.trace = s.trace := by
  unfold waitFrameBoundary
  split
  · rfl
  · rename_i m rest _
    have h := waitLoop_trace E rest { s with message := m, messages := rest }
    cases hf : waitLoop E rest { s with message := m, messages := rest } with
    | next s1 =>
      rw [hf] at h
      simp only []
      split
      · exact h
      · split <;> exact h
    | brk s1 => rw [hf] at h; exact h
    | ret s1 => rw [hf] at h; exact h
    | blocked s1 => rw [hf] at h; exact h

theorem initLoop_unknown (E : Extern) (msgs : List Int) (s : GameState)
    (h1 : s.message ≠ E.MSGB_PID) (h2 : s.message ≠ E.MSGB_END_INIT) :
    initLoop E msgs s = Flow.ret s := by
  cases msgs <;> simp [initLoop, h1, h2]

theorem waitLoop_unknown (E : Extern) (msgs : List Int) (s : GameState)
    (h0 : 0 ≤ s.message) (hq : s.message ≠ E.MSGB_QUIT)
    (hs : s.message ≠ E.MSGB_START_FRAMEBOUNDARY) (h1 : s.message ≠ E.MSGB_WINDOW_ID)
    (h2 : s.message ≠ E.MSGB_ERROR_MSG) (h3 : s.message ≠ E.MSGB_ENCODE_FAILED)
    (h4 : s.message ≠ E.MSGB_FRAMECOUNT) :
    waitLoop E msgs s = Flow.ret s := by
  have hb : handleBoundaryMessage E s = Flow.ret s := by
    simp [handleBoundaryMessage, h1, h2, h3, h4]
  cases msgs <;> simp [waitLoop, h0, hq, hs, hb]

theorem waitLoop_error (E : Extern) (msgs : List Int) (s : GameState) (h : s.message = -1) :
    waitLoop E msgs s = Flow.next s := by
  cases msgs <;> simp [waitLoop, h]

theorem waitFrameBoundary_ret (E : Extern) (s s1 : GameState) (m : Int) (rest : List Int)
    (hm : s.messages = m :: rest)
    (h : waitLoop E rest { s with message := m, messages := rest } = Flow.ret s1) :
    waitFrameBoundary E s = Flow.ret s1 := by
  unfold waitFrameBoundary
  rw [hm]
  simp only []
  rw [h]

theorem waitFrameBoundary_brk (E : Extern) (s s1 : GameState) (m : Int) (rest : List Int)
    (hm : s.messages = m :: rest)
    (h : waitLoop E rest { s with message := m, messages := rest } = Flow.next s1)
    (h1 : s1.message = -1) :
    waitFrameBoundary E s = Flow.brk s1 := by
  unfold waitFrameBoundary
  rw [hm]
  simp only []
  rw [h]
  simp [h1]

theorem mainLoop_of_wait (E : Extern) (cycles : List CycleEnv) (s s1 : GameState) :
    (waitFrameBoundary E s = Flow.ret s1 → mainLoop E cycles s = Flow.ret s1) ∧
    (waitFrameBoundary E s = Flow.brk s1 → mainLoop E cycles s = Flow.brk s1) := by
  cases cycles with
  | nil => constructor <;> intro h <;> simp [mainLoop, h]
  | cons c cs => constructor <;> intro h <;> simp [mainLoop, boundaryCycle, h]

theorem waitFrameBoundary_next_message (E : Extern) (s s1 : GameState)
    (h : waitFrameBoundary E s = Flow.next s1) :
    s1.message ≠ -1 ∧ s1.message ≠ E.MSGB_QUIT := by
  unfold waitFrameBoundary at h
  cases hm : s.messages with
  | nil => rw [hm] at h; cases h
  | cons m rest =>
    rw [hm] at h
    simp only [] at h
    cases hf : waitLoop E rest { s with message := m, messages := rest } with
    | next s2 =>
      rw [hf] at h
      simp only [] at h
      by_cases h1 : s2.message = -1
      · simp [h1] at h
      · by_cases h2 : s2.message = E.MSGB_QUIT
        · simp [h1, h2] at h
        · simp only [h1, h2, if_false, Flow.next.injEq] at h
          subst h
          exact ⟨h1, h2⟩
    | brk s2 => rw [hf] at h; cases h
    | ret s2 => rw [hf] at h; cases h
    | blocked s2 => rw [hf] at h; cases h

/-- C12: an unknown message stops `launchGame` with nothing more sent.  In the
handshake a message other than `MSGB_PID` and `MSGB_END_INIT` makes `launchGame`
return at once.  While waiting for a frame boundary a non-negative message other
than `MSGB_WINDOW_ID`, `MSGB_ERROR_MSG`, `MSGB_ENCODE_FAILED`, `MSGB_FRAMECOUNT`,
`MSGB_QUIT` and `MSGB_START_FRAMEBOUNDARY` makes the wait, the `while (1)` loop and
`launchGame` return in the state in which it was received.  The message -1 ends the
wait and leaves the loop by `break`; the cycle never goes on with it, and what
follows the loop sends nothing. -/
theorem unknown_message_stops_launchGame (E : Extern) :
    (∀ (msgs : List Int) (s : GameState), s.message ≠ E.MSGB_PID → s.message ≠ E.MSGB_END_INIT →
      initLoop E msgs s = Flow.ret s) ∧
    (∀ (linked_libs : List String) (cycles : List CycleEnv) (s s1 : GameState) (m : Int)
        (rest : List Int), (launchStart s).messages = m :: rest →
      initLoop E rest { launchStart s with message := m, messages := rest } = Flow.ret s1 →
      launchGame E linked_libs cycles s = some s1 ∧ s1.trace = s.trace) ∧
    (∀ (msgs : List Int) (s : GameState), 0 ≤ s.message → s.message ≠ E.MSGB_WINDOW_ID →
      s.message ≠ E.MSGB_ERROR_MSG → s.message ≠ E.MSGB_ENCODE_FAILED →
      s.message ≠ E.MSGB_FRAMECOUNT → s.message ≠ E.MSGB_QUIT →
      s.message ≠ E.MSGB_START_FRAMEBOUNDARY → waitLoop E msgs s = Flow.ret s) ∧
    (∀ (cycles : List CycleEnv) (s s1 : GameState) (m : Int) (rest : List Int),
      s.messages = m :: rest →
      waitLoop E rest { s with message := m, messages := rest } = Flow.ret s1 →
      mainLoop E cycles s = Flow.ret s1 ∧ s1.trace = s.trace) ∧
    (∀ (linked_libs : List String) (cycles : List CycleEnv) (s s1 s4 : GameState) (m : Int)
        (rest : List Int), (launchStart s).messages = m :: rest →
      initLoop E rest { launchStart s with message := m, messages := rest } = Flow.next s1 →
      (mainLoop E cycles (loopStart E linked_libs s1) = Flow.ret s4 →
        launchGame E linked_libs cycles s = some s4) ∧
      (mainLoop E cycles (loopStart E linked_libs s1) = Flow.brk s4 →
        launchGame E linked_libs cycles s = some (afterLoop s4) ∧
        (afterLoop s4).trace = s4.trace)) ∧
    (∀ (msgs : List Int) (s : GameState), s.message = -1 → waitLoop E msgs s = Flow.next s) ∧
    (∀ (cycles : List CycleEnv) (s s1 : GameState) (m : Int) (rest : List Int),
      s.messages = m :: rest →
      waitLoop E rest { s with message := m, messages := rest } = Flow.next s1 →
      s1.message = -1 → mainLoop E cycles s = Flow.brk s1 ∧ s1.trace = s.trace) ∧
    (∀ (s s1 : GameState), waitFrameBoundary E s = Flow.next s1 → s1.message ≠ -1) := by
  refine ⟨fun msgs s h1 h2 => initLoop_unknown E msgs s h1 h2, ?_,
    fun msgs s h0 h1 h2 h3 h4 hq hs => waitLoop_unknown E msgs s h0 hq hs h1 h2 h3 h4, ?_, ?_,
    fun msgs s h => waitLoop_error E msgs s h, ?_,
    fun s s1 h => (waitFrameBoundary_next_message E s s1 h).1⟩
  · intro linked_libs cycles s s1 m rest hm h
    constructor
    · rw [launchGame_eq, hm]
      simp only []
      rw [h]
    · have ht := initLoop_trace E rest { launchStart s with message := m, messages := rest }
      rw [h] at ht
      exact ht
  · intro cycles s s1 m rest hm h
    have hw := waitFrameBoundary_ret E s s1 m rest hm h
    refine ⟨(mainLoop_of_wait E cycles s s1).1 hw, ?_⟩
    have ht := waitFrameBoundary_trace E s
    rw [hw] at ht
    exact ht
  · intro linked_libs cycles s s1 s4 m rest hm h
    constructor
    · intro hl
      rw [launchGame_eq, hm]
      simp only []
      rw [h]
      simp only []
      rw [hl]
    · intro hl
      constructor
      · rw [launchGame_eq, hm]
        simp only []
        rw [h]
        simp only []
        rw [hl]
      · unfold afterLoop
        split <;> rfl
  · intro cycles s s1 m rest hm h h1
    have hw := waitFrameBoundary_brk E s s1 m rest hm h h1
    refine ⟨(mainLoop_of_wait E cycles s s1).2 hw, ?_⟩
    have ht := waitFrameBoundary_trace E s
    rw [hw] at ht
    exact ht

/-- C12 at a concrete input: the first message of the handshake is 7, neither
`MSGB_PID` nor `MSGB_END_INIT`, and `launchGame` returns with an empty trace. -/
theorem unknown_message_stops_launchGame_witness :
    launchGame specExtern [] [] sampleState =
      some { launchStart sampleState with message := 7, messages := [] } ∧
    ({ launchStart sampleState with message := 7, messages := [] } : GameState).trace =
      sampleState.trace :=
  (unknown_message_stops_launchGame specExtern).2.1 [] [] sampleState
    { launchStart sampleState with message := 7, messages := [] } 7 [] rfl
    ((unknown_message_stops_launchGame specExtern).1 []
      { launchStart sampleState with message := 7, messages := [] } (by decide) (by decide))

theorem string_append_left_cancel (a b c : String) (h : a ++ b = a ++ c) : b = c := by
  have h1 := congrArg String.data h
  simp only [String.data_append, List.append_cancel_left_eq] at h1
  exact String.ext h1

theorem string_append_right_cancel (a b c : String) (h : a ++ c = b ++ c) : a = b := by
  have h1 := congrArg String.data h
  simp only [String.data_append, List.append_cancel_right_eq] at h1
  exact String.ext h1

theorem slot_toString_inj (n m : Int) (hn : 1 ≤ n ∧ n ≤ 9) (hm : 1 ≤ m ∧ m ≤ 9)
    (h : toString n = toString m) : n = m := by
  obtain ⟨hn1, hn2⟩ := hn
  obtain ⟨hm1, hm2⟩ := hm
  interval_cases n <;> interval_cases m <;> first | rfl | (exfalso; revert h; decide)

theorem moviePath_congr (c d : Context) (n : Int)
    (hdir : d.config.savestatedir = c.config.savestatedir) (hname : d.gamename = c.gamename) :
    moviePath d n = moviePath c n ∧ savestatePath d n = savestatePath c n := by
  simp [moviePath, savestatePath, hdir, hname]

theorem slot_paths_distinct (c : Context) (n m : Int) (hn : 1 ≤ n ∧ n ≤ 9) (hm : 1 ≤ m ∧ m ≤ 9)
    (hne : n ≠ m) :
    savestatePath c n ≠ savestatePath c m ∧ moviePath c n ≠ moviePath c m := by
  constructor
  · intro h
    unfold savestatePath at h
    exact hne (slot_toString_inj n m hn hm (string_append_left_cancel _ _ _ h))
  · intro h
    unfold moviePath at h
    exact hne (slot_toString_inj n m hn hm
      (string_append_left_cancel _ _ _ (string_append_right_cancel _ _ _ h)))

theorem state_path_ne_movie_path (c : Context) (n m : Int) :
    savestatePath c n ≠ moviePath c m := by
  intro h
  unfold savestatePath moviePath at h
  have h1 := congrArg String.data h
  simp only [String.data_append, List.append_assoc, List.append_cancel_left_eq] at h1
  simp at h1

theorem hotkeyLoadState_refused_iff (E : Extern) (s : GameState) (hk : Int) :
    hotkeyLoadState E s hk = Flow.next s ↔
      ((s.context.recording = RecStatus.RECORDING_READ_WRITE ∨
        s.context.recording = RecStatus.RECORDING_READ_ONLY) ∧
       E.isPrefix s.movie (E.loadMovie s.files
         (moviePath s.context (hk - E.HOTKEY_LOADSTATE1 + 1)) { input_list := [] }) = false) := by
  constructor
  · intro heq
    by_contra hacc
    have hs := (hotkeyLoadState_sent E s hk hacc).1
    rw [heq] at hs
    have hl := congrArg List.length hs
    simp [Flow.state] at hl
  · intro href
    simp [hotkeyLoadState, loadSwitch_refused E s _ href]

/-- C15: the slot number of every save-to-slot and load-from-slot hotkey lies in
1..9.  A save to slot n writes the movie `<savestatedir>/<gamename>.movie<n>.ltm`
(when recording) and sends the state path `<savestatedir>/<gamename>.state<n>`; a
load from the same slot, under the same directory and game name, sends that state
path and reads that movie path (the movie it loads in write mode, the movie it
compares with in the read modes).  Different slots have different state paths and
different movie paths, and no state path is a movie path. -/
theorem slot_numbers_and_paths (E : Extern) (hE : E.HotkeysDistinct) (hC : E.SlotsConsecutive)
    (s t : GameState) (hk_save hk_load : Int)
    (hs : E.HOTKEY_SAVESTATE1 ≤ hk_save ∧ hk_save ≤ E.HOTKEY_SAVESTATE9)
    (hl : E.HOTKEY_LOADSTATE1 ≤ hk_load ∧ hk_load ≤ E.HOTKEY_LOADSTATE9)
    (hdir : t.context.config.savestatedir = s.context.config.savestatedir)
    (hname : t.context.gamename = s.context.gamename)
    (hslot : hk_load - E.HOTKEY_LOADSTATE1 = hk_save - E.HOTKEY_SAVESTATE1) :
    (1 ≤ hk_save - E.HOTKEY_SAVESTATE1 + 1 ∧ hk_save - E.HOTKEY_SAVESTATE1 + 1 ≤ 9) ∧
    (1 ≤ hk_load - E.HOTKEY_LOADSTATE1 + 1 ∧ hk_load - E.HOTKEY_LOADSTATE1 + 1 ≤ 9) ∧
    (keyPress E s hk_save).state.trace =
      s.trace ++
      (if s.context.recording ≠ RecStatus.NO_RECORDING then
        [Effect.saveMovie (s.context.config.savestatedir ++ "/" ++ s.context.gamename ++ ".movie" ++
          toString (hk_save - E.HOTKEY_SAVESTATE1 + 1) ++ ".ltm")] else []) ++
      [Effect.sendMessage MsgN.MSGN_SAVESTATE,
       Effect.sendString (s.context.config.savestatedir ++ "/" ++ s.context.gamename ++ ".state" ++
          toString (hk_save - E.HOTKEY_SAVESTATE1 + 1))] ∧
    (keyPress E t hk_load ≠ Flow.next t →
      sent (keyPress E t hk_load).state.trace =
        sent t.trace ++ [Effect.sendMessage MsgN.MSGN_LOADSTATE,
          Effect.sendString (s.context.config.savestatedir ++ "/" ++ s.context.gamename ++ ".state" ++
            toString (hk_save - E.HOTKEY_SAVESTATE1 + 1))]) ∧
    (t.context.recording = RecStatus.RECORDING_WRITE →
      t.last_savestate_slot ≠ hk_load - E.HOTKEY_LOADSTATE1 + 1 →
      (keyPress E t hk_load).state.movie =
        E.loadMovie t.files (s.context.config.savestatedir ++ "/" ++ s.context.gamename ++ ".movie" ++
          toString (hk_save - E.HOTKEY_SAVESTATE1 + 1) ++ ".ltm") t.movie) ∧
    (t.context.recording = RecStatus.RECORDING_READ_WRITE ∨
        t.context.recording = RecStatus.RECORDING_READ_ONLY →
      (keyPress E t hk_load = Flow.next t ↔
        E.isPrefix t.movie (E.loadMovie t.files
          (s.context.config.savestatedir ++ "/" ++ s.context.gamename ++ ".movie" ++
            toString (hk_save - E.HOTKEY_SAVESTATE1 + 1) ++ ".ltm") { input_list := [] }) = false)) ∧
    (∀ (c : Context) (n m : Int), 1 ≤ n ∧ n ≤ 9 → 1 ≤ m ∧ m ≤ 9 → n ≠ m →
      savestatePath c n ≠ savestatePath c m ∧ moviePath c n ≠ moviePath c m) ∧
    (∀ (c : Context) (n m : Int), savestatePath c n ≠ moviePath c m) := by
  obtain ⟨hc1, hc2⟩ := hC
  have hn : hk_load - E.HOTKEY_LOADSTATE1 + 1 = hk_save - E.HOTKEY_SAVESTATE1 + 1 := by omega
  obtain ⟨hp1, hp2⟩ := moviePath_congr s.context t.context (hk_save - E.HOTKEY_SAVESTATE1 + 1)
    hdir hname
  have hm : moviePath t.context (hk_load - E.HOTKEY_LOADSTATE1 + 1) =
      s.context.config.savestatedir ++ "/" ++ s.context.gamename ++ ".movie" ++
        toString (hk_save - E.HOTKEY_SAVESTATE1 + 1) ++ ".ltm" := by
    rw [hn, hp1]; rfl
  have hst : savestatePath t.context (hk_load - E.HOTKEY_LOADSTATE1 + 1) =
      s.context.config.savestatedir ++ "/" ++ s.context.gamename ++ ".state" ++
        toString (hk_save - E.HOTKEY_SAVESTATE1 + 1) := by
    rw [hn, hp2]; rfl
  have hiff := hotkeyLoadState_refused_iff E t hk_load
  rw [keyPress_loadKey E hE t hk_load hl, keyPress_saveKey E hE s hk_save hs]
  refine ⟨by omega, by omega, ?_, fun hne => ?_, fun hw hlast => ?_, fun hr => ?_,
    fun c n m h1 h2 h3 => slot_paths_distinct c n m h1 h2 h3,
    fun c n m => state_path_ne_movie_path c n m⟩
  · simp only [Flow.state, hotkeySaveState, GameState.emit, moviePath, savestatePath]
    by_cases hr : s.context.recording = RecStatus.NO_RECORDING <;> simp [hr]
  · have h1 := (hotkeyLoadState_sent E t hk_load (fun href => hne (hiff.2 href))).1
    rw [hst] at h1
    exact h1
  · rw [hotkeyLoadState_write_movie E t hk_load hw, if_pos hlast, hm]
  · rw [hiff, hm]
    constructor
    · exact fun h => h.2
    · exact fun h => ⟨hr, h⟩

/-- C15 at a concrete input: saving to and loading from slot 3. -/
theorem slot_numbers_and_paths_witness :
    1 ≤ (6 : Int) - specExtern.HOTKEY_SAVESTATE1 + 1 ∧
    (6 : Int) - specExtern.HOTKEY_SAVESTATE1 + 1 ≤ 9 :=
  (slot_numbers_and_paths specExtern (by decide) (by decide) sampleState sampleState 6 15
    (by decide) (by decide) rfl rfl (by decide)).1

theorem frameAdvanceKey_facts (E : Extern) (hE : E.HotkeysDistinct) :
    E.HOTKEY_FRAMEADVANCE ≠ E.HOTKEY_PLAYPAUSE ∧ E.HOTKEY_FRAMEADVANCE ≠ E.HOTKEY_FASTFORWARD ∧
    E.HOTKEY_FRAMEADVANCE ≠ E.HOTKEY_SAVEPSEUDOSTATE ∧
    E.HOTKEY_FRAMEADVANCE ≠ E.HOTKEY_LOADPSEUDOSTATE ∧
    E.HOTKEY_FRAMEADVANCE ≠ E.HOTKEY_READWRITE ∧ E.HOTKEY_FRAMEADVANCE ≠ E.HOTKEY_TOGGLE_ENCODE ∧
    ¬ (E.HOTKEY_SAVESTATE1 ≤ E.HOTKEY_FRAMEADVANCE ∧ E.HOTKEY_FRAMEADVANCE ≤ E.HOTKEY_SAVESTATE9) ∧
    ¬ (E.HOTKEY_LOADSTATE1 ≤ E.HOTKEY_FRAMEADVANCE ∧ E.HOTKEY_FRAMEADVANCE ≤ E.HOTKEY_LOADSTATE9) := by
  obtain ⟨hn, hs, _⟩ := hE
  have hr := hs E.HOTKEY_FRAMEADVANCE (by simp [Extern.singleHotkeys])
  simp only [Extern.singleHotkeys, List.nodup_cons, List.mem_cons, List.mem_singleton,
    not_or, List.not_mem_nil, not_false_eq_true, List.nodup_nil, and_true] at hn
  exact ⟨hn.1.1, hn.1.2.1, hn.1.2.2.1, hn.1.2.2.2.1, hn.1.2.2.2.2.1, hn.1.2.2.2.2.2, hr.1, hr.2⟩

theorem keyPress_frameAdvance (E : Extern) (hE : E.HotkeysDistinct) (s : GameState) :
    keyPress E s E.HOTKEY_FRAMEADVANCE = Flow.next (hotkeyFrameAdvance s) := by
  obtain ⟨h1, h2, h3, h4, h5, h6, h7, h8⟩ := frameAdvanceKey_facts E hE
  unfold keyPress
  simp only [h1, h2, h3, h4, h5, h6, h7, h8, if_false, if_true]

theorem hotkeyFrameAdvance_fields (s : GameState) :
    (hotkeyFrameAdvance s).context.config.sc.running = false ∧
    (hotkeyFrameAdvance s).ar_ticks = 0 ∧ (hotkeyFrameAdvance s).advance_frame = true := by
  unfold hotkeyFrameAdvance
  by_cases h : s.context.config.sc.running = true
  · simp [h, GameState.setSc, GameState.setScModified]
  · simp [h]

theorem autoRepeat_active (s : GameState) (h : 0 ≤ s.ar_ticks) :
    (autoRepeat s).ar_ticks = s.ar_ticks + 1 ∧
    ((autoRepeat s).advance_frame = true ↔
      (s.advance_frame = true ∨ (s.ar_ticks + 1 > 50 ∧ (s.ar_ticks + 1) % 2 = 0))) := by
  simp only [autoRepeat, ge_iff_le, h, if_true, ar_delay, ar_freq]
  by_cases hc : s.ar_ticks + 1 > 50 ∧ (s.ar_ticks + 1) % 2 = 0
  · rw [if_pos hc]
    exact ⟨rfl, fun _ => Or.inr hc, fun _ => rfl⟩
  · rw [if_neg hc]
    refine ⟨rfl, fun h1 => Or.inl h1, fun h1 => ?_⟩
    rcases h1 with h1 | h1
    · exact h1
    · exact absurd h1 hc

theorem autoRepeat_inactive (s : GameState) (h : s.ar_ticks < 0) : autoRepeat s = s := by
  have : ¬ s.ar_ticks ≥ 0 := by omega
  simp [autoRepeat, this]

theorem autoRepeat_iterate_active (n : Nat) (s : GameState) (h : 0 ≤ s.ar_ticks) :
    (autoRepeat^[n] s).ar_ticks = s.ar_ticks + n := by
  induction n generalizing s with
  | zero => simp
  | succ k ih =>
    rw [Function.iterate_succ_apply]
    have h1 := (autoRepeat_active s h).1
    rw [ih (autoRepeat s) (by omega), h1]
    push_cast
    omega

theorem autoRepeat_iterate_inactive (n : Nat) (s : GameState) (h : s.ar_ticks < 0) :
    autoRepeat^[n] s = s := by
  induction n with
  | zero => rfl
  | succ k ih => rw [Function.iterate_succ_apply, autoRepeat_inactive s h, ih]

theorem keyRelease_frameAdvance (E : Extern) (hE : E.HotkeysDistinct) (s : GameState)
    (event : XEvent) :
    keyRelease E s event E.HOTKEY_FRAMEADVANCE =
      if retriggered s event then s else { s with ar_ticks := -1 } := by
  have h2 := (frameAdvanceKey_facts E hE).2.1
  unfold keyRelease retriggered
  cases s with
  | mk context pseudosavestate movie files last_savestate_slot ar_ticks advance_frame message
      messages datas strings xfocus xqueue trace =>
  cases xqueue with
  | nil => simp [h2]
  | cons nev q =>
    by_cases hc : nev.type = XEventType.KeyPress ∧ nev.time = event.time ∧
        nev.keycode = event.keycode
    · simp [hc]
    · simp [hc, h2]

theorem handleEvent_focusOut (E : Extern) (modifiers : KeySym) (s : GameState) (event : XEvent)
    (h : event.type = XEventType.FocusOut) :
    handleEvent E modifiers s event = Flow.next { s with ar_ticks := -1 } := by
  simp [handleEvent, h]

theorem pollLoop_quiet (E : Extern) (modifiers : KeySym) (ps : List Poll) (s : GameState)
    (hw : s.context.game_window ≠ 0) (hq : s.xqueue = []) :
    pollLoop E ({ modifiers := modifiers, arrivals := [] } :: ps) s =
      if !(autoRepeat s).context.config.sc.running && !(autoRepeat s).advance_frame then
        pollLoop E ps (autoRepeat s)
      else Flow.next (autoRepeat s) := by
  have hq1 : (autoRepeat s).xqueue = [] := by
    unfold autoRepeat
    simp only []
    split_ifs <;> exact hq
  have he : ({ autoRepeat s with xqueue := [] } : GameState) = autoRepeat s := by
    rw [← hq1]
  rw [pollLoop]
  simp only [hw, if_false, hq1, List.append_nil, eventLoop, he]

theorem handleEvent_key (E : Extern) (modifiers : KeySym) (s : GameState) (event : XEvent)
    (hk : Int) (hm : E.is_modifier (E.keysym event.keycode) = false)
    (hh : hotkeyOf s.context.config modifiers (E.keysym event.keycode) = some hk) :
    (event.type = XEventType.KeyPress → handleEvent E modifiers s event = keyPress E s hk) ∧
    (event.type = XEventType.KeyRelease →
      handleEvent E modifiers s event = Flow.next (keyRelease E s event hk)) := by
  unfold hotkeyOf at hh
  constructor
  · intro ht
    unfold handleEvent
    simp only [ht, reduceCtorEq, if_false, true_or, if_true, hm, Bool.false_eq_true]
    rw [hh]
  · intro ht
    unfold handleEvent
    simp only [ht, reduceCtorEq, if_false, or_true, if_true, hm, Bool.false_eq_true]
    rw [hh]

/-- C20: frame-advance auto-repeat.  Pressing the frame-advance hotkey pauses the
game, advances one frame and sets `ar_ticks = 0`.  While `ar_ticks >= 0` the head
of every poll iteration adds exactly one to `ar_ticks` and triggers a frame advance
exactly when the new value is greater than `ar_delay = 50` and a multiple of
`ar_freq = 2`.  A release of the hotkey (a `KeyRelease` that is not followed by the
re-triggered `KeyPress` of an X auto-repeat) and a `FocusOut` event set
`ar_ticks = -1`, and with `ar_ticks = -1` the auto-repeat step changes nothing. -/
theorem frameAdvance_autoRepeat (E : Extern) (hE : E.HotkeysDistinct) (s : GameState) :
    (∃ s1, keyPress E s E.HOTKEY_FRAMEADVANCE = Flow.next s1 ∧
      s1.context.config.sc.running = false ∧ s1.advance_frame = true ∧ s1.ar_ticks = 0) ∧
    (∀ modifiers event, event.type = XEventType.KeyPress →
      E.is_modifier (E.keysym event.keycode) = false →
      hotkeyOf s.context.config modifiers (E.keysym event.keycode) = some E.HOTKEY_FRAMEADVANCE →
      handleEvent E modifiers s event = Flow.next (hotkeyFrameAdvance s)) ∧
    (0 ≤ s.ar_ticks →
      (autoRepeat s).ar_ticks = s.ar_ticks + 1 ∧
      ((autoRepeat s).advance_frame = true ↔
        (s.advance_frame = true ∨
          (s.ar_ticks + 1 > ar_delay ∧ (s.ar_ticks + 1) % ar_freq = 0)))) ∧
    (ar_delay = 50 ∧ ar_freq = 2) ∧
    (∀ n : Nat, 0 ≤ s.ar_ticks → (autoRepeat^[n] s).ar_ticks = s.ar_ticks + n) ∧
    (∀ modifiers ps, s.context.game_window ≠ 0 → s.xqueue = [] →
      pollLoop E ({ modifiers := modifiers, arrivals := [] } :: ps) s =
        if !(autoRepeat s).context.config.sc.running && !(autoRepeat s).advance_frame then
          pollLoop E ps (autoRepeat s)
        else Flow.next (autoRepeat s)) ∧
    (∀ modifiers event, event.type = XEventType.KeyRelease →
      E.is_modifier (E.keysym event.keycode) = false →
      hotkeyOf s.context.config modifiers (E.keysym event.keycode) = some E.HOTKEY_FRAMEADVANCE →
      handleEvent E modifiers s event =
        Flow.next (if retriggered s event then s else { s with ar_ticks := -1 })) ∧
    (∀ modifiers event, event.type = XEventType.FocusOut →
      handleEvent E modifiers s event = Flow.next { s with ar_ticks := -1 }) ∧
    (s.ar_ticks = -1 → ∀ n : Nat, autoRepeat^[n] s = s) := by
  obtain ⟨f1, f2, f3⟩ := hotkeyFrameAdvance_fields s
  refine ⟨⟨_, keyPress_frameAdvance E hE s, f1, f3, f2⟩, ?_, fun h => autoRepeat_active s h,
    ⟨rfl, rfl⟩, fun n h => autoRepeat_iterate_active n s h,
    fun modifiers ps hw hq => pollLoop_quiet E modifiers ps s hw hq, ?_,
    fun modifiers event h => handleEvent_focusOut E modifiers s event h,
    fun h n => autoRepeat_iterate_inactive n s (by omega)⟩
  · intro modifiers event ht hm hh
    rw [(handleEvent_key E modifiers s event _ hm hh).1 ht, keyPress_frameAdvance E hE s]
  · intro modifiers event ht hm hh
    rw [(handleEvent_key E modifiers s event _ hm hh).2 ht, keyRelease_frameAdvance E hE s event]

/-- C20 at a concrete input: the hotkey is pressed in `sampleState`. -/
theorem frameAdvance_autoRepeat_witness :
    ∃ s1, keyPress specExtern sampleState specExtern.HOTKEY_FRAMEADVANCE = Flow.next s1 ∧
      s1.context.config.sc.running = false ∧ s1.advance_frame = true ∧ s1.ar_ticks = 0 :=
  (frameAdvance_autoRepeat specExtern (by decide) sampleState).1

theorem ltIntULong_of_ge (row : Int) (fc : Nat) (h0 : 0 ≤ row) (h1 : (fc : Int) ≤ row)
    (h2 : row < 2 ^ 31) : ltIntULong row fc = false := by
  unfold ltIntULong
  simp only [decide_eq_false_iff_not, not_lt]
  omega

theorem specInsert_iterate (ai : AllInputs) (row : Nat) (count : Nat) (l : List AllInputs)
    (h : row ≤ l.length) :
    ((fun mv => specInsertInputsBefore mv ai (row : Int))^[count] { input_list := l }) =
      { input_list := l.take row ++ List.replicate count ai ++ l.drop row } := by
  induction count generalizing l with
  | zero => simp
  | succ k ih =>
    rw [Function.iterate_succ_apply]
    have h1 : specInsertInputsBefore { input_list := l } ai (row : Int) =
        { input_list := l.take row ++ ai :: l.drop row } := by
      simp [specInsertInputsBefore, h]
    rw [h1, ih _ (by simp; omega)]
    congr 1
    have ht : (l.take row ++ ai :: l.drop row).take row = l.take row := by
      rw [List.take_append_of_le_length (by simp [h])]
      simp [List.take_take]
    have hd : (l.take row ++ ai :: l.drop row).drop row = ai :: l.drop row := by
      rw [List.drop_append_of_le_length (by simp [h])]
      simp [List.drop_eq_nil_of_le, h]
    rw [ht, hd, List.replicate_succ']
    simp

theorem specDelete_iterate (row : Nat) (count : Nat) (l : List AllInputs)
    (h : row + count ≤ l.length) :
    ((fun mv => specDeleteInputs mv (row : Int))^[count] { input_list := l }) =
      { input_list := l.take row ++ l.drop (row + count) } := by
  induction count generalizing l with
  | zero => simp
  | succ k ih =>
    rw [Function.iterate_succ_apply]
    have hlt : row < l.length := by omega
    have h1 : specDeleteInputs { input_list := l } (row : Int) =
        { input_list := l.eraseIdx row } := by
      simp [specDeleteInputs, hlt]
    rw [h1, ih _ (by rw [List.length_eraseIdx]; simp [hlt]; omega)]
    congr 1
    rw [List.eraseIdx_eq_take_drop_succ]
    have ht : (l.take row ++ l.drop (row + 1)).take row = l.take row := by
      rw [List.take_append_of_le_length (by simp; omega)]
      simp [List.take_take]
    have hd : (l.take row ++ l.drop (row + 1)).drop (row + k) = l.drop (row + (k + 1)) := by
      rw [List.drop_append_eq_append_drop]
      simp only [List.length_take, List.drop_drop]
      rw [List.drop_eq_nil_of_le (by simp)]
      simp only [List.nil_append]
      congr 1
      omega
    rw [ht, hd]

/-- C14, with `insertInputsBefore` and `deleteInputs` as the spec describes them: for
a row at or after `context->framecount` that is an insertion position of the movie
(`row ≤ nbFrames`), `insertRows(row, count)` returns true and the movie becomes the
old frames before `row`, then `count` empty `AllInputs`, then the old frames from
`row` on; `removeRows(row, count)` with `row + count ≤ nbFrames` returns true and
removes exactly the frames `[row, row + count)`. -/
theorem insertRows_removeRows_shift (E : Extern)
    (hins : E.insertInputsBefore = specInsertInputsBefore)
    (hdel : E.deleteInputs = specDeleteInputs) (m : InputEditorModel) (row count : Int)
    (h0 : 0 ≤ row) (hfc : (m.context.framecount : Int) ≤ row) (hint : row < 2 ^ 31) :
    (row ≤ (m.movie.nbFrames : Int) →
      (insertRows E m row count).1 = true ∧
      (insertRows E m row count).2.movie.input_list =
        m.movie.input_list.take row.toNat ++ List.replicate count.toNat E.emptyInputs ++
          m.movie.input_list.drop row.toNat) ∧
    (0 ≤ count → row + count ≤ (m.movie.nbFrames : Int) →
      (removeRows E m row count).1 = true ∧
      (removeRows E m row count).2.movie.input_list =
        m.movie.input_list.take row.toNat ++
          m.movie.input_list.drop (row.toNat + count.toNat)) := by
  have hg := ltIntULong_of_ge row m.context.framecount h0 hfc hint
  lift row to ℕ using h0
  simp only [Int.toNat_ofNat]
  constructor
  · intro hle
    have hle' : row ≤ m.movie.input_list.length := by
      unfold MovieFile.nbFrames at hle
      omega
    simp only [insertRows, hg, Bool.false_eq_true, if_false, updateFramecount, hins, true_and]
    rw [specInsert_iterate E.emptyInputs row count.toNat m.movie.input_list hle']
  · intro hc hle
    have hle' : row + count.toNat ≤ m.movie.input_list.length := by
      unfold MovieFile.nbFrames at hle
      omega
    simp only [removeRows, hg, Bool.false_eq_true, if_false, updateFramecount, hdel, true_and]
    rw [specDelete_iterate row count.toNat m.movie.input_list hle']

/-- C14 at a concrete input: two rows inserted at the playhead (row 2) of a movie of
three frames. -/
theorem insertRows_removeRows_shift_witness :
    (insertRows specExtern sampleEditor 2 2).1 = true ∧
    (insertRows specExtern sampleEditor 2 2).2.movie.input_list =
      sampleEditor.movie.input_list.take (2 : Int).toNat ++
        List.replicate (2 : Int).toNat specExtern.emptyInputs ++
        sampleEditor.movie.input_list.drop (2 : Int).toNat :=
  (insertRows_removeRows_shift specExtern rfl rfl sampleEditor 2 2 (by decide) (by decide)
    (by decide)).1 (by decide)

theorem connectLoop_spec (connect : Nat → Bool) (fuel : Nat) :
    ∀ (retry : Nat) (steps : List ConnectStep), retry + fuel = MAX_RETRIES → 0 < fuel →
      ∃ n, 1 ≤ n ∧ n ≤ fuel ∧
        connectLoop connect fuel retry steps =
          some (connect (retry + n - 1),
            steps ++ (List.replicate (n - 1) [ConnectStep.connect, ConnectStep.sleep]).flatten ++
              [ConnectStep.connect]) ∧
        (∀ j, retry ≤ j → j < retry + n - 1 → connect j = false) ∧
        (connect (retry + n - 1) = false → n = fuel) := by
  induction fuel with
  | zero => intro retry steps _ h; omega
  | succ k ih =>
    intro retry steps hsum _
    unfold connectLoop
    by_cases hc : connect retry = true
    · refine ⟨1, le_refl _, by omega, ?_, fun j h1 h2 => by omega, fun h => ?_⟩
      · simp [hc]
      · simp [hc] at h
    · by_cases hr : retry + 1 < MAX_RETRIES
      · obtain ⟨n, hn1, hn2, heq, hfail, hlast⟩ :=
          ih (retry + 1) (steps ++ [ConnectStep.connect, ConnectStep.sleep]) (by omega) (by omega)
        have e1 : retry + 1 + n - 1 = retry + (n + 1) - 1 := by omega
        refine ⟨n + 1, by omega, by omega, ?_, fun j h1 h2 => ?_, fun h => ?_⟩
        · obtain ⟨n', rfl⟩ : ∃ n', n = n' + 1 := ⟨n - 1, by omega⟩
          simp only [hc, Bool.false_eq_true, if_false, hr, if_true, heq, e1,
            Nat.add_sub_cancel, List.replicate_succ, List.flatten_cons, List.append_assoc]
        · by_cases hj : j = retry
          · subst hj; simpa using hc
          · exact hfail j (by omega) (by omega)
        · rw [← e1] at h
          have := hlast h
          omega
      · have hk : k = 0 := by omega
        subst hk
        refine ⟨1, le_refl _, le_refl _, ?_, fun j h1 h2 => by omega, fun _ => rfl⟩
        have : connect retry = false := by simpa using hc
        simp [hc, hr, this]

/-- C19: `initSocketProgram` terminates for every behaviour of `connect`.  It makes
`n` attempts with `1 ≤ n ≤ MAX_RETRIES = 10`, sleeps before each of them, returns
true exactly when one of the first 10 attempts succeeds, in which case the last
attempt made is the first that succeeds, and returns false exactly when the 10
attempts fail. -/
theorem initSocketProgram_bounded_retries (connect : Nat → Bool) :
    ∃ (result : Bool) (n : Nat), 1 ≤ n ∧ n ≤ 10 ∧
      initSocketProgram connect =
        some (result, (List.replicate n [ConnectStep.sleep, ConnectStep.connect]).flatten) ∧
      result = connect (n - 1) ∧
      (∀ j, j < n - 1 → connect j = false) ∧
      (result = false → n = 10) ∧
      (result = true ↔ ∃ i, i < 10 ∧ connect i = true) ∧
      (result = false ↔ ∀ i, i < 10 → connect i = false) := by
  obtain ⟨n, hn1, hn2, heq, hfail, hlast⟩ :=
    connectLoop_spec connect MAX_RETRIES 0 [ConnectStep.sleep] (by simp) (by decide)
  have hM : MAX_RETRIES = 10 := rfl
  simp only [Nat.zero_add] at heq hfail hlast
  have hsteps : [ConnectStep.sleep] ++
      (List.replicate (n - 1) [ConnectStep.connect, ConnectStep.sleep]).flatten ++
        [ConnectStep.connect] =
      (List.replicate n [ConnectStep.sleep, ConnectStep.connect]).flatten := by
    clear heq hfail hlast hn2
    induction n with
    | zero => omega
    | succ k ih =>
      cases k with
      | zero => rfl
      | succ k =>
        have := ih (by omega)
        simp only [Nat.add_sub_cancel, List.replicate_succ, List.flatten_cons,
          List.append_assoc, List.cons_append, List.nil_append, List.singleton_append] at this ⊢
        rw [← this]
  have hfalse : connect (n - 1) = false → ∀ i, i < 10 → connect i = false := by
    intro h i hi
    have hn := hlast h
    by_cases hin : i < n - 1
    · exact hfail i (Nat.zero_le _) hin
    · have : i = n - 1 := by omega
      rw [this]; exact h
  refine ⟨connect (n - 1), n, hn1, by omega, ?_, rfl, fun j hj => hfail j (Nat.zero_le _) hj,
    fun h => by have := hlast h; omega, ?_, ?_⟩
  · unfold initSocketProgram
    rw [heq, hsteps]
  · constructor
    · intro h
      exact ⟨n - 1, by omega, h⟩
    · rintro ⟨i, hi, hci⟩
      by_contra hne
      have h := hfalse (by simpa using hne) i hi
      rw [hci] at h
      cases h
  · constructor
    · exact hfalse
    · intro h
      exact h (n - 1) (by omega)

theorem decode_encodeU32 (n : Nat) (h : n < 2 ^ 32) : decodeU32 (encodeU32 n) = n := by
  simp only [decodeU32, encodeU32, List.foldr_cons, List.foldr_nil, Fin.ofNat, Fin.val_mk]
  omega

theorem encodeU32_length (n : Nat) : (encodeU32 n).length = 4 := rfl

theorem sendLoop_interrupts (elem : List Byte) (size : Nat) (faults : List SysResult)
    (out : List Byte) (h : onlyInterrupts faults) :
    sendLoop elem size faults out = (out ++ elem.take size, []) := by
  induction faults with
  | nil => rfl
  | cons f fs ih =>
    have hf : f = SysResult.eintr := h f (List.mem_cons_self _ _)
    subst hf
    unfold sendLoop
    exact ih (fun g hg => h g (List.mem_cons_of_mem _ hg))

theorem recvLoop_interrupts (size : Nat) (faults : List SysResult) (inc : List Byte)
    (h : onlyInterrupts faults) :
    recvLoop size faults inc =
      ((((inc.take size).length : Nat) : Int), inc.take size, inc.drop size, []) := by
  induction faults with
  | nil => rfl
  | cons f fs ih =>
    have hf : f = SysResult.eintr := h f (List.mem_cons_self _ _)
    subst hf
    unfold recvLoop
    exact ih (fun g hg => h g (List.mem_cons_of_mem _ hg))

theorem sendData_interrupts (elem : List Byte) (size : Nat) (sock : Socket)
    (h : onlyInterrupts sock.faults) :
    sendData elem size sock = { sock with outgoing := sock.outgoing ++ elem.take size, faults := [] } := by
  unfold sendData
  rw [sendLoop_interrupts elem size sock.faults sock.outgoing h]

theorem receiveData_interrupts (elem : List Byte) (size : Nat) (sock : Socket)
    (h : onlyInterrupts sock.faults) :
    receiveData elem size sock =
      ((((sock.incoming.take size).length : Nat) : Int),
        sock.incoming.take size ++ elem.drop (sock.incoming.take size).length,
        { sock with incoming := sock.incoming.drop size, faults := [] }) := by
  unfold receiveData
  rw [recvLoop_interrupts size sock.faults sock.incoming h]

theorem sendString_interrupts (str : List Byte) (hlen : str.length < 2 ^ 32) (sock : Socket)
    (h : onlyInterrupts sock.faults) :
    sendString str sock =
      { sock with outgoing := sock.outgoing ++ encodeU32 str.length ++ str, faults := [] } := by
  unfold sendString
  rw [Nat.mod_eq_of_lt hlen, sendData_interrupts _ 4 sock h,
    sendData_interrupts _ _ _ (by intro f hf; cases hf)]
  simp [encodeU32]

theorem receiveString_interrupts (str rest str_size : List Byte) (hlen : str.length < 2 ^ 32)
    (hsize : str_size.length = 4) (sock : Socket) (h : onlyInterrupts sock.faults)
    (hin : sock.incoming = encodeU32 str.length ++ str ++ rest) :
    receiveString str_size sock = (str, { sock with incoming := rest, faults := [] }) := by
  have h4 : (encodeU32 str.length ++ str ++ rest).take 4 = encodeU32 str.length := by
    rw [List.append_assoc, List.take_append_of_le_length (by simp [encodeU32])]
    rfl
  have hd4 : (encodeU32 str.length ++ str ++ rest).drop 4 = str ++ rest := by
    rw [List.append_assoc, List.drop_append_of_le_length (by simp [encodeU32])]
    rfl
  unfold receiveString
  rw [receiveData_interrupts _ 4 sock h, hin, h4, hd4]
  simp only [encodeU32_length, hsize, List.drop_length, List.append_nil]
  rw [← hsize, List.drop_length, List.append_nil, decode_encodeU32 _ hlen,
    receiveData_interrupts _ _ _ (by intro f hf; cases hf)]
  simp

/-- C11: for every string of fewer than 2^32 bytes (the empty string and strings with
NUL bytes included), on a socket whose system calls are at most interrupted,
`sendString` writes the length as a 4-byte unsigned count followed by exactly the
bytes of the string and nothing else, and `receiveString` on a stream that starts
with those bytes returns the string and consumes exactly these `4 + |s|` bytes. -/
theorem sendString_receiveString_roundtrip (str rest str_size : List Byte)
    (hlen : str.length < 2 ^ 32) (hsize : str_size.length = 4) (tx rx : Socket)
    (htx : onlyInterrupts tx.faults) (hrx : onlyInterrupts rx.faults) :
    (sendString str tx).outgoing = tx.outgoing ++ encodeU32 str.length ++ str ∧
    (encodeU32 str.length).length = 4 ∧
    decodeU32 (encodeU32 str.length) = str.length ∧
    (sendString str tx).outgoing.length = tx.outgoing.length + (4 + str.length) ∧
    (rx.incoming = encodeU32 str.length ++ str ++ rest →
      receiveString str_size rx = (str, { rx with incoming := rest, faults := [] })) ∧
    (tx.outgoing = [] → rx.incoming = (sendString str tx).outgoing ++ rest →
      (receiveString str_size rx).1 = str ∧ (receiveString str_size rx).2.incoming = rest) := by
  have hs := sendString_interrupts str hlen tx htx
  have hr := receiveString_interrupts str rest str_size hlen hsize rx hrx
  refine ⟨by rw [hs], rfl, decode_encodeU32 _ hlen, ?_, hr, fun he hin => ?_⟩
  · rw [hs]
    simp [encodeU32]
    omega
  · rw [hs, he] at hin
    simp only [List.nil_append] at hin
    rw [hr hin]
    exact ⟨rfl, rfl⟩

/-- C11 at a concrete input: a string of three bytes with a NUL byte in the middle,
sent on a fresh socket and received, after one interrupted `recv`, from a stream that
goes on with another byte. -/
theorem sendString_receiveString_roundtrip_witness :
    (receiveString [9, 9, 9, 9]
      { outgoing := [], incoming :=
          (sendString [97, 0, 98] { outgoing := [], incoming := [], faults := [] }).outgoing ++ [7],
        faults := [SysResult.eintr] }).1 = [97, 0, 98] ∧
    (receiveString [9, 9, 9, 9]
      { outgoing := [], incoming :=
          (sendString [97, 0, 98] { outgoing := [], incoming := [], faults := [] }).outgoing ++ [7],
        faults := [SysResult.eintr] }).2.incoming = [7] :=
  (sendString_receiveString_roundtrip [97, 0, 98] [7] [9, 9, 9, 9] (by decide) rfl
    { outgoing := [], incoming := [], faults := [] }
    { outgoing := [], incoming :=
        (sendString [97, 0, 98] { outgoing := [], incoming := [], faults := [] }).outgoing ++ [7],
      faults := [SysResult.eintr] } (by decide) (by decide)).2.2.2.2.2 rfl rfl

/-! ## Properties: main.c -/

theorem main_pressFrameAdvance_keeps (D : MainC.Decls) (ks : KeySym) (s : MainC.State) :
    (MainC.pressFrameAdvance D ks s).tasflags.recording = s.tasflags.recording ∧
    (MainC.pressFrameAdvance D ks s).frame_counter = s.frame_counter := by
  unfold MainC.pressFrameAdvance
  split_ifs <;> exact ⟨rfl, rfl⟩

theorem main_pressPlayPause_keeps (D : MainC.Decls) (ks : KeySym) (s : MainC.State) :
    (MainC.pressPlayPause D ks s).tasflags.recording = s.tasflags.recording ∧
    (MainC.pressPlayPause D ks s).frame_counter = s.frame_counter := by
  unfold MainC.pressPlayPause
  split_ifs <;> exact ⟨rfl, rfl⟩

theorem main_pressFastForward_keeps (D : MainC.Decls) (ks : KeySym) (s : MainC.State) :
    (MainC.pressFastForward D ks s).tasflags.recording = s.tasflags.recording ∧
    (MainC.pressFastForward D ks s).frame_counter = s.frame_counter := by
  unfold MainC.pressFastForward
  split_ifs <;> exact ⟨rfl, rfl⟩

theorem main_pressSaveState_keeps (D : MainC.Decls) (ks : KeySym) (s : MainC.State) :
    (MainC.pressSaveState D ks s).tasflags.recording = s.tasflags.recording ∧
    (MainC.pressSaveState D ks s).frame_counter = s.frame_counter := by
  unfold MainC.pressSaveState MainC.State.emit
  split_ifs <;> exact ⟨rfl, rfl⟩

theorem main_pressLoadState_keeps (D : MainC.Decls) (ks : KeySym) (s : MainC.State) :
    (MainC.pressLoadState D ks s).tasflags.recording = s.tasflags.recording ∧
    (MainC.pressLoadState D ks s).frame_counter = s.frame_counter := by
  unfold MainC.pressLoadState MainC.State.emit
  split_ifs <;> exact ⟨rfl, rfl⟩

theorem main_pressReadWrite_keeps (D : MainC.Decls) (ks : KeySym) (s : MainC.State) :
    (MainC.pressReadWrite D ks s).tasflags.recording =
      (if ks = D.HOTKEY_READWRITE ∧ 0 ≤ s.tasflags.recording then
        MainC.lnot s.tasflags.recording
      else s.tasflags.recording) ∧
    (MainC.pressReadWrite D ks s).frame_counter = s.frame_counter := by
  simp only [MainC.pressReadWrite, MainC.State.emit]
  split_ifs <;> simp_all

/-- What a key press does to `tasflags.recording` and to `frame_counter`: only the
read/write hotkey changes the recording mode, and only when it is not negative. -/
theorem main_keyPress_keeps (D : MainC.Decls) (s : MainC.State) (ks : KeySym) :
    (MainC.keyPress D s ks).tasflags.recording =
      (if ks = D.HOTKEY_READWRITE ∧ 0 ≤ s.tasflags.recording then
        MainC.lnot s.tasflags.recording
      else s.tasflags.recording) ∧
    (MainC.keyPress D s ks).frame_counter = s.frame_counter := by
  rw [MainC.keyPress, (main_pressReadWrite_keeps D ks _).1, (main_pressReadWrite_keeps D ks _).2,
    (main_pressLoadState_keeps D ks _).1, (main_pressLoadState_keeps D ks _).2,
    (main_pressSaveState_keeps D ks _).1, (main_pressSaveState_keeps D ks _).2,
    (main_pressFastForward_keeps D ks _).1, (main_pressFastForward_keeps D ks _).2,
    (main_pressPlayPause_keeps D ks _).1, (main_pressPlayPause_keeps D ks _).2,
    (main_pressFrameAdvance_keeps D ks _).1, (main_pressFrameAdvance_keeps D ks _).2]
  exact ⟨rfl, rfl⟩

theorem main_keyRelease_keeps (D : MainC.Decls) (s : MainC.State) (ks : KeySym) :
    (MainC.keyRelease D s ks).tasflags.recording = s.tasflags.recording ∧
    (MainC.keyRelease D s ks).frame_counter = s.frame_counter := by
  unfold MainC.keyRelease
  split_ifs <;> exact ⟨rfl, rfl⟩

theorem main_handleEvent_keeps (D : MainC.Decls) (s : MainC.State) (event : XEvent) :
    (s.tasflags.recording = -1 → (MainC.handleEvent D s event).tasflags.recording = -1) ∧
    (MainC.handleEvent D s event).frame_counter = s.frame_counter := by
  simp only [MainC.handleEvent]
  split_ifs with h1 h2 h2
  · rw [h1] at h2; cases h2
  · exact ⟨fun h => by rw [(main_keyRelease_keeps D s _).1, h], (main_keyRelease_keeps D s _).2⟩
  · refine ⟨fun h => ?_, (main_keyPress_keeps D s _).2⟩
    rw [(main_keyPress_keeps D s _).1, if_neg (by rw [h]; omega), h]
  · exact ⟨fun h => h, rfl⟩

theorem main_eventLoop_keeps (D : MainC.Decls) (events : List XEvent) (s : MainC.State) :
    (s.tasflags.recording = -1 → (MainC.eventLoop D events s).tasflags.recording = -1) ∧
    (MainC.eventLoop D events s).frame_counter = s.frame_counter := by
  induction events generalizing s with
  | nil => exact ⟨fun h => h, rfl⟩
  | cons e es ih =>
    have h1 := main_handleEvent_keeps D s e
    have h2 := ih (MainC.handleEvent D s e)
    simp only [MainC.eventLoop, List.foldl_cons] at h2 ⊢
    exact ⟨fun h => h2.1 (h1.1 h), h2.2.trans h1.2⟩

theorem main_pollLoop_keeps (D : MainC.Decls) (polls : List (List XEvent)) (s : MainC.State) :
    (s.tasflags.recording = -1 → (MainC.pollLoop D polls s).state.tasflags.recording = -1) ∧
    (MainC.pollLoop D polls s).state.frame_counter = s.frame_counter := by
  induction polls generalizing s with
  | nil => exact ⟨fun h => h, rfl⟩
  | cons events polls ih =>
    have h1 := main_eventLoop_keeps D events s
    have h2 := ih (MainC.eventLoop D events s)
    rw [MainC.pollLoop]
    split_ifs
    · exact ⟨fun h => h2.1 (h1.1 h), h2.2.trans h1.2⟩
    · exact h1

theorem main_receiveBoundary_disabled (D : MainC.Decls) (s : MainC.State)
    (h : s.tasflags.recording = -1) :
    (MainC.receiveBoundary D s).state.tasflags.recording = -1 := by
  unfold MainC.receiveBoundary MainC.recvMessage
  cases hm : s.messages with
  | nil => exact h
  | cons m rest =>
    cases m with
    | none =>
      simp only []
      split_ifs
      · exact h
      · exact h
      · cases hd : s.datas <;> exact h
    | some m =>
      simp only []
      split_ifs
      · exact h
      · exact h
      · cases hd : s.datas <;> exact h

theorem main_recordFrame_disabled (c : MainC.CycleEnv) (s : MainC.State)
    (h : s.tasflags.recording = -1) : MainC.recordFrame c s = s := by
  simp [MainC.recordFrame, h]

theorem main_sendFrame_tasflags (D : MainC.Decls) (s : MainC.State) (keyboard : List KeySym) :
    (MainC.sendFrame D s keyboard).tasflags = s.tasflags := by
  simp only [MainC.sendFrame, MainC.State.emit]
  split_ifs <;> rfl

theorem main_finishFrame_disabled (D : MainC.Decls) (c : MainC.CycleEnv) (s : MainC.State)
    (h : s.tasflags.recording = -1) :
    (MainC.finishFrame D c s).tasflags.recording = -1 := by
  rw [MainC.finishFrame, main_sendFrame_tasflags, main_recordFrame_disabled c s h, h]

theorem main_cycle_disabled (D : MainC.Decls) (c : MainC.CycleEnv) (s : MainC.State)
    (h : s.tasflags.recording = -1) :
    (MainC.cycle D c s).state.tasflags.recording = -1 := by
  have h1 := main_receiveBoundary_disabled D s h
  unfold MainC.cycle
  cases hb : MainC.receiveBoundary D s with
  | next s1 =>
    rw [hb] at h1
    have h2 := (main_pollLoop_keeps D c.polls s1).1 h1
    simp only []
    cases hp : MainC.pollLoop D c.polls s1 with
    | next s2 =>
      rw [hp] at h2
      exact main_finishFrame_disabled D c s2 h2
    | brk s2 => rw [hp] at h2; exact h2
    | exit code s2 => rw [hp] at h2; exact h2
    | blocked s2 => rw [hp] at h2; exact h2
  | brk s1 => rw [hb] at h1; exact h1
  | exit code s1 => rw [hb] at h1; exact h1
  | blocked s1 => rw [hb] at h1; exact h1

theorem main_loop_disabled (D : MainC.Decls) (cycles : List MainC.CycleEnv) (s : MainC.State)
    (h : s.tasflags.recording = -1) :
    (MainC.loop D cycles s).state.tasflags.recording = -1 := by
  induction cycles generalizing s with
  | nil =>
    have h1 := main_receiveBoundary_disabled D s h
    unfold MainC.loop
    cases hb : MainC.receiveBoundary D s <;> rw [hb] at h1 <;> exact h1
  | cons c cs ih =>
    have h1 := main_cycle_disabled D c s h
    rw [MainC.loop]
    cases hc : MainC.cycle D c s with
    | next s1 => rw [hc] at h1; exact ih s1 h1
    | brk s1 => rw [hc] at h1; exact h1
    | exit code s1 => rw [hc] at h1; exact h1
    | blocked s1 => rw [hc] at h1; exact h1

/-- C17: a failing `readFrame` in playback mode (`tasflags.recording == 0`) or a
failing `writeFrame` while recording (`tasflags.recording == 1`) sets the recording
mode to -1.  The cycle in which that happens is completed: the loop goes on with the
next cycle, and the sends of the frame end with `MSGN_KEYBOARD_INPUT`, the keyboard
and `MSGN_END_FRAMEBOUNDARY`.  From a state with recording mode -1 no key press, key
release, boundary cycle or sequence of boundary cycles leads to a state with another
recording mode. -/
theorem main_recording_failure_disables (D : MainC.Decls) (c : MainC.CycleEnv)
    (s0 s1 s2 : MainC.State)
    (hb : MainC.receiveBoundary D s0 = MainC.Flow.next s1)
    (hp : MainC.pollLoop D c.polls s1 = MainC.Flow.next s2)
    (hfail : (s2.tasflags.recording = 0 ∧ c.readFrame = none) ∨
      (s2.tasflags.recording = 1 ∧ c.writeOk = false)) :
    MainC.cycle D c s0 = MainC.Flow.next (MainC.finishFrame D c s2) ∧
    (∀ cs, MainC.loop D (c :: cs) s0 = MainC.loop D cs (MainC.finishFrame D c s2)) ∧
    (MainC.finishFrame D c s2).tasflags.recording = -1 ∧
    (MainC.finishFrame D c s2).trace =
      s2.trace ++
        (if s2.tasflags.recording = 0 then [MainC.Effect.readFrame s2.frame_counter]
         else [MainC.Effect.writeFrame s2.frame_counter c.keyboard]) ++
        (if s2.tasflagsmod ≠ 0 then
          [MainC.Effect.sendMessage D.MSGN_TASFLAGS,
           MainC.Effect.sendTasFlags { s2.tasflags with recording := -1 }]
         else []) ++
        [MainC.Effect.sendMessage D.MSGN_KEYBOARD_INPUT,
         MainC.Effect.sendKeyboard (MainC.frameKeyboard c s2),
         MainC.Effect.sendMessage D.MSGN_END_FRAMEBOUNDARY] ∧
    (∀ t : MainC.State, t.tasflags.recording = -1 →
      (∀ ks, (MainC.keyPress D t ks).tasflags.recording = -1) ∧
      (∀ ks, (MainC.keyRelease D t ks).tasflags.recording = -1) ∧
      (∀ c1, (MainC.cycle D c1 t).state.tasflags.recording = -1) ∧
      (∀ cs, (MainC.loop D cs t).state.tasflags.recording = -1)) ∧
    (∀ cs, (MainC.loop D cs (MainC.finishFrame D c s2)).state.tasflags.recording = -1) := by
  have hc : MainC.cycle D c s0 = MainC.Flow.next (MainC.finishFrame D c s2) := by
    simp only [MainC.cycle, hb, hp]
  have hrec : (MainC.finishFrame D c s2).tasflags.recording = -1 := by
    rw [MainC.finishFrame, main_sendFrame_tasflags]
    rcases hfail with ⟨h0, hr⟩ | ⟨h1, hw⟩
    · simp [MainC.recordFrame, MainC.State.emit, h0, hr]
    · simp [MainC.recordFrame, MainC.State.emit, h1, hw]
  refine ⟨hc, fun cs => ?_, hrec, ?_, fun t ht => ⟨fun ks => ?_, fun ks => ?_,
    fun c1 => main_cycle_disabled D c1 t ht, fun cs => main_loop_disabled D cs t ht⟩,
    fun cs => main_loop_disabled D cs _ hrec⟩
  · rw [MainC.loop, hc]
  · rcases hfail with ⟨h0, hr⟩ | ⟨h1, hw⟩
    · simp only [MainC.finishFrame, MainC.sendFrame, MainC.recordFrame, MainC.State.emit, h0, hr]
      split_ifs <;> simp_all
    · simp only [MainC.finishFrame, MainC.sendFrame, MainC.recordFrame, MainC.State.emit, h1, hw]
      split_ifs <;> simp_all
  · rw [(main_keyPress_keeps D t ks).1, if_neg (by rw [ht]; omega), ht]
  · rw [(main_keyRelease_keeps D t ks).1, ht]

/-- C17 at a concrete input: in playback mode `readFrame` fails in a cycle without
events; the cycle is completed and the recording mode is -1 afterwards. -/
theorem main_recording_failure_disables_witness :
    MainC.cycle sampleDecls sampleFailedRead samplePlayback =
      MainC.Flow.next (MainC.finishFrame sampleDecls sampleFailedRead
        { samplePlayback with messages := [], datas := [], frame_counter := 7 }) ∧
    (MainC.finishFrame sampleDecls sampleFailedRead
      { samplePlayback with messages := [], datas := [], frame_counter := 7 }).tasflags.recording
        = -1 :=
  ⟨(main_recording_failure_disables sampleDecls sampleFailedRead samplePlayback
      { samplePlayback with messages := [], datas := [], frame_counter := 7 }
      { samplePlayback with messages := [], datas := [], frame_counter := 7 }
      rfl rfl (Or.inl ⟨rfl, rfl⟩)).1,
   (main_recording_failure_disables sampleDecls sampleFailedRead samplePlayback
      { samplePlayback with messages := [], datas := [], frame_counter := 7 }
      { samplePlayback with messages := [], datas := [], frame_counter := 7 }
      rfl rfl (Or.inl ⟨rfl, rfl⟩)).2.2.1⟩

theorem main_parseOptions_getopt (opts : List (Char × String)) (s : MainC.State)
    (h : ∀ o ∈ opts, o.1 = 'r' ∨ o.1 = 'w' ∨ o.1 = 'd' ∨ o.1 = '?') :
    ∃ s1, MainC.parseOptions opts s = MainC.Flow.next s1 := by
  induction opts generalizing s with
  | nil => exact ⟨s, rfl⟩
  | cons o opts ih =>
    obtain ⟨c, optarg⟩ := o
    have hc := h (c, optarg) (List.mem_cons_self _ _)
    have ih1 := fun s1 => ih s1 (fun o ho => h o (List.mem_cons_of_mem _ ho))
    rw [MainC.parseOptions]
    split_ifs with h1 h2 h3 h4
    · exact ih1 _
    · exact ih1 _
    · exact ih1 _
    · exact ih1 _
    · simp only at hc
      rcases hc with hc | hc | hc | hc <;> contradiction

theorem main_parseOptions_exitCode (opts : List (Char × String)) (s : MainC.State) :
    (MainC.parseOptions opts s).exitCode ≠ some 0 := by
  induction opts generalizing s with
  | nil => simp [MainC.parseOptions, MainC.Flow.exitCode]
  | cons o opts ih =>
    obtain ⟨c, optarg⟩ := o
    rw [MainC.parseOptions]
    split_ifs
    · exact ih _
    · exact ih _
    · exact ih _
    · exact ih _
    · simp [MainC.Flow.exitCode]

theorem main_initLoop_exitCode (D : MainC.Decls) (fuel : Nat) (s : MainC.State) :
    (MainC.initLoop D fuel s).exitCode ≠ some 0 := by
  induction fuel generalizing s with
  | zero =>
    rw [MainC.initLoop]
    split_ifs <;> simp [MainC.Flow.exitCode]
  | succ fuel ih =>
    rw [MainC.initLoop]
    split_ifs
    · cases hd : s.datas with
      | nil => simp [MainC.Flow.exitCode]
      | cons d ds =>
        simp only []
        cases hr : MainC.recvMessage { s with datas := ds, game_pid := d.getD s.game_pid } with
        | none => simp [MainC.Flow.exitCode]
        | some s1 => exact ih s1
    · simp [MainC.Flow.exitCode]
    · simp [MainC.Flow.exitCode]

/-- The head of a boundary cycle leaves the loop by `break` only on `MSGB_QUIT`, and
never ends the process with exit code 0. -/
theorem main_receiveBoundary_brk (D : MainC.Decls) (s : MainC.State) :
    (∀ s1, MainC.receiveBoundary D s = MainC.Flow.brk s1 → s1.message = D.MSGB_QUIT) ∧
    (MainC.receiveBoundary D s).exitCode ≠ some 0 := by
  unfold MainC.receiveBoundary
  cases hr : MainC.recvMessage s with
  | none => simp [MainC.Flow.exitCode]
  | some s1 =>
    simp only []
    split_ifs with h1 h2
    · refine ⟨fun s2 h => ?_, by simp [MainC.Flow.exitCode]⟩
      cases h
      exact h1
    · simp [MainC.Flow.exitCode]
    · cases hd : s1.datas <;> simp [MainC.Flow.exitCode]

theorem main_pollLoop_flow (D : MainC.Decls) (polls : List (List XEvent)) (s : MainC.State) :
    (∃ s1, MainC.pollLoop D polls s = MainC.Flow.next s1) ∨
    (∃ s1, MainC.pollLoop D polls s = MainC.Flow.blocked s1) := by
  induction polls generalizing s with
  | nil => exact Or.inr ⟨s, rfl⟩
  | cons events polls ih =>
    rw [MainC.pollLoop]
    split_ifs
    · exact ih _
    · exact Or.inl ⟨_, rfl⟩

theorem main_cycle_brk (D : MainC.Decls) (c : MainC.CycleEnv) (s : MainC.State) :
    (∀ s1, MainC.cycle D c s = MainC.Flow.brk s1 → s1.message = D.MSGB_QUIT) ∧
    (MainC.cycle D c s).exitCode ≠ some 0 := by
  have h1 := main_receiveBoundary_brk D s
  unfold MainC.cycle
  cases hb : MainC.receiveBoundary D s with
  | next s1 =>
    simp only []
    rcases main_pollLoop_flow D c.polls s1 with ⟨s2, hp⟩ | ⟨s2, hp⟩ <;> rw [hp] <;>
      simp [MainC.Flow.exitCode]
  | brk s1 => rw [hb] at h1; exact h1
  | exit code s1 => rw [hb] at h1; exact ⟨fun s2 h => (by cases h), h1.2⟩
  | blocked s1 => simp [MainC.Flow.exitCode]

theorem main_loop_brk (D : MainC.Decls) (cycles : List MainC.CycleEnv) (s : MainC.State) :
    (∀ s1, MainC.loop D cycles s = MainC.Flow.brk s1 → s1.message = D.MSGB_QUIT) ∧
    (MainC.loop D cycles s).exitCode ≠ some 0 := by
  induction cycles generalizing s with
  | nil =>
    have h1 := main_receiveBoundary_brk D s
    unfold MainC.loop
    cases hb : MainC.receiveBoundary D s with
    | next s1 => simp [MainC.Flow.exitCode]
    | brk s1 => rw [hb] at h1; exact h1
    | exit code s1 => rw [hb] at h1; exact ⟨fun s2 h => (by cases h), h1.2⟩
    | blocked s1 => simp [MainC.Flow.exitCode]
  | cons c cs ih =>
    have h1 := main_cycle_brk D c s
    rw [MainC.loop]
    cases hc : MainC.cycle D c s with
    | next s1 => exact ih s1
    | brk s1 => rw [hc] at h1; exact h1
    | exit code s1 => rw [hc] at h1; exact ⟨fun s2 h => (by cases h), h1.2⟩
    | blocked s1 => simp [MainC.Flow.exitCode]

theorem main_afterLoop_exit (s : MainC.State) :
    ∃ s1, MainC.afterLoop s = MainC.Flow.exit 0 s1 := ⟨_, rfl⟩

/-- C18, as stated, fails: `getopt` answers an unknown option, and an option whose
argument is missing, with `'?'`; with this answer, a display, a connection and a game
that sends `MSGB_END_INIT` and `MSGB_QUIT`, `main` ends with exit code 0, not 1. -/
theorem main_unknown_option_counterexample :
    MainC.parseOptions [('?', "")] sampleMain = MainC.Flow.next sampleMain ∧
    (MainC.main sampleDecls [('?', "")] true true [] sampleMain).exitCode = some 0 ∧
    (MainC.main sampleDecls [('?', "")] true true [] sampleMain).exitCode ≠ some 1 := by
  refine ⟨rfl, rfl, ?_⟩
  decide

/-- C18, amended: an answer `'?'` of `getopt` (an unknown option or a missing
argument) is skipped, and the option loop never ends `main` on the answers `getopt`
can give for the option string `"r:w:d:"`.  `main` ends with exit code 1 when the
display cannot be opened or the connection to the socket fails.  When the loop ends
by `break`, the last message was `MSGB_QUIT` and `main` ends with exit code 0; `main`
ends with exit code 0 in no other way. -/
theorem main_exit_codes (D : MainC.Decls) (opts : List (Char × String))
    (cycles : List MainC.CycleEnv) (s : MainC.State) :
    (∀ (a : String) (display connect : Bool),
      MainC.main D (('?', a) :: opts) display connect cycles s =
        MainC.main D opts display connect cycles s) ∧
    ((∀ o ∈ opts, o.1 = 'r' ∨ o.1 = 'w' ∨ o.1 = 'd' ∨ o.1 = '?') →
      ∃ s1, MainC.parseOptions opts s = MainC.Flow.next s1) ∧
    (∀ (s1 : MainC.State) (display connect : Bool),
      MainC.parseOptions opts s = MainC.Flow.next s1 → display = false ∨ connect = false →
      MainC.main D opts display connect cycles s = MainC.Flow.exit 1 s1) ∧
    (∀ s1 s2 s3 s4 : MainC.State, MainC.parseOptions opts s = MainC.Flow.next s1 →
      MainC.recvMessage s1 = some s2 →
      MainC.initLoop D s2.messages.length s2 = MainC.Flow.next s3 →
      MainC.loop D cycles (MainC.sendInit D s3) = MainC.Flow.brk s4 →
      s4.message = D.MSGB_QUIT ∧
      MainC.main D opts true true cycles s = MainC.afterLoop s4 ∧
      (MainC.main D opts true true cycles s).exitCode = some 0) ∧
    (∀ display connect : Bool,
      (MainC.main D opts display connect cycles s).exitCode = some 0 →
      ∃ s1 s2 s3 s4 : MainC.State, MainC.parseOptions opts s = MainC.Flow.next s1 ∧
        MainC.recvMessage s1 = some s2 ∧
        MainC.initLoop D s2.messages.length s2 = MainC.Flow.next s3 ∧
        MainC.loop D cycles (MainC.sendInit D s3) = MainC.Flow.brk s4 ∧
        s4.message = D.MSGB_QUIT) := by
  refine ⟨fun a display connect => ?_, main_parseOptions_getopt opts s,
    fun s1 display connect hp hf => ?_, fun s1 s2 s3 s4 hp hr hi hl => ?_,
    fun display connect h => ?_⟩
  · simp [MainC.main, MainC.parseOptions]
  · rcases hf with hf | hf
    · simp [MainC.main, hp, hf]
    · cases display <;> simp [MainC.main, hp, hf]
  · have hm : MainC.main D opts true true cycles s = MainC.afterLoop s4 := by
      simp [MainC.main, hp, hr, hi, hl]
    refine ⟨(main_loop_brk D cycles _).1 s4 hl, hm, ?_⟩
    rw [hm]
    rfl
  · have h0 := main_parseOptions_exitCode opts s
    unfold MainC.main at h
    cases hp : MainC.parseOptions opts s with
    | next s1 =>
      rw [hp] at h
      simp only [] at h
      cases display with
      | false => simp [MainC.Flow.exitCode] at h
      | true =>
        cases connect with
        | false => simp [MainC.Flow.exitCode] at h
        | true =>
          simp only [Bool.not_true, Bool.false_eq_true, if_false] at h
          cases hr : MainC.recvMessage s1 with
          | none => rw [hr] at h; simp [MainC.Flow.exitCode] at h
          | some s2 =>
            rw [hr] at h
            simp only [] at h
            have hi0 := main_initLoop_exitCode D s2.messages.length s2
            cases hi : MainC.initLoop D s2.messages.length s2 with
            | next s3 =>
              rw [hi] at h
              simp only [] at h
              have hl0 := main_loop_brk D cycles (MainC.sendInit D s3)
              cases hl : MainC.loop D cycles (MainC.sendInit D s3) with
              | brk s4 => exact ⟨s1, s2, s3, s4, rfl, hr, hi, hl, hl0.1 s4 hl⟩
              | next s4 => rw [hl] at h; simp [MainC.Flow.exitCode] at h
              | exit code s4 => rw [hl] at h hl0; exact absurd h hl0.2
              | blocked s4 => rw [hl] at h; simp [MainC.Flow.exitCode] at h
            | brk s3 => rw [hi] at h; simp [MainC.Flow.exitCode] at h
            | exit code s3 => rw [hi] at h hi0; exact absurd h hi0
            | blocked s3 => rw [hi] at h; simp [MainC.Flow.exitCode] at h
    | brk s1 => rw [hp] at h; simp [MainC.Flow.exitCode] at h
    | exit code s1 => rw [hp] at h h0; exact absurd h h0
    | blocked s1 => rw [hp] at h; simp [MainC.Flow.exitCode] at h

/-- C18, amended, at a concrete input: no option, a display, a connection, and a game
that sends `MSGB_END_INIT` and `MSGB_QUIT`. -/
theorem main_exit_codes_witness :
    ({ MainC.sendInit sampleDecls { sampleMain with message := 2, messages := [some 3] } with
        message := 3, messages := [] } : MainC.State).message = sampleDecls.MSGB_QUIT ∧
    MainC.main sampleDecls [] true true [] sampleMain =
      MainC.afterLoop
        { MainC.sendInit sampleDecls { sampleMain with message := 2, messages := [some 3] } with
          message := 3, messages := [] } ∧
    (MainC.main sampleDecls [] true true [] sampleMain).exitCode = some 0 :=
  (main_exit_codes sampleDecls [] [] sampleMain).2.2.2.1 sampleMain
    { sampleMain with message := 2, messages := [some 3] }
    { sampleMain with message := 2, messages := [some 3] }
    { MainC.sendInit sampleDecls { sampleMain with message := 2, messages := [some 3] } with
      message := 3, messages := [] }
    rfl rfl rfl rfl

/-- C16, as stated, fails for `launchGame`: after `MSGB_START_FRAMEBOUNDARY` (0) the
wait for the frame boundary is over; the value 42 that follows on the socket is not
read, and the frame counter of the context is still 5. -/
theorem launchGame_boundary_counter_counterexample :
    waitFrameBoundary specExtern
        { sampleState with messages := [specExtern.MSGB_START_FRAMEBOUNDARY] } =
      Flow.next { sampleState with messages := [] } ∧
    ({ sampleState with messages := [] } : GameState).datas = [42] ∧
    ({ sampleState with messages := [] } : GameState).context.framecount = 5 ∧
    ({ sampleState with messages := [] } : GameState).context.framecount ≠ 42 := by
  refine ⟨rfl, rfl, rfl, ?_⟩
  decide

/-- C16, amended.  In `main` (main.c) the head of a boundary cycle reads, after
`MSGB_START_FRAMEBOUNDARY`, the value that follows it into `frame_counter`; the poll
loop (the hotkeys) and the end of the frame (the inputs) run on the state so obtained,
and the poll loop leaves `frame_counter` as it is.  In `launchGame` (game.cpp) nothing
is read after `MSGB_START_FRAMEBOUNDARY`: the body of the cycle runs in the state in
which the message arrived.  There the frame counter is the value that follows a
`MSGB_FRAMECOUNT` message received while waiting for the boundary; it is stored in
`context->framecount` before the body of the cycle runs. -/
theorem boundary_frame_counter (E : Extern) (D : MainC.Decls) :
    (∀ (s : MainC.State) (rest : List (Option Int)) (d : Nat) (ds : List (Option Nat)),
      s.messages = some D.MSGB_START_FRAMEBOUNDARY :: rest →
      D.MSGB_START_FRAMEBOUNDARY ≠ D.MSGB_QUIT → s.datas = some d :: ds →
      MainC.receiveBoundary D s =
        MainC.Flow.next { s with
          message := D.MSGB_START_FRAMEBOUNDARY, messages := rest, datas := ds
          frame_counter := d, isidle := MainC.lnot s.tasflags.running, tasflagsmod := 0 } ∧
      (∀ c : MainC.CycleEnv, MainC.cycle D c s =
        match MainC.pollLoop D c.polls { s with
          message := D.MSGB_START_FRAMEBOUNDARY, messages := rest, datas := ds
          frame_counter := d, isidle := MainC.lnot s.tasflags.running, tasflagsmod := 0 } with
        | MainC.Flow.next s2 => MainC.Flow.next (MainC.finishFrame D c s2)
        | f => f) ∧
      (∀ polls : List (List XEvent), (MainC.pollLoop D polls { s with
          message := D.MSGB_START_FRAMEBOUNDARY, messages := rest, datas := ds
          frame_counter := d, isidle := MainC.lnot s.tasflags.running, tasflagsmod := 0
          }).state.frame_counter = d)) ∧
    (∀ (s : GameState) (rest : List Int),
      s.messages = E.MSGB_START_FRAMEBOUNDARY :: rest →
      E.MSGB_START_FRAMEBOUNDARY ≠ -1 → E.MSGB_START_FRAMEBOUNDARY ≠ E.MSGB_QUIT →
      waitFrameBoundary E s =
        Flow.next { s with message := E.MSGB_START_FRAMEBOUNDARY, messages := rest } ∧
      (∀ c : CycleEnv, boundaryCycle E c s =
        cycleBody E c { s with message := E.MSGB_START_FRAMEBOUNDARY, messages := rest })) ∧
    (∀ (s : GameState) (rest : List Int) (d : Nat) (ds : List Nat),
      s.messages = E.MSGB_FRAMECOUNT :: E.MSGB_START_FRAMEBOUNDARY :: rest →
      s.datas = d :: ds →
      0 ≤ E.MSGB_FRAMECOUNT → E.MSGB_FRAMECOUNT ≠ E.MSGB_QUIT →
      E.MSGB_FRAMECOUNT ≠ E.MSGB_START_FRAMEBOUNDARY →
      E.MSGB_FRAMECOUNT ≠ E.MSGB_WINDOW_ID → E.MSGB_FRAMECOUNT ≠ E.MSGB_ERROR_MSG →
      E.MSGB_FRAMECOUNT ≠ E.MSGB_ENCODE_FAILED →
      E.MSGB_START_FRAMEBOUNDARY ≠ -1 → E.MSGB_START_FRAMEBOUNDARY ≠ E.MSGB_QUIT →
      waitFrameBoundary E s =
        Flow.next { s with
          message := E.MSGB_START_FRAMEBOUNDARY, messages := rest, datas := ds
          context := { s.context with framecount := d } } ∧
      (∀ c : CycleEnv, boundaryCycle E c s =
        cycleBody E c { s with
          message := E.MSGB_START_FRAMEBOUNDARY, messages := rest, datas := ds
          context := { s.context with framecount := d } })) := by
  refine ⟨fun s rest d ds hm hq hd => ?_, fun s rest hm h1 hq => ?_,
    fun s rest d ds hm hd h0 hfq hfs hfw hfe hfn h1 hq => ?_⟩
  · have hb : MainC.receiveBoundary D s =
        MainC.Flow.next { s with
          message := D.MSGB_START_FRAMEBOUNDARY, messages := rest, datas := ds
          frame_counter := d, isidle := MainC.lnot s.tasflags.running, tasflagsmod := 0 } := by
      simp [MainC.receiveBoundary, MainC.recvMessage, hm, hq, hd]
    refine ⟨hb, fun c => ?_, fun polls => ?_⟩
    · rw [MainC.cycle, hb]
    · rw [(main_pollLoop_keeps D polls _).2]
  · have hw : waitFrameBoundary E s =
        Flow.next { s with message := E.MSGB_START_FRAMEBOUNDARY, messages := rest } := by
      cases rest <;> simp [waitFrameBoundary, waitLoop, hm, h1, hq]
    refine ⟨hw, fun c => ?_⟩
    rw [boundaryCycle, hw]
  · have hw : waitFrameBoundary E s =
        Flow.next { s with
          message := E.MSGB_START_FRAMEBOUNDARY, messages := rest, datas := ds
          context := { s.context with framecount := d } } := by
      cases rest <;>
        simp [waitFrameBoundary, waitLoop, handleBoundaryMessage, hm, hd, h0, hfq, hfs, hfw,
          hfe, hfn, h1, hq]
    refine ⟨hw, fun c => ?_⟩
    rw [boundaryCycle, hw]

/-- C16, amended, at a concrete input: `main` in playback mode receives
`MSGB_START_FRAMEBOUNDARY` and the frame counter 7. -/
theorem boundary_frame_counter_witness :
    MainC.receiveBoundary sampleDecls samplePlayback =
      MainC.Flow.next { samplePlayback with
        message := sampleDecls.MSGB_START_FRAMEBOUNDARY, messages := [], datas := []
        frame_counter := 7, isidle := MainC.lnot samplePlayback.tasflags.running
        tasflagsmod := 0 } :=
  ((boundary_frame_counter specExtern sampleDecls).1 samplePlayback [] 7 [] rfl (by decide)
    rfl).1

/-! ## Properties: game.cpp, fast-forward and read/write hotkeys -/

theorem fastForwardKey_facts (E : Extern) (hE : E.HotkeysDistinct) :
    E.HOTKEY_FASTFORWARD ≠ E.HOTKEY_FRAMEADVANCE ∧ E.HOTKEY_FASTFORWARD ≠ E.HOTKEY_PLAYPAUSE ∧
    E.HOTKEY_FASTFORWARD ≠ E.HOTKEY_SAVEPSEUDOSTATE ∧
    E.HOTKEY_FASTFORWARD ≠ E.HOTKEY_LOADPSEUDOSTATE ∧
    E.HOTKEY_FASTFORWARD ≠ E.HOTKEY_READWRITE ∧ E.HOTKEY_FASTFORWARD ≠ E.HOTKEY_TOGGLE_ENCODE ∧
    ¬ (E.HOTKEY_SAVESTATE1 ≤ E.HOTKEY_FASTFORWARD ∧ E.HOTKEY_FASTFORWARD ≤ E.HOTKEY_SAVESTATE9) ∧
    ¬ (E.HOTKEY_LOADSTATE1 ≤ E.HOTKEY_FASTFORWARD ∧ E.HOTKEY_FASTFORWARD ≤ E.HOTKEY_LOADSTATE9) := by
  obtain ⟨hn, hs, _⟩ := hE
  have hr := hs E.HOTKEY_FASTFORWARD (by simp [Extern.singleHotkeys])
  simp only [Extern.singleHotkeys, List.nodup_cons, List.mem_cons, List.mem_singleton,
    not_or, List.not_mem_nil, not_false_eq_true, List.nodup_nil, and_true] at hn
  exact ⟨fun h => hn.1.2.1 h.symm, fun h => hn.2.1.1 h.symm, hn.2.2.1.1, hn.2.2.1.2.1,
    hn.2.2.1.2.2.1, hn.2.2.1.2.2.2, hr.1, hr.2⟩

theorem keyPress_fastForward (E : Extern) (hE : E.HotkeysDistinct) (s : GameState) :
    keyPress E s E.HOTKEY_FASTFORWARD = Flow.next (hotkeyFastForward s) := by
  obtain ⟨h1, h2, h3, h4, h5, h6, h7, h8⟩ := fastForwardKey_facts E hE
  unfold keyPress
  simp only [h1, h2, h3, h4, h5, h6, h7, h8, if_false, if_true]

theorem readWriteKey_facts (E : Extern) (hE : E.HotkeysDistinct) :
    E.HOTKEY_READWRITE ≠ E.HOTKEY_FRAMEADVANCE ∧ E.HOTKEY_READWRITE ≠ E.HOTKEY_PLAYPAUSE ∧
    E.HOTKEY_READWRITE ≠ E.HOTKEY_FASTFORWARD ∧ E.HOTKEY_READWRITE ≠ E.HOTKEY_SAVEPSEUDOSTATE ∧
    E.HOTKEY_READWRITE ≠ E.HOTKEY_LOADPSEUDOSTATE ∧ E.HOTKEY_READWRITE ≠ E.HOTKEY_TOGGLE_ENCODE ∧
    ¬ (E.HOTKEY_SAVESTATE1 ≤ E.HOTKEY_READWRITE ∧ E.HOTKEY_READWRITE ≤ E.HOTKEY_SAVESTATE9) ∧
    ¬ (E.HOTKEY_LOADSTATE1 ≤ E.HOTKEY_READWRITE ∧ E.HOTKEY_READWRITE ≤ E.HOTKEY_LOADSTATE9) := by
  obtain ⟨hn, hs, _⟩ := hE
  have hr := hs E.HOTKEY_READWRITE (by simp [Extern.singleHotkeys])
  simp only [Extern.singleHotkeys, List.nodup_cons, List.mem_cons, List.mem_singleton,
    not_or, List.not_mem_nil, not_false_eq_true, List.nodup_nil, and_true] at hn
  exact ⟨fun h => hn.1.2.2.2.2.1 h.symm, fun h => hn.2.1.2.2.2.1 h.symm,
    fun h => hn.2.2.1.2.2.1 h.symm, fun h => hn.2.2.2.1.2.1 h.symm,
    fun h => hn.2.2.2.2.1.1 h.symm, hn.2.2.2.2.2, hr.1, hr.2⟩

theorem keyPress_readWrite (E : Extern) (hE : E.HotkeysDistinct) (s : GameState) :
    keyPress E s E.HOTKEY_READWRITE = Flow.next (hotkeyReadWrite s) := by
  obtain ⟨h1, h2, h3, h4, h5, h6, h7, h8⟩ := readWriteKey_facts E hE
  unfold keyPress
  simp only [h1, h2, h3, h4, h5, h6, h7, h8, if_false, if_true]

/-- C21, as stated, fails: with fast-forward on, pressing the fast-forward hotkey
leaves fast-forward on. -/
theorem fastForward_press_counterexample :
    (sampleState.setSc
      { sampleState.context.config.sc with fastforward := true }).context.config.sc.fastforward
        = true ∧
    (keyPress specExtern
      (sampleState.setSc { sampleState.context.config.sc with fastforward := true })
      specExtern.HOTKEY_FASTFORWARD).state.context.config.sc.fastforward = true := by
  exact ⟨rfl, rfl⟩

/-- C21, amended: pressing the fast-forward hotkey sets the fast-forward flag of the
shared config to true, whatever it was, and sets `sc_modified`; the flag stays set
up to the end of the boundary, which therefore sends `MSGN_CONFIG`.  The flag is set
to false again, with `sc_modified`, when the hotkey is released. -/
theorem fastForward_press_sets (E : Extern) (hE : E.HotkeysDistinct) (s : GameState) :
    keyPress E s E.HOTKEY_FASTFORWARD = Flow.next (hotkeyFastForward s) ∧
    hotkeyFastForward s =
      (s.setSc { s.context.config.sc with fastforward := true }).setScModified ∧
    (hotkeyFastForward s).context.config.sc.fastforward = true ∧
    (hotkeyFastForward s).context.config.sc_modified = true ∧
    (∀ mid x, Reaches E (hotkeyFastForward s) mid →
      ∃ rest, sent (finishBoundary E mid x).trace =
        sent mid.trace ++ Effect.sendMessage MsgN.MSGN_CONFIG ::
          Effect.sendConfig mid.context.config.sc :: rest) ∧
    (∀ event, retriggered s event = false →
      keyRelease E s event E.HOTKEY_FASTFORWARD =
        (s.setSc { s.context.config.sc with fastforward := false }).setScModified ∧
      (keyRelease E s event E.HOTKEY_FASTFORWARD).context.config.sc.fastforward = false ∧
      (keyRelease E s event E.HOTKEY_FASTFORWARD).context.config.sc_modified = true) := by
  obtain ⟨h1, -, -, -, -, -, -, -⟩ := fastForwardKey_facts E hE
  refine ⟨keyPress_fastForward E hE s, rfl, rfl, rfl, fun mid x hreach => ?_,
    fun event hr => ?_⟩
  · exact finishBoundary_sends_config E mid x (hreach _ (scModified_inv E) rfl)
  · have hk : keyRelease E s event E.HOTKEY_FASTFORWARD =
        (s.setSc { s.context.config.sc with fastforward := false }).setScModified := by
      unfold keyRelease
      unfold retriggered at hr
      cases hq : s.xqueue with
      | nil => simp [h1]
      | cons nev q =>
        rw [hq] at hr
        simp only [decide_eq_false_iff_not] at hr
        simp [hr, h1]
    rw [hk]
    exact ⟨rfl, rfl, rfl⟩

/-- C21, amended, at a concrete input. -/
theorem fastForward_press_sets_witness :
    keyPress specExtern sampleState specExtern.HOTKEY_FASTFORWARD =
      Flow.next (hotkeyFastForward sampleState) :=
  (fastForward_press_sets specExtern (by decide) sampleState).1

/-- C22: the read/write hotkey maps `RECORDING_WRITE` to `RECORDING_READ_WRITE` and
`RECORDING_READ_WRITE` to `RECORDING_WRITE`, leaves `NO_RECORDING` and
`RECORDING_READ_ONLY` as they are, changes nothing but the recording mode, and
pressing it twice restores the state. -/
theorem readWrite_hotkey_involution (E : Extern) (hE : E.HotkeysDistinct) (s : GameState) :
    keyPress E s E.HOTKEY_READWRITE = Flow.next (hotkeyReadWrite s) ∧
    (s.context.recording = RecStatus.RECORDING_WRITE →
      (hotkeyReadWrite s).context.recording = RecStatus.RECORDING_READ_WRITE) ∧
    (s.context.recording = RecStatus.RECORDING_READ_WRITE →
      (hotkeyReadWrite s).context.recording = RecStatus.RECORDING_WRITE) ∧
    (s.context.recording = RecStatus.NO_RECORDING →
      (hotkeyReadWrite s).context.recording = RecStatus.NO_RECORDING) ∧
    (s.context.recording = RecStatus.RECORDING_READ_ONLY →
      (hotkeyReadWrite s).context.recording = RecStatus.RECORDING_READ_ONLY) ∧
    hotkeyReadWrite s = s.setRecording (hotkeyReadWrite s).context.recording ∧
    hotkeyReadWrite (hotkeyReadWrite s) = s ∧
    keyPress E (keyPress E s E.HOTKEY_READWRITE).state E.HOTKEY_READWRITE = Flow.next s := by
  have hinv : hotkeyReadWrite (hotkeyReadWrite s) = s := by
    unfold hotkeyReadWrite
    cases hr : s.context.recording <;> simp [GameState.setRecording, hr] <;>
      (obtain ⟨c, _⟩ := s; obtain ⟨_⟩ := c; simp_all)
  refine ⟨keyPress_readWrite E hE s, fun h => ?_, fun h => ?_, fun h => ?_, fun h => ?_, ?_,
    hinv, ?_⟩
  · simp [hotkeyReadWrite, h, GameState.setRecording]
  · simp [hotkeyReadWrite, h, GameState.setRecording]
  · simp [hotkeyReadWrite, h]
  · simp [hotkeyReadWrite, h]
  · unfold hotkeyReadWrite
    cases hr : s.context.recording <;> simp [GameState.setRecording, hr] <;>
      (obtain ⟨c, _⟩ := s; obtain ⟨_⟩ := c; simp_all)
  · rw [keyPress_readWrite E hE s, Flow.state, keyPress_readWrite E hE, hinv]

/-- C22 at a concrete input: write mode becomes read/write mode. -/
theorem readWrite_hotkey_involution_witness :
    (hotkeyReadWrite sampleState).context.recording = RecStatus.RECORDING_READ_WRITE :=
  (readWrite_hotkey_involution specExtern (by decide) sampleState).2.1 rfl

/-! ## Properties: main.c, the read/write hotkey -/

/-- The blocks of a key press before the read/write block never call
`truncateRecording`. -/
theorem main_press_truncations (D : MainC.Decls) (ks : KeySym) (s : MainC.State) :
    (MainC.pressFrameAdvance D ks s).trace = s.trace ∧
    (MainC.pressPlayPause D ks s).trace = s.trace ∧
    (MainC.pressFastForward D ks s).trace = s.trace ∧
    (MainC.pressSaveState D ks s).trace.count MainC.Effect.truncateRecording =
      s.trace.count MainC.Effect.truncateRecording ∧
    (MainC.pressLoadState D ks s).trace.count MainC.Effect.truncateRecording =
      s.trace.count MainC.Effect.truncateRecording := by
  refine ⟨?_, ?_, ?_, ?_, ?_⟩
  · unfold MainC.pressFrameAdvance
    split_ifs <;> rfl
  · unfold MainC.pressPlayPause
    split_ifs <;> rfl
  · unfold MainC.pressFastForward
    split_ifs <;> rfl
  · unfold MainC.pressSaveState MainC.State.emit
    split_ifs <;> simp
  · unfold MainC.pressLoadState MainC.State.emit
    split_ifs <;> simp

/-- What the read/write block does: a non-negative mode is negated, the recording is
truncated when the mode is 1 afterwards. -/
theorem main_pressReadWrite_eq (D : MainC.Decls) (s : MainC.State) :
    (MainC.pressReadWrite D D.HOTKEY_READWRITE s).tasflags.recording =
      (if 0 ≤ s.tasflags.recording then MainC.lnot s.tasflags.recording
       else s.tasflags.recording) ∧
    (MainC.pressReadWrite D D.HOTKEY_READWRITE s).trace =
      s.trace ++
        (if (MainC.pressReadWrite D D.HOTKEY_READWRITE s).tasflags.recording = 1 then
          [MainC.Effect.truncateRecording] else []) := by
  simp only [MainC.pressReadWrite, MainC.State.emit, if_true]
  by_cases h0 : s.tasflags.recording ≥ 0
  · by_cases h1 : MainC.lnot s.tasflags.recording = 1
    · simp [h0, h1]
    · simp [h0, h1]
  · have h1 : ¬ s.tasflags.recording = 1 := by omega
    have h2 : ¬ 0 ≤ s.tasflags.recording := by omega
    simp [h0, h1, h2]

/-- C23: in main.c the read/write hotkey turns playback (0) into recording (1) and
recording into playback, and leaves the disabled mode (-1) as it is.  A press of the
hotkey calls `truncateRecording` once if the mode is 1 after the press and not at all
otherwise: once when switching from playback to recording, never when switching
from recording to playback or when the mode is -1.  Other keys never truncate. -/
theorem main_readWrite_truncates (D : MainC.Decls) (s : MainC.State) :
    (s.tasflags.recording = 0 →
      (MainC.keyPress D s D.HOTKEY_READWRITE).tasflags.recording = 1 ∧
      (MainC.keyPress D s D.HOTKEY_READWRITE).trace.count MainC.Effect.truncateRecording =
        s.trace.count MainC.Effect.truncateRecording + 1) ∧
    (s.tasflags.recording = 1 →
      (MainC.keyPress D s D.HOTKEY_READWRITE).tasflags.recording = 0 ∧
      (MainC.keyPress D s D.HOTKEY_READWRITE).trace.count MainC.Effect.truncateRecording =
        s.trace.count MainC.Effect.truncateRecording) ∧
    (s.tasflags.recording = -1 →
      (MainC.keyPress D s D.HOTKEY_READWRITE).tasflags.recording = -1 ∧
      (MainC.keyPress D s D.HOTKEY_READWRITE).trace.count MainC.Effect.truncateRecording =
        s.trace.count MainC.Effect.truncateRecording) ∧
    (MainC.keyPress D s D.HOTKEY_READWRITE).trace.count MainC.Effect.truncateRecording =
      s.trace.count MainC.Effect.truncateRecording +
        (if (MainC.keyPress D s D.HOTKEY_READWRITE).tasflags.recording = 1 then 1 else 0) ∧
    (∀ ks, ks ≠ D.HOTKEY_READWRITE →
      (MainC.keyPress D s ks).tasflags.recording = s.tasflags.recording ∧
      (MainC.keyPress D s ks).trace.count MainC.Effect.truncateRecording =
        s.trace.count MainC.Effect.truncateRecording) ∧
    (∀ (s0 : MainC.State), s0.tasflags.recording = 0 →
      (MainC.pressReadWrite D D.HOTKEY_READWRITE s0).trace =
        s0.trace ++ [MainC.Effect.truncateRecording]) := by
  have hrec := (main_keyPress_keeps D s D.HOTKEY_READWRITE).1
  have hcount : ∀ ks, (MainC.pressLoadState D ks (MainC.pressSaveState D ks
      (MainC.pressFastForward D ks (MainC.pressPlayPause D ks
        (MainC.pressFrameAdvance D ks s))))).trace.count MainC.Effect.truncateRecording =
      s.trace.count MainC.Effect.truncateRecording := by
    intro ks
    rw [(main_press_truncations D ks _).2.2.2.2, (main_press_truncations D ks _).2.2.2.1,
      (main_press_truncations D ks _).2.2.1, (main_press_truncations D ks _).2.1,
      (main_press_truncations D ks _).1]
  have htr : (MainC.keyPress D s D.HOTKEY_READWRITE).trace.count MainC.Effect.truncateRecording =
      s.trace.count MainC.Effect.truncateRecording +
        (if (MainC.keyPress D s D.HOTKEY_READWRITE).tasflags.recording = 1 then 1 else 0) := by
    rw [MainC.keyPress, (main_pressReadWrite_eq D _).2, List.count_append, hcount]
    split_ifs <;> simp
  simp only [true_and] at hrec
  refine ⟨fun h => ?_, fun h => ?_, fun h => ?_, htr, fun ks hks => ⟨?_, ?_⟩, fun s0 h0 => ?_⟩
  · have h1 : (MainC.keyPress D s D.HOTKEY_READWRITE).tasflags.recording = 1 := by
      rw [hrec, h]; rfl
    exact ⟨h1, by rw [htr, if_pos h1]⟩
  · have h1 : (MainC.keyPress D s D.HOTKEY_READWRITE).tasflags.recording = 0 := by
      rw [hrec, h]; rfl
    exact ⟨h1, by rw [htr, h1]; rfl⟩
  · have h1 : (MainC.keyPress D s D.HOTKEY_READWRITE).tasflags.recording = -1 := by
      rw [hrec, h]; rfl
    exact ⟨h1, by rw [htr, h1]; rfl⟩
  · rw [(main_keyPress_keeps D s ks).1, if_neg (fun hc => hks hc.1)]
  · rw [MainC.keyPress, ← hcount ks]
    simp [MainC.pressReadWrite, hks]
  · rw [(main_pressReadWrite_eq D s0).2, (main_pressReadWrite_eq D s0).1, h0]
    rfl

/-- C23 at a concrete input: in playback mode the hotkey switches to recording and
truncates once. -/
theorem main_readWrite_truncates_witness :
    (MainC.keyPress sampleDecls samplePlayback sampleDecls.HOTKEY_READWRITE).tasflags.recording
      = 1 ∧
    (MainC.keyPress sampleDecls samplePlayback
        sampleDecls.HOTKEY_READWRITE).trace.count MainC.Effect.truncateRecording =
      samplePlayback.trace.count MainC.Effect.truncateRecording + 1 :=
  (main_readWrite_truncates sampleDecls samplePlayback).1 rfl

/-! ## Properties: InputEditorModel.cpp, toggling keys and buttons -/

theorem getElem?_append_cons_length (pre tail : List KeySym) (x : KeySym) :
    (pre ++ x :: tail)[pre.length]? = some x := by
  rw [List.getElem?_append_right (le_refl _)]
  simp

theorem toggleKeyLoop_skip (value : KeySym) (a : List KeySym) :
    ∀ (pre tail : List KeySym) (fuel : Nat) (is_set : Bool) (index_set : Nat),
    (∀ x ∈ a, x ≠ XK_VoidSymbol ∧ value ≠ x) →
    toggleKeyLoop value (a.length + fuel) pre.length is_set index_set (pre ++ a ++ tail) =
      toggleKeyLoop value fuel (pre.length + a.length) is_set index_set (pre ++ a ++ tail) := by
  induction a with
  | nil => intro pre tail fuel is_set index_set _; simp
  | cons x a ih =>
    intro pre tail fuel is_set index_set ha
    have hx := ha x (List.mem_cons_self _ _)
    have ih1 := ih (pre ++ [x]) tail fuel is_set index_set
      (fun y hy => ha y (List.mem_cons_of_mem _ hy))
    have hlen : (x :: a).length + fuel = (a.length + fuel) + 1 := by simp; omega
    have hget : (pre ++ x :: a ++ tail)[pre.length]? = some x := by
      rw [List.append_assoc]
      exact getElem?_append_cons_length pre (a ++ tail) x
    rw [hlen, toggleKeyLoop, hget]
    simp only [hx.1, hx.2, if_false]
    simp only [List.append_assoc, List.singleton_append, List.length_append,
      List.length_singleton, List.cons_append, List.nil_append, List.length_cons,
      List.length_nil, Nat.zero_add] at ih1 ⊢
    rw [ih1]
    congr 1
    omega

theorem toggleKeyLoop_hit (value : KeySym) (pre tail : List KeySym) (fuel : Nat)
    (is_set : Bool) (index_set : Nat) (hv : value ≠ XK_VoidSymbol) :
    toggleKeyLoop value (fuel + 1) pre.length is_set index_set (pre ++ value :: tail) =
      toggleKeyLoop value fuel (pre.length + 1) true pre.length
        (pre ++ XK_VoidSymbol :: tail) := by
  have hget := getElem?_append_cons_length pre tail value
  rw [toggleKeyLoop, hget]
  simp [hv]

theorem toggleKeyLoop_void (value : KeySym) (pre tail : List KeySym) (fuel : Nat)
    (is_set : Bool) (index_set : Nat) :
    toggleKeyLoop value (fuel + 1) pre.length is_set index_set
        (pre ++ XK_VoidSymbol :: tail) =
      (pre.length, is_set,
        if is_set then
          ((pre ++ XK_VoidSymbol :: tail).set index_set
            ((pre ++ XK_VoidSymbol :: tail).getD (pre.length - 1) XK_VoidSymbol)).set
              (pre.length - 1) XK_VoidSymbol
        else pre ++ XK_VoidSymbol :: tail) := by
  have hget := getElem?_append_cons_length pre tail XK_VoidSymbol
  rw [toggleKeyLoop, hget]
  cases is_set <;> simp

/-- The keyboard array after toggling a key that is absent from a sentinel-terminated
array: the key takes the place of the first `XK_VoidSymbol`, and a full array is left
as it is. -/
theorem toggleKeyboard_absent (value : KeySym) (keys : List KeySym) (m : Nat)
    (hk : ∀ x ∈ keys, x ≠ XK_VoidSymbol) (hv : value ∉ keys) :
    toggleKeyboard value (keys ++ List.replicate m XK_VoidSymbol) =
      if m = 0 then keys else keys ++ value :: List.replicate (m - 1) XK_VoidSymbol := by
  have hskip := toggleKeyLoop_skip value keys [] (List.replicate m XK_VoidSymbol) m false 0
    (fun x hx => ⟨hk x hx, fun h => hv (h ▸ hx)⟩)
  simp only [List.nil_append, List.length_nil, Nat.zero_add] at hskip
  unfold toggleKeyboard
  rw [List.length_append, List.length_replicate, hskip]
  cases m with
  | zero => simp [toggleKeyLoop]
  | succ m =>
    rw [List.replicate_succ, toggleKeyLoop_void]
    simp

/-- The loop of `toggleInput` on a sentinel-terminated array with at least one
`XK_VoidSymbol` that holds the key once, at the index `a.length`. -/
theorem toggleKeyLoop_present (value : KeySym) (a b : List KeySym) (m : Nat)
    (ha : ∀ x ∈ a, x ≠ XK_VoidSymbol ∧ value ≠ x)
    (hb : ∀ x ∈ b, x ≠ XK_VoidSymbol ∧ value ≠ x) (hv : value ≠ XK_VoidSymbol) :
    toggleKeyLoop value (a ++ value :: b ++ List.replicate (m + 1) XK_VoidSymbol).length 0
        false 0 (a ++ value :: b ++ List.replicate (m + 1) XK_VoidSymbol) =
      (a.length + 1 + b.length, true,
        ((a ++ XK_VoidSymbol :: b ++ List.replicate (m + 1) XK_VoidSymbol).set a.length
          ((a ++ XK_VoidSymbol :: b ++ List.replicate (m + 1) XK_VoidSymbol).getD
            (a.length + 1 + b.length - 1) XK_VoidSymbol)).set
              (a.length + 1 + b.length - 1) XK_VoidSymbol) := by
  have h1 := toggleKeyLoop_skip value a [] (value :: b ++ List.replicate (m + 1) XK_VoidSymbol)
    (1 + b.length + (m + 1)) false 0 ha
  have h2 := toggleKeyLoop_hit value a (b ++ List.replicate (m + 1) XK_VoidSymbol)
    (b.length + (m + 1)) false 0 hv
  have h3 := toggleKeyLoop_skip value b (a ++ [XK_VoidSymbol])
    (List.replicate (m + 1) XK_VoidSymbol) (m + 1) true a.length hb
  have h4 := toggleKeyLoop_void value (a ++ XK_VoidSymbol :: b)
    (List.replicate m XK_VoidSymbol) m true a.length
  simp only [List.nil_append, List.length_nil, Nat.zero_add, List.append_assoc,
    List.cons_append, List.length_append, List.length_cons, List.length_singleton,
    List.singleton_append, List.replicate_succ, List.length_replicate] at h1 h2 h3 h4 ⊢
  have e1 : a.length + (b.length + (m + 1) + 1) = a.length + (1 + b.length + (m + 1)) := by
    omega
  have e2 : 1 + b.length + (m + 1) = b.length + (m + 1) + 1 := by omega
  rw [e1, h1, e2, h2, h3]
  have e3 : a.length + 1 + b.length = a.length + (b.length + 1) := by omega
  rw [e3, h4]
  simp

theorem set_append_cons_length (pre tail : List KeySym) (x y : KeySym) :
    (pre ++ x :: tail).set pre.length y = pre ++ y :: tail := by
  induction pre with
  | nil => rfl
  | cons p pre ih => simp [ih]

theorem getD_append_cons_length (pre tail : List KeySym) (x d : KeySym) :
    (pre ++ x :: tail).getD pre.length d = x := by
  induction pre with
  | nil => rfl
  | cons p pre ih => simpa using ih

/-- The keyboard array after toggling the last key of a sentinel-terminated array
with at least one `XK_VoidSymbol`. -/
theorem toggleKeyboard_present_last (value : KeySym) (a : List KeySym) (m : Nat)
    (ha : ∀ x ∈ a, x ≠ XK_VoidSymbol ∧ value ≠ x) (hv : value ≠ XK_VoidSymbol) :
    toggleKeyboard value (a ++ value :: List.replicate (m + 1) XK_VoidSymbol) =
      a ++ List.replicate (m + 2) XK_VoidSymbol := by
  have h := toggleKeyLoop_present value a [] m ha (by simp) hv
  simp only [List.append_nil, List.length_nil, Nat.add_zero, Nat.add_sub_cancel,
    List.append_assoc, List.cons_append, List.nil_append] at h
  unfold toggleKeyboard
  rw [h]
  simp only [Bool.not_true, Bool.false_eq_true, if_false]
  rw [getD_append_cons_length, set_append_cons_length, set_append_cons_length]
  rfl

/-- The keyboard array after toggling a key that is not the last one of a
sentinel-terminated array with at least one `XK_VoidSymbol`: the last key `l` takes
its place. -/
theorem toggleKeyboard_present_inner (value l : KeySym) (a b : List KeySym) (m : Nat)
    (ha : ∀ x ∈ a, x ≠ XK_VoidSymbol ∧ value ≠ x)
    (hb : ∀ x ∈ b ++ [l], x ≠ XK_VoidSymbol ∧ value ≠ x) (hv : value ≠ XK_VoidSymbol) :
    toggleKeyboard value (a ++ value :: (b ++ [l]) ++ List.replicate (m + 1) XK_VoidSymbol) =
      a ++ l :: b ++ List.replicate (m + 2) XK_VoidSymbol := by
  have h := toggleKeyLoop_present value a (b ++ [l]) m ha hb hv
  unfold toggleKeyboard
  rw [h]
  simp only [Bool.not_true, Bool.false_eq_true, if_false]
  have e1 : a.length + 1 + (b ++ [l]).length - 1 = (a ++ XK_VoidSymbol :: b).length := by
    simp only [List.length_append, List.length_cons, List.length_singleton, List.length_nil]
    omega
  have e2 : a ++ XK_VoidSymbol :: (b ++ [l]) ++ List.replicate (m + 1) XK_VoidSymbol =
      (a ++ XK_VoidSymbol :: b) ++ l :: List.replicate (m + 1) XK_VoidSymbol := by simp
  rw [e1, e2, getD_append_cons_length]
  have e3 : (a ++ XK_VoidSymbol :: b) ++ l :: List.replicate (m + 1) XK_VoidSymbol =
      a ++ XK_VoidSymbol :: (b ++ l :: List.replicate (m + 1) XK_VoidSymbol) := by simp
  rw [e3, set_append_cons_length]
  have e4 : a ++ l :: (b ++ l :: List.replicate (m + 1) XK_VoidSymbol) =
      (a ++ l :: b) ++ l :: List.replicate (m + 1) XK_VoidSymbol := by simp
  have e5 : (a ++ XK_VoidSymbol :: b).length = (a ++ l :: b).length := by simp
  rw [e4, e5, set_append_cons_length]
  simp [List.replicate_succ]

/-- The keyboard array after toggling the last key of a sentinel-terminated array,
full or not. -/
theorem toggleKeyboard_present_end (value : KeySym) (a : List KeySym) (m : Nat)
    (ha : ∀ x ∈ a, x ≠ XK_VoidSymbol ∧ value ≠ x) (hv : value ≠ XK_VoidSymbol) :
    toggleKeyboard value (a ++ value :: List.replicate m XK_VoidSymbol) =
      a ++ List.replicate (m + 1) XK_VoidSymbol := by
  cases m with
  | succ m => exact toggleKeyboard_present_last value a m ha hv
  | zero =>
    have h1 := toggleKeyLoop_skip value a [] [value] 1 false 0 ha
    have h2 := toggleKeyLoop_hit value a [] 0 false 0 hv
    simp only [List.nil_append, List.length_nil, Nat.zero_add] at h1 h2
    unfold toggleKeyboard
    simp only [List.replicate_zero, List.length_append, List.length_singleton]
    rw [h1, h2]
    simp [toggleKeyLoop]

/-- What toggling a key does to a sentinel-terminated keyboard array without
duplicates that has at least one `XK_VoidSymbol`: an absent key is put in the place of
the first `XK_VoidSymbol`, a present key is removed and the keys stay in front. -/
theorem toggleKeyboard_spec (value : KeySym) (keys : List KeySym) (m : Nat)
    (hkeys : ∀ x ∈ keys, x ≠ XK_VoidSymbol) (hnodup : keys.Nodup)
    (hv : value ≠ XK_VoidSymbol) :
    (value ∉ keys →
      toggleKeyboard value (keys ++ List.replicate (m + 1) XK_VoidSymbol) =
        keys ++ value :: List.replicate m XK_VoidSymbol) ∧
    (value ∈ keys → ∃ keys1,
      toggleKeyboard value (keys ++ List.replicate (m + 1) XK_VoidSymbol) =
        keys1 ++ List.replicate (m + 2) XK_VoidSymbol ∧ (value :: keys1).Perm keys) := by
  refine ⟨fun h => ?_, fun h => ?_⟩
  · rw [toggleKeyboard_absent value keys (m + 1) hkeys h]
    simp
  · obtain ⟨a, b, rfl⟩ := List.append_of_mem h
    have hnd := List.nodup_append.mp hnodup
    have hva : value ∉ a := fun hm => hnd.2.2 hm (List.mem_cons_self _ _)
    have hvb : value ∉ b := (List.nodup_cons.mp hnd.2.1).1
    have ha : ∀ x ∈ a, x ≠ XK_VoidSymbol ∧ value ≠ x := fun x hx =>
      ⟨hkeys x (List.mem_append_left _ hx), fun e => hva (e ▸ hx)⟩
    have hb : ∀ x ∈ b, x ≠ XK_VoidSymbol ∧ value ≠ x := fun x hx =>
      ⟨hkeys x (List.mem_append_right _ (List.mem_cons_of_mem _ hx)), fun e => hvb (e ▸ hx)⟩
    rcases List.eq_nil_or_concat b with rfl | ⟨b1, l, hbl⟩
    · refine ⟨a, ?_, ?_⟩
      · rw [List.append_assoc, List.cons_append, List.nil_append]
        exact toggleKeyboard_present_end value a (m + 1) ha hv
      · exact (List.perm_append_singleton value a).symm
    · rw [List.concat_eq_append] at hbl
      subst hbl
      refine ⟨a ++ l :: b1, ?_, ?_⟩
      · have := toggleKeyboard_present_inner value l a b1 m ha hb hv
        simpa using this
      · have h1 : (a ++ value :: (b1 ++ [l])).Perm (value :: (a ++ (b1 ++ [l]))) :=
          List.perm_middle
        have h2 : (a ++ l :: b1).Perm (a ++ (b1 ++ [l])) :=
          List.Perm.append_left a (List.perm_append_singleton l b1).symm
        exact (List.Perm.cons value h2).trans h1.symm

/-- The presence of keys after one toggle and the keys after two toggles of the same
key, for a sentinel-terminated keyboard array without duplicates that has at least
one `XK_VoidSymbol`. -/
theorem toggleKeyboard_presence (value : KeySym) (keys : List KeySym) (m : Nat)
    (hkeys : ∀ x ∈ keys, x ≠ XK_VoidSymbol) (hnodup : keys.Nodup)
    (hv : value ≠ XK_VoidSymbol) :
    (value ∈ toggleKeyboard value (keys ++ List.replicate (m + 1) XK_VoidSymbol) ↔
      value ∉ keys ++ List.replicate (m + 1) XK_VoidSymbol) ∧
    (∀ x, x ≠ value → x ≠ XK_VoidSymbol →
      (x ∈ toggleKeyboard value (keys ++ List.replicate (m + 1) XK_VoidSymbol) ↔
        x ∈ keys ++ List.replicate (m + 1) XK_VoidSymbol)) ∧
    (toggleKeyboard value
      (toggleKeyboard value (keys ++ List.replicate (m + 1) XK_VoidSymbol))).Perm
        (keys ++ List.replicate (m + 1) XK_VoidSymbol) := by
  obtain ⟨habs, hpres⟩ := toggleKeyboard_spec value keys m hkeys hnodup hv
  by_cases h : value ∈ keys
  · obtain ⟨keys1, hT, hperm⟩ := hpres h
    have hnd1 : (value :: keys1).Nodup := hperm.nodup_iff.mpr hnodup
    have hv1 : value ∉ keys1 := (List.nodup_cons.mp hnd1).1
    have hk1 : ∀ x ∈ keys1, x ≠ XK_VoidSymbol := fun x hx =>
      hkeys x (hperm.mem_iff.mp (List.mem_cons_of_mem _ hx))
    rw [hT]
    refine ⟨?_, fun x hxv hx => ?_, ?_⟩
    · simp [hv1, hv, h]
    · have := hperm.mem_iff (a := x)
      simp only [List.mem_cons, hxv, false_or] at this
      simp [hx, this]
    · rw [(toggleKeyboard_spec value keys1 (m + 1) hk1 (List.nodup_cons.mp hnd1).2 hv).1 hv1]
      have h1 : (keys1 ++ [value]).Perm keys :=
        (List.perm_append_singleton value keys1).trans hperm
      have h2 := h1.append_right (List.replicate (m + 1) XK_VoidSymbol)
      simpa using h2
  · rw [habs h]
    refine ⟨?_, fun x hxv hx => ?_, ?_⟩
    · simp [h, hv]
    · simp [hx, hxv]
    · have ha : ∀ x ∈ keys, x ≠ XK_VoidSymbol ∧ value ≠ x := fun x hx =>
        ⟨hkeys x hx, fun e => h (e ▸ hx)⟩
      rw [toggleKeyboard_present_end value keys m ha hv]

theorem set_getElem?_self (l : List Nat) (i : Nat) (b : Nat) (h : l[i]? = some b) :
    l.set i b = l := by
  induction l generalizing i with
  | nil => rfl
  | cons x l ih =>
    cases i with
    | zero =>
      simp only [List.getElem?_cons_zero, Option.some.injEq] at h
      simp [h]
    | succ i =>
      simp only [List.getElem?_cons_succ] at h
      simp [ih i h]

theorem xor_mask_twice (b y : Nat) (hb : b < 2 ^ 16) :
    (((b ^^^ y) % 2 ^ 16) ^^^ y) % 2 ^ 16 = b := by
  apply Nat.eq_of_testBit_eq
  intro i
  simp only [Nat.testBit_mod_two_pow, Nat.testBit_xor]
  by_cases hi : i < 16
  · simp [hi]
  · have hlt : b < 2 ^ i := lt_of_lt_of_le hb (Nat.pow_le_pow_right (by decide) (by omega))
    simp [hi, Nat.testBit_lt_two_pow hlt]

/-- The controller branch of `toggleInput` reads and writes `controller_buttons`
only. -/
theorem toggleController_congr (E : Extern) (si : SingleInput) (ai ai1 bi : AllInputs)
    (h : toggleController E si ai = some ai1)
    (hb : bi.controller_buttons = ai.controller_buttons) :
    toggleController E si bi = some { bi with controller_buttons := ai1.controller_buttons } ∧
    ai1 = { ai with controller_buttons := ai1.controller_buttons } := by
  unfold toggleController at h ⊢
  rw [hb]
  simp only at h ⊢
  split_ifs at h ⊢ with h1 h2 h3
  · cases hg : ai.controller_buttons[((((si.type &&& E.IT_CONTROLLER_ID_MASK) >>>
        E.IT_CONTROLLER_ID_SHIFT : Nat) : Int) - 1).toNat]? with
    | none => rw [hg] at h; cases h
    | some b =>
      rw [hg] at h
      simp only [Option.some.injEq] at h
      subst h
      exact ⟨by rw [← hb], rfl⟩
  · cases h
    exact ⟨by rw [← hb], rfl⟩
  · cases h
    exact ⟨by rw [← hb], rfl⟩

/-- Toggling the same controller button twice restores the frame, when the button
masks are 16-bit values. -/
theorem toggleController_twice (E : Extern) (si : SingleInput) (ai ai1 ai2 : AllInputs)
    (hbuttons : ∀ b ∈ ai.controller_buttons, b < 2 ^ 16)
    (h1 : toggleController E si ai = some ai1) (h2 : toggleController E si ai1 = some ai2) :
    ai2 = ai := by
  unfold toggleController at h1 h2
  simp only at h1 h2
  split_ifs at h1 h2 with c1 c2 c3
  · cases hg : ai.controller_buttons[((((si.type &&& E.IT_CONTROLLER_ID_MASK) >>>
        E.IT_CONTROLLER_ID_SHIFT : Nat) : Int) - 1).toNat]? with
    | none => rw [hg] at h1; cases h1
    | some b =>
      rw [hg] at h1
      simp only [Option.some.injEq] at h1
      subst h1
      obtain ⟨hlt, hget⟩ := List.getElem?_eq_some_iff.mp hg
      have hb16 : b < 2 ^ 16 := hbuttons b (hget ▸ List.getElem_mem _)
      simp only [List.getElem?_set_self hlt, Option.some.injEq, List.set_set] at h2
      subst h2
      rw [xor_mask_twice b _ hb16]
      obtain ⟨kb, px, py, pm, axes, buttons⟩ := ai
      simp only [AllInputs.mk.injEq, true_and]
      exact set_getElem?_self _ _ _ hg
  · cases h1
    cases h2
    rfl
  · cases h1
    cases h2
    rfl

/-- What `toggleInput` does to a frame: the keyboard array is toggled when the input
is a keyboard input, and the controller branch runs on the buttons of the frame. -/
theorem toggleFrame_eq (E : Extern) (si : SingleInput) (ai ai1 : AllInputs)
    (h : toggleFrame E si ai = some ai1) :
    ai1.keyboard =
      (if si.type = E.IT_KEYBOARD then toggleKeyboard si.value ai.keyboard else ai.keyboard) ∧
    toggleController E si ai = some { ai with controller_buttons := ai1.controller_buttons } ∧
    ai1.controller_buttons.length = ai.controller_buttons.length := by
  unfold toggleFrame at h
  simp only at h
  have hc := toggleController_congr E si _ ai1 ai h (by split_ifs <;> rfl)
  refine ⟨?_, hc.1, ?_⟩
  · rw [hc.2]
    split_ifs <;> rfl
  · have h2 := hc.1
    unfold toggleController at h2
    simp only at h2
    split_ifs at h2
    · cases hg : ai.controller_buttons[((((si.type &&& E.IT_CONTROLLER_ID_MASK) >>>
          E.IT_CONTROLLER_ID_SHIFT : Nat) : Int) - 1).toNat]? with
      | none => rw [hg] at h2; cases h2
      | some b =>
        rw [hg] at h2
        simp only [Option.some.injEq, AllInputs.mk.injEq, true_and] at h2
        rw [← h2, List.length_set]
    · simp only [Option.some.injEq] at h2
      exact (congrArg (fun x => x.controller_buttons.length) h2).symm
    · simp only [Option.some.injEq] at h2
      exact (congrArg (fun x => x.controller_buttons.length) h2).symm

/-- A completed `toggleInput` on a row that is not past replaces the frame of the row
by the toggled frame and changes nothing else. -/
theorem toggleInput_frame (E : Extern) (m0 m1 : InputEditorModel) (row col : Int)
    (hg : ltIntULong row m0.context.framecount = false)
    (h : toggleInput E m0 row col = some m1) :
    0 ≤ row ∧ 0 ≤ col ∧ ∃ si ai ai1, m0.input_set[col.toNat]? = some si ∧
      m0.movie.input_list[row.toNat]? = some ai ∧ toggleFrame E si ai = some ai1 ∧
      m1 = { m0 with movie := { input_list := m0.movie.input_list.set row.toNat ai1 } } ∧
      m1.movie.input_list[row.toNat]? = some ai1 := by
  unfold toggleInput at h
  rw [hg] at h
  simp only [Bool.false_eq_true, if_false] at h
  split_ifs at h with hneg
  have h0 : 0 ≤ row ∧ 0 ≤ col := by omega
  refine ⟨h0.1, h0.2, ?_⟩
  cases hsi : m0.input_set[col.toNat]? with
  | none => rw [hsi] at h; cases h
  | some si =>
    cases hai : m0.movie.input_list[row.toNat]? with
    | none => rw [hsi, hai] at h; cases h
    | some ai =>
      rw [hsi, hai] at h
      simp only at h
      cases hf : toggleFrame E si ai with
      | none => rw [hf] at h; cases h
      | some ai1 =>
        rw [hf] at h
        simp only [Option.some.injEq] at h
        subst h
        refine ⟨si, ai, ai1, rfl, rfl, hf, rfl, ?_⟩
        exact List.getElem?_set_self (List.getElem?_eq_some_iff.mp hai).1

/-- C27: for a cell at or after the playhead whose input `si` and frame `ai` exist
(for a controller button: whose controller exists), `toggleInput` completes, and so
does a second `toggleInput` on the same cell.  If `si` is the keyboard key `v` and
the keyboard array of the frame is sentinel-terminated (`keys` followed by
`XK_VoidSymbol` entries only), has no duplicate key and holds fewer than `MAXKEYS`
keys, then after the first toggle `v` is present if and only if it was absent, the
presence of every other key is unchanged, and after the second toggle the keyboard
array holds the original keys (it is a permutation of the original array).  If the
button masks are 16-bit values, the second toggle restores `controller_buttons`. -/
theorem toggleInput_twice_restores (E : Extern) (m0 : InputEditorModel) (row col : Int)
    (si : SingleInput) (ai : AllInputs)
    (h0 : 0 ≤ row) (hc : 0 ≤ col) (hrow : ltIntULong row m0.context.framecount = false)
    (hsi : m0.input_set[col.toNat]? = some si)
    (hai : m0.movie.input_list[row.toNat]? = some ai)
    (hrange : buttonInRange E si ai.controller_buttons.length) :
    ∃ m1 ai1 m2 ai2, toggleInput E m0 row col = some m1 ∧
      m1.movie.input_list[row.toNat]? = some ai1 ∧
      toggleInput E m1 row col = some m2 ∧
      m2.movie.input_list[row.toNat]? = some ai2 ∧
      (∀ (keys : List KeySym) (n : Nat), si.type = E.IT_KEYBOARD →
        si.value ≠ XK_VoidSymbol →
        ai.keyboard = keys ++ List.replicate (n + 1) XK_VoidSymbol →
        (∀ x ∈ keys, x ≠ XK_VoidSymbol) → keys.Nodup →
        (si.value ∈ ai1.keyboard ↔ si.value ∉ ai.keyboard) ∧
        (∀ x, x ≠ si.value → x ≠ XK_VoidSymbol → (x ∈ ai1.keyboard ↔ x ∈ ai.keyboard)) ∧
        ai2.keyboard.Perm ai.keyboard ∧
        (∀ x, x ∈ ai2.keyboard ↔ x ∈ ai.keyboard)) ∧
      ((∀ b ∈ ai.controller_buttons, b < 2 ^ 16) →
        ai2.controller_buttons = ai.controller_buttons) := by
  have hs1 := toggleInput_isSome E m0 row col si ai h0 hc hsi hai hrange
  obtain ⟨m1, hm1⟩ := Option.isSome_iff_exists.mp hs1
  obtain ⟨-, -, si', ai', ai1, hsi', hai', hf1, hm1eq, hget1⟩ :=
    toggleInput_frame E m0 m1 row col hrow hm1
  rw [hsi] at hsi'
  rw [hai] at hai'
  cases hsi'
  cases hai'
  obtain ⟨hk1, hc1, hl1⟩ := toggleFrame_eq E si ai ai1 hf1
  have hctx : m1.context = m0.context := by rw [hm1eq]
  have hset : m1.input_set = m0.input_set := by rw [hm1eq]
  have hs2 := toggleInput_isSome E m1 row col si ai1 h0 hc (by rw [hset]; exact hsi) hget1
    (by rw [hl1]; exact hrange)
  obtain ⟨m2, hm2⟩ := Option.isSome_iff_exists.mp hs2
  obtain ⟨-, -, si', ai', ai2, hsi', hai', hf2, -, hget2⟩ :=
    toggleInput_frame E m1 m2 row col (by rw [hctx]; exact hrow) hm2
  rw [hset, hsi] at hsi'
  rw [hget1] at hai'
  cases hsi'
  cases hai'
  obtain ⟨hk2, hc2, -⟩ := toggleFrame_eq E si ai1 ai2 hf2
  refine ⟨m1, ai1, m2, ai2, hm1, hget1, hm2, hget2, fun keys n hty hv hkb hkeys hnd => ?_,
    fun hb => ?_⟩
  · rw [if_pos hty] at hk1 hk2
    rw [hk2, hk1, hkb]
    obtain ⟨p1, p2, p3⟩ := toggleKeyboard_presence si.value keys n hkeys hnd hv
    exact ⟨p1, p2, p3, fun x => p3.mem_iff⟩
  · have hc3 := (toggleController_congr E si ai1 _ { ai with
        controller_buttons := ai1.controller_buttons } hc2 rfl).1
    have := toggleController_twice E si ai _ _ hb hc1 hc3
    rw [← this]

/-- C27 at a concrete input: the key `0x61` is toggled twice in a frame without
keys. -/
theorem toggleInput_twice_restores_witness :
    ∃ m1 ai1 m2 ai2, toggleInput specExtern sampleEditor 2 0 = some m1 ∧
      m1.movie.input_list[(2 : Int).toNat]? = some ai1 ∧
      toggleInput specExtern m1 2 0 = some m2 ∧
      m2.movie.input_list[(2 : Int).toNat]? = some ai2 ∧
      ((0x61 : KeySym) ∈ ai1.keyboard ↔ (0x61 : KeySym) ∉ specExtern.emptyInputs.keyboard) ∧
      ai2.keyboard.Perm specExtern.emptyInputs.keyboard ∧
      ai2.controller_buttons = specExtern.emptyInputs.controller_buttons := by
  obtain ⟨m1, ai1, m2, ai2, h1, h2, h3, h4, hk, hb⟩ :=
    toggleInput_twice_restores specExtern sampleEditor 2 0
      { type := 0, value := 0x61, description := "a" } specExtern.emptyInputs
      (by decide) (by decide) (by decide) rfl rfl (Or.inl (by decide))
  have hk1 := hk [] 15 rfl (by decide) rfl (by simp) List.nodup_nil
  exact ⟨m1, ai1, m2, ai2, h1, h2, h3, h4, hk1.1, hk1.2.2.1, hb (by decide)⟩

/-- C24 at the failing input: the keyboard array is full (16 keys), the first key is
toggled.  The loop replaces it by `XK_VoidSymbol` and runs to the end of the array
without meeting an `XK_VoidSymbol`, so the last key is not moved into the gap: the
15 other keys follow the `XK_VoidSymbol` entry. -/
theorem toggleInput_full_keyboard_gap :
    toggleKeyboard 0x61 (List.range' 0x61 16) = XK_VoidSymbol :: List.range' 0x62 15 ∧
    toggleInput specExtern sampleFullEditor 0 0 =
      some { sampleFullEditor with
        movie := { input_list :=
          [{ specExtern.emptyInputs with keyboard := XK_VoidSymbol :: List.range' 0x62 15 }] } } ∧
    (XK_VoidSymbol :: List.range' 0x62 15)[0]? = some XK_VoidSymbol ∧
    (XK_VoidSymbol :: List.range' 0x62 15)[1]? = some 0x62 ∧ (0x62 : KeySym) ≠ XK_VoidSymbol := by
  refine ⟨by decide, by decide, rfl, rfl, by decide⟩

/-! ## Properties: game.cpp, a load after another load, and the pseudo savestate -/

/-- C25 at the failing input: in write mode, save to slot 1 at frame 1, record a
frame, save to slot 2 at frame 2, load from slot 1, load from slot 2.  The load from
slot 1 replaces the live movie by the one-frame movie of slot 1 and leaves
`last_savestate_slot` at 2, so the load from slot 2 keeps that movie: the frame
counter is 2, the companion movie of slot 2 has the key `0x61` at frame 1, and the
live movie has no frame 1. -/
theorem loadState_last_saved_slot_keeps_other_movie :
    sampleSlotSaved.last_savestate_slot = 2 ∧
    sampleSlotSaved.movie.input_list = [specExtern.emptyInputs, sampleLiveKey.built] ∧
    (specExtern.loadMovie sampleSlotLoaded.files (moviePath sampleSlotLoaded.context 2)
      { input_list := [] }).input_list = [specExtern.emptyInputs, sampleLiveKey.built] ∧
    sampleSlotLoaded.context.recording = RecStatus.RECORDING_WRITE ∧
    sampleSlotLoaded.context.framecount = 2 ∧
    sampleSlotLoaded.last_savestate_slot = 2 ∧
    sampleSlotLoaded.movie.input_list = [specExtern.emptyInputs] ∧
    sampleSlotLoaded.movie.input_list[1]? = none := by
  refine ⟨by decide, by decide, by decide, by decide, by decide, by decide, by decide, by decide⟩

/-- C28 at the failing input: a pseudo savestate stored at frame 10 is being loaded
and the game is at frame 5, within the 30 frames before the stored frame.  The
`unsigned long` difference `10 - 30` wraps to `2^64 - 20`, the test
`context->framecount > pseudosavestate.framecount - 30` is false, and fast-forward
stays on. -/
theorem pseudoSaveState_early_frame_fastforward :
    pseudoThreshold samplePseudoLoading.pseudosavestate.framecount = 2 ^ 64 - 20 ∧
    checkPseudoSaveState samplePseudoLoading = samplePseudoLoading ∧
    samplePseudoLoading.pseudosavestate.loading = true ∧
    samplePseudoLoading.context.framecount = 5 ∧
    (checkPseudoSaveState samplePseudoLoading).context.config.sc.fastforward = true := by
  refine ⟨by decide, by decide, rfl, rfl, by decide⟩

/-! ## Properties: sockethelpers.cpp, `receiveMessage` -/

/-- C26 at the failing input: the peer has closed the connection, `recv` returns 0
and leaves `msg` as it was; `receiveData` returns 0 and `receiveMessage` returns the
uninitialised `msg`, here 5, which is not negative.  The same happens when 2 of the 4
bytes arrive. -/
theorem receiveMessage_closed_not_negative :
    (receiveData (encodeI32 5) 4 sampleClosedSocket).1 = 0 ∧
    (receiveMessage (encodeI32 5) sampleClosedSocket).1 = 5 ∧
    ¬ (receiveMessage (encodeI32 5) sampleClosedSocket).1 < 0 ∧
    (receiveData (encodeI32 5) 4 { sampleClosedSocket with incoming := [7, 0] }).1 = 2 ∧
    (receiveMessage (encodeI32 5) { sampleClosedSocket with incoming := [7, 0] }).1 = 7 := by
  refine ⟨by decide, by decide, by decide, by decide, by decide⟩

/-! ## Properties: sdlversion.cpp -/

/-- The version that `get_sdlversion` reads: that of `SDL_Linked_Version` when the
symbol is found, else that of `SDL_GetVersion` when the pointer is set or the symbol
is found, else `{0, 0, 0}`. -/
theorem readVersion_lookupSymbols (env : SdlLinker) (s : SdlState) :
    (readVersion (lookupSymbols env s)).1 =
      (match env.SDL_Linked_Version with
       | some v => v
       | none =>
         match (if s.SDL_GetVersion = none then env.SDL_GetVersion else s.SDL_GetVersion) with
         | some v => v
         | none => { major := 0, minor := 0, patch := 0 }) ∧
    (readVersion (lookupSymbols env s)).2.SDLver = s.SDLver := by
  unfold readVersion lookupSymbols
  cases h1 : env.SDL_Linked_Version <;> cases h2 : s.SDL_GetVersion <;>
    cases h3 : env.SDL_GetVersion <;> simp [h1, h2, h3]

theorem detectLibrary_SDLver (env : SdlLinker) (s : SdlState) :
    (detectLibrary env s).SDLver =
      if env.sdl1 = true ∧ env.sdl2 = false then 1
      else if env.sdl1 = false ∧ env.sdl2 = true then 2
      else s.SDLver := by
  unfold detectLibrary
  cases env.sdl1 <;> cases env.sdl2 <;> simp

/-- A call of `get_sdlversion` with a saved version returns it and changes nothing. -/
theorem get_sdlversion_cached (env : SdlLinker) (s : SdlState) (h : s.SDLver ≠ -1) :
    get_sdlversion env s = (s.SDLver, s) := by
  unfold get_sdlversion
  rw [if_pos h]

/-- The value returned is the value saved in `SDLver`. -/
theorem get_sdlversion_saved (env : SdlLinker) (s : SdlState) :
    (get_sdlversion env s).2.SDLver = (get_sdlversion env s).1 := by
  simp only [get_sdlversion]
  split_ifs <;> rfl

theorem sdlversionRun_cached (envs : List SdlLinker) (s : SdlState) (h : s.SDLver ≠ -1) :
    sdlversionRun envs s = List.replicate envs.length s.SDLver := by
  induction envs with
  | nil => rfl
  | cons env envs ih =>
    rw [sdlversionRun, get_sdlversion_cached env s h]
    simp only [List.length_cons, List.replicate_succ]
    rw [ih]

/-- C30: with no version saved (`SDLver == -1`), `get_sdlversion` returns the major
version of the version it reads when that is positive: the version reported by
`SDL_Linked_Version` (SDL 1.2) when that symbol is found, whether or not
`SDL_GetVersion` is available too, and else the version reported by `SDL_GetVersion`.
Otherwise it returns 1 when only the SDL 1.2 library is loaded, 2 when only the SDL 2
library is loaded, and -1 when none or both are.  The value returned is saved, and
once a value other than -1 has been returned every later call returns it, whatever
the linker answers, without any call into the linker or SDL. -/
theorem get_sdlversion_spec (env : SdlLinker) (s : SdlState) :
    (s.SDLver = -1 →
      (get_sdlversion env s).1 =
        (match (match env.SDL_Linked_Version with
                | some v => some v
                | none => if s.SDL_GetVersion = none then env.SDL_GetVersion
                          else s.SDL_GetVersion) with
         | some v =>
           if v.major > 0 then ((v.major : Nat) : Int)
           else if env.sdl1 = true ∧ env.sdl2 = false then 1
           else if env.sdl1 = false ∧ env.sdl2 = true then 2
           else -1
         | none =>
           if env.sdl1 = true ∧ env.sdl2 = false then 1
           else if env.sdl1 = false ∧ env.sdl2 = true then 2
           else -1)) ∧
    (s.SDLver = -1 → ∀ v, env.SDL_Linked_Version = some v → v.major > 0 →
      (get_sdlversion env s).1 = ((v.major : Nat) : Int)) ∧
    (s.SDLver ≠ -1 → get_sdlversion env s = (s.SDLver, s)) ∧
    (get_sdlversion env s).2.SDLver = (get_sdlversion env s).1 ∧
    ((get_sdlversion env s).1 ≠ -1 →
      (∀ env1, get_sdlversion env1 (get_sdlversion env s).2 =
        ((get_sdlversion env s).1, (get_sdlversion env s).2)) ∧
      (∀ envs, sdlversionRun envs (get_sdlversion env s).2 =
        List.replicate envs.length (get_sdlversion env s).1)) := by
  have hmain : s.SDLver = -1 →
      (get_sdlversion env s).1 =
        (match (match env.SDL_Linked_Version with
                | some v => some v
                | none => if s.SDL_GetVersion = none then env.SDL_GetVersion
                          else s.SDL_GetVersion) with
         | some v =>
           if v.major > 0 then ((v.major : Nat) : Int)
           else if env.sdl1 = true ∧ env.sdl2 = false then 1
           else if env.sdl1 = false ∧ env.sdl2 = true then 2
           else -1
         | none =>
           if env.sdl1 = true ∧ env.sdl2 = false then 1
           else if env.sdl1 = false ∧ env.sdl2 = true then 2
           else -1) := by
    intro h
    obtain ⟨hv, hs⟩ := readVersion_lookupSymbols env s
    unfold get_sdlversion
    simp only [h, ne_eq, not_true_eq_false, if_false]
    rw [hv]
    have hd : ∀ t : SdlState, t.SDLver = -1 → (detectLibrary env t).SDLver =
        if env.sdl1 = true ∧ env.sdl2 = false then 1
        else if env.sdl1 = false ∧ env.sdl2 = true then 2 else -1 := by
      intro t ht
      rw [detectLibrary_SDLver, ht]
    have hd1 := hd _ (hs.trans h)
    cases h1 : env.SDL_Linked_Version with
    | some v =>
      simp only []
      split_ifs <;> simp_all
    | none =>
      simp only []
      cases h2 : (if s.SDL_GetVersion = none then env.SDL_GetVersion else s.SDL_GetVersion) with
      | some v =>
        simp only []
        split_ifs <;> simp_all
      | none =>
        simp only []
        split_ifs <;> simp_all
  have hsaved := get_sdlversion_saved env s
  refine ⟨hmain, fun h v hl hpos => ?_, get_sdlversion_cached env s, hsaved, fun hne => ?_⟩
  · rw [hmain h, hl]
    simp only []
    rw [if_pos hpos]
  · have hne2 : (get_sdlversion env s).2.SDLver ≠ -1 := by rw [hsaved]; exact hne
    refine ⟨fun env1 => ?_, fun envs => ?_⟩
    · rw [get_sdlversion_cached env1 _ hne2, hsaved]
    · rw [sdlversionRun_cached envs _ hne2, hsaved]

/-- C30 at a concrete input: both symbols are found, `SDL_Linked_Version` reports
1.2.15 and `SDL_GetVersion` reports 2.0.5; the result is 1. -/
theorem get_sdlversion_spec_witness :
    (get_sdlversion
      { SDL_GetVersion := some { major := 2, minor := 0, patch := 5 }
        SDL_Linked_Version := some { major := 1, minor := 2, patch := 15 }
        sdl1 := true, sdl2 := true } sdlStart).1 = 1 :=
  (get_sdlversion_spec
    { SDL_GetVersion := some { major := 2, minor := 0, patch := 5 }
      SDL_Linked_Version := some { major := 1, minor := 2, patch := 15 }
      sdl1 := true, sdl2 := true } sdlStart).2.1 rfl
    { major := 1, minor := 2, patch := 15 } rfl (by decide)

/-! ## Properties: InputEditorModel.cpp, `buildInputSet` -/

theorem lt_trans_of_byTypeValue (ops : SingleInputOps) (hops : ops.ByTypeValue)
    (a b c : SingleInput) (h1 : ops.lt a b = true) (h2 : ops.lt b c = true) :
    ops.lt a c = true := by
  rw [hops.1] at h1 h2 ⊢
  omega

theorem eq_of_not_lt (ops : SingleInputOps) (hops : ops.ByTypeValue) (a b : SingleInput)
    (h1 : ¬ ops.lt a b = true) (h2 : ¬ ops.lt b a = true) :
    a.type = b.type ∧ a.value = b.value := by
  rw [hops.1] at h1 h2
  omega

theorem setInsert_mem (ops : SingleInputOps) (si y : SingleInput) (l : List SingleInput)
    (h : y ∈ setInsert ops si l) : y = si ∨ y ∈ l := by
  induction l with
  | nil => simpa [setInsert] using h
  | cons x xs ih =>
    rw [setInsert] at h
    split_ifs at h
    · simpa using h
    · rcases List.mem_cons.mp h with h | h
      · exact Or.inr (h ▸ List.mem_cons_self _ _)
      · rcases ih h with h | h
        · exact Or.inl h
        · exact Or.inr (List.mem_cons_of_mem _ h)
    · exact Or.inr h

theorem setInsert_hasInput (ops : SingleInputOps) (hops : ops.ByTypeValue) (si : SingleInput)
    (l : List SingleInput) (t v : Nat) :
    hasInput (setInsert ops si l) t v ↔ (si.type = t ∧ si.value = v) ∨ hasInput l t v := by
  induction l with
  | nil => simp [setInsert, hasInput]
  | cons x xs ih =>
    rw [setInsert]
    split_ifs with h1 h2
    · simp [hasInput]
    · have hc : ∀ l : List SingleInput, hasInput (x :: l) t v ↔
          (x.type = t ∧ x.value = v) ∨ hasInput l t v := by
        intro l
        simp [hasInput]
      rw [hc, ih, hc]
      exact or_left_comm
    · obtain ⟨e1, e2⟩ := eq_of_not_lt ops hops si x h1 h2
      constructor
      · exact fun h => Or.inr h
      · rintro (⟨h3, h4⟩ | h)
        · exact ⟨x, List.mem_cons_self _ _, e1.symm.trans h3, e2.symm.trans h4⟩
        · exact h

theorem setInsert_sorted (ops : SingleInputOps) (hops : ops.ByTypeValue) (si : SingleInput)
    (l : List SingleInput) (h : l.Pairwise (fun a b => ops.lt a b = true)) :
    (setInsert ops si l).Pairwise (fun a b => ops.lt a b = true) := by
  induction l with
  | nil => simp [setInsert]
  | cons x xs ih =>
    obtain ⟨hx, hxs⟩ := List.pairwise_cons.mp h
    rw [setInsert]
    split_ifs with h1 h2
    · refine List.pairwise_cons.mpr ⟨fun y hy => ?_, h⟩
      rcases List.mem_cons.mp hy with hy | hy
      · rw [hy]; exact h1
      · exact lt_trans_of_byTypeValue ops hops si x y h1 (hx y hy)
    · refine List.pairwise_cons.mpr ⟨fun y hy => ?_, ih hxs⟩
      rcases setInsert_mem ops si y xs hy with hy | hy
      · rw [hy]; exact h2
      · exact hx y hy
    · exact h

/-- A loop whose every step keeps the set ordered and adds the inputs described by
`Q` does so as a whole. -/
theorem foldl_gather {α : Type} (ops : SingleInputOps)
    (step : List SingleInput → α → List SingleInput) (Q : α → Nat → Nat → Prop)
    (hstep : ∀ acc a,
      (acc.Pairwise (fun a b => ops.lt a b = true) →
        (step acc a).Pairwise (fun a b => ops.lt a b = true)) ∧
      ∀ t v, hasInput (step acc a) t v ↔ hasInput acc t v ∨ Q a t v)
    (xs : List α) (set : List SingleInput) :
    (set.Pairwise (fun a b => ops.lt a b = true) →
      (xs.foldl step set).Pairwise (fun a b => ops.lt a b = true)) ∧
    ∀ t v, hasInput (xs.foldl step set) t v ↔ hasInput set t v ∨ ∃ a ∈ xs, Q a t v := by
  induction xs generalizing set with
  | nil => simp
  | cons x xs ih =>
    obtain ⟨h1, h2⟩ := hstep set x
    obtain ⟨i1, i2⟩ := ih (step set x)
    refine ⟨fun h => i1 (h1 h), fun t v => ?_⟩
    rw [List.foldl_cons, i2, h2]
    simp only [List.mem_cons, exists_eq_or_imp]
    exact or_assoc

theorem gatherKeys_spec (E : Extern) (ops : SingleInputOps) (hops : ops.ByTypeValue)
    (kb : List KeySym) (set : List SingleInput) :
    (set.Pairwise (fun a b => ops.lt a b = true) →
      (gatherKeys E ops kb set).Pairwise (fun a b => ops.lt a b = true)) ∧
    ∀ t v, hasInput (gatherKeys E ops kb set) t v ↔
      hasInput set t v ∨
        (t = E.IT_KEYBOARD ∧
          ∃ ks ∈ kb.takeWhile (fun k => decide (k ≠ XK_VoidSymbol)), v = ks % 2 ^ 32) := by
  induction kb generalizing set with
  | nil => simp [gatherKeys]
  | cons ks rest ih =>
    rw [gatherKeys]
    by_cases hk : ks ≠ XK_VoidSymbol
    · rw [if_pos hk]
      obtain ⟨i1, i2⟩ := ih (setInsert ops (keyInput E ks) set)
      refine ⟨fun h => i1 (setInsert_sorted ops hops _ _ h), fun t v => ?_⟩
      rw [i2, setInsert_hasInput ops hops, List.takeWhile_cons_of_pos (by simpa using hk)]
      simp only [keyInput, List.mem_cons, exists_eq_or_imp]
      constructor
      · rintro ((⟨rfl, rfl⟩ | h) | ⟨rfl, h⟩)
        · exact Or.inr ⟨rfl, Or.inl rfl⟩
        · exact Or.inl h
        · exact Or.inr ⟨rfl, Or.inr h⟩
      · rintro (h | ⟨rfl, rfl | h⟩)
        · exact Or.inl (Or.inr h)
        · exact Or.inl (Or.inl ⟨rfl, rfl⟩)
        · exact Or.inr ⟨rfl, h⟩
    · rw [if_neg hk, List.takeWhile_cons_of_neg (by simpa using hk)]
      simp

theorem gatherButtons_spec (E : Extern) (ops : SingleInputOps) (hops : ops.ByTypeValue)
    (c mask : Nat) (set : List SingleInput) :
    (set.Pairwise (fun a b => ops.lt a b = true) →
      (gatherButtons E ops c mask set).Pairwise (fun a b => ops.lt a b = true)) ∧
    ∀ t v, hasInput (gatherButtons E ops c mask set) t v ↔
      hasInput set t v ∨
        ∃ b, b < 16 ∧ mask &&& (1 <<< b) ≠ 0 ∧
          t = ((c + 1) <<< E.IT_CONTROLLER_ID_SHIFT) + b ∧ v = 1 := by
  have h := foldl_gather ops
    (fun acc b => if mask &&& (1 <<< b) ≠ 0 then setInsert ops (buttonInput E c b) acc else acc)
    (fun b t v => mask &&& (1 <<< b) ≠ 0 ∧
      t = ((c + 1) <<< E.IT_CONTROLLER_ID_SHIFT) + b ∧ v = 1)
    (fun acc b => by
      by_cases hb : mask &&& (1 <<< b) ≠ 0
      · simp only [if_pos hb]
        refine ⟨setInsert_sorted ops hops _ _, fun t v => ?_⟩
        rw [setInsert_hasInput ops hops]
        simp only [buttonInput]
        constructor
        · rintro (⟨rfl, rfl⟩ | h)
          · exact Or.inr ⟨hb, rfl, rfl⟩
          · exact Or.inl h
        · rintro (h | ⟨-, rfl, rfl⟩)
          · exact Or.inr h
          · exact Or.inl ⟨rfl, rfl⟩
      · simp only [if_neg hb]
        exact ⟨fun h => h, fun t v => ⟨fun h => Or.inl h, fun h => h.elim id
          (fun hq => absurd hq.1 hb)⟩⟩)
    (List.range 16) set
  unfold gatherButtons
  refine ⟨h.1, fun t v => ?_⟩
  rw [h.2]
  simp only [List.mem_range]

theorem gatherControllers_spec (E : Extern) (ops : SingleInputOps) (hops : ops.ByTypeValue)
    (buttons : List Nat) (set : List SingleInput) :
    (set.Pairwise (fun a b => ops.lt a b = true) →
      (gatherControllers E ops buttons set).Pairwise (fun a b => ops.lt a b = true)) ∧
    ∀ t v, hasInput (gatherControllers E ops buttons set) t v ↔
      hasInput set t v ∨
        ∃ c mask b, buttons[c]? = some mask ∧ b < 16 ∧ mask &&& (1 <<< b) ≠ 0 ∧
          t = ((c + 1) <<< E.IT_CONTROLLER_ID_SHIFT) + b ∧ v = 1 := by
  have h := foldl_gather ops
    (fun acc (cm : Nat × Nat) => if cm.2 = 0 then acc else gatherButtons E ops cm.1 cm.2 acc)
    (fun cm t v => ∃ b, b < 16 ∧ cm.2 &&& (1 <<< b) ≠ 0 ∧
      t = ((cm.1 + 1) <<< E.IT_CONTROLLER_ID_SHIFT) + b ∧ v = 1)
    (fun acc cm => by
      by_cases hz : cm.2 = 0
      · simp only [if_pos hz]
        refine ⟨fun h => h, fun t v => ⟨fun h => Or.inl h, fun h => h.elim id ?_⟩⟩
        rintro ⟨b, -, hb, -⟩
        rw [hz, Nat.zero_and] at hb
        exact absurd rfl hb
      · simp only [if_neg hz]
        exact gatherButtons_spec E ops hops cm.1 cm.2 acc)
    buttons.enum set
  unfold gatherControllers
  refine ⟨h.1, fun t v => ?_⟩
  rw [h.2]
  constructor
  · rintro (h | ⟨cm, hcm, b, hb⟩)
    · exact Or.inl h
    · exact Or.inr ⟨cm.1, cm.2, b, List.mem_enum_iff_getElem?.mp hcm, hb⟩
  · rintro (h | ⟨c, mask, b, hcm, hb⟩)
    · exact Or.inl h
    · exact Or.inr ⟨(c, mask), List.mem_enum_iff_getElem?.mpr hcm, b, hb⟩

/-- The inputs gathered from all the frames of a movie. -/
theorem gatherFrames_spec (E : Extern) (ops : SingleInputOps) (hops : ops.ByTypeValue)
    (frames : List AllInputs) :
    (frames.foldl (gatherFrame E ops) []).Pairwise (fun a b => ops.lt a b = true) ∧
    ∀ t v, hasInput (frames.foldl (gatherFrame E ops) []) t v ↔
      (t = E.IT_KEYBOARD ∧ ∃ ai ∈ frames,
        ∃ ks ∈ ai.keyboard.takeWhile (fun k => decide (k ≠ XK_VoidSymbol)), v = ks % 2 ^ 32) ∨
      (v = 1 ∧ ∃ ai ∈ frames, ∃ c mask b, ai.controller_buttons[c]? = some mask ∧ b < 16 ∧
        mask &&& (1 <<< b) ≠ 0 ∧ t = ((c + 1) <<< E.IT_CONTROLLER_ID_SHIFT) + b) := by
  have h := foldl_gather ops (gatherFrame E ops)
    (fun ai t v =>
      (t = E.IT_KEYBOARD ∧
        ∃ ks ∈ ai.keyboard.takeWhile (fun k => decide (k ≠ XK_VoidSymbol)), v = ks % 2 ^ 32) ∨
      ∃ c mask b, ai.controller_buttons[c]? = some mask ∧ b < 16 ∧ mask &&& (1 <<< b) ≠ 0 ∧
        t = ((c + 1) <<< E.IT_CONTROLLER_ID_SHIFT) + b ∧ v = 1)
    (fun acc ai => by
      obtain ⟨k1, k2⟩ := gatherKeys_spec E ops hops ai.keyboard acc
      obtain ⟨c1, c2⟩ := gatherControllers_spec E ops hops ai.controller_buttons
        (gatherKeys E ops ai.keyboard acc)
      refine ⟨fun h => c1 (k1 h), fun t v => ?_⟩
      unfold gatherFrame
      rw [c2, k2]
      exact or_assoc)
    frames []
  refine ⟨h.1 List.Pairwise.nil, fun t v => ?_⟩
  rw [h.2]
  constructor
  · rintro (⟨si, hsi, -⟩ | ⟨ai, hai, (⟨ht, hk⟩ | ⟨c, mask, b, h1, h2, h3, h4, h5⟩)⟩)
    · cases hsi
    · exact Or.inl ⟨ht, ai, hai, hk⟩
    · exact Or.inr ⟨h5, ai, hai, c, mask, b, h1, h2, h3, h4⟩
  · rintro (⟨ht, ai, hai, hk⟩ | ⟨hv, ai, hai, c, mask, b, h1, h2, h3, h4⟩)
    · exact Or.inr ⟨ai, hai, Or.inl ⟨ht, hk⟩⟩
    · exact Or.inr ⟨ai, hai, Or.inr ⟨c, mask, b, h1, h2, h3, h4, hv⟩⟩

theorem describeInput_key (ops : SingleInputOps) (il : List SingleInput) (si : SingleInput) :
    (describeInput ops il si).type = si.type ∧ (describeInput ops il si).value = si.value := by
  unfold describeInput
  cases il.find? (fun ti => ops.eq si ti) <;> exact ⟨rfl, rfl⟩

theorem describeInput_description (ops : SingleInputOps) (hops : ops.ByTypeValue)
    (il : List SingleInput) (si : SingleInput) :
    il.find? (fun ti => ops.eq (describeInput ops il si) ti) =
      il.find? (fun ti => ops.eq si ti) ∧
    ∀ ti, il.find? (fun ti => ops.eq si ti) = some ti →
      (describeInput ops il si).description = ti.description := by
  obtain ⟨k1, k2⟩ := describeInput_key ops il si
  have hfun : (fun ti => ops.eq (describeInput ops il si) ti) = (fun ti => ops.eq si ti) := by
    funext ti
    rw [Bool.eq_iff_iff, hops.2, hops.2, k1, k2]
  refine ⟨by rw [hfun], fun ti h => ?_⟩
  unfold describeInput
  rw [h]

theorem buttonInput_injective (E : Extern) (hs : 16 ≤ 2 ^ E.IT_CONTROLLER_ID_SHIFT)
    (c b c1 b1 : Nat) (hb : b < 16) (hb1 : b1 < 16)
    (h : (buttonInput E c b).type = (buttonInput E c1 b1).type) : c = c1 ∧ b = b1 := by
  simp only [buttonInput, Nat.shiftLeft_eq] at h
  have hpos : 0 < 2 ^ E.IT_CONTROLLER_ID_SHIFT := by omega
  have e1 : ((c + 1) * 2 ^ E.IT_CONTROLLER_ID_SHIFT + b) % 2 ^ E.IT_CONTROLLER_ID_SHIFT =
      ((c1 + 1) * 2 ^ E.IT_CONTROLLER_ID_SHIFT + b1) % 2 ^ E.IT_CONTROLLER_ID_SHIFT := by
    rw [h]
  have e2 : ((c + 1) * 2 ^ E.IT_CONTROLLER_ID_SHIFT + b) / 2 ^ E.IT_CONTROLLER_ID_SHIFT =
      ((c1 + 1) * 2 ^ E.IT_CONTROLLER_ID_SHIFT + b1) / 2 ^ E.IT_CONTROLLER_ID_SHIFT := by
    rw [h]
  rw [Nat.mul_add_mod', Nat.mul_add_mod', Nat.mod_eq_of_lt (lt_of_lt_of_le hb hs),
    Nat.mod_eq_of_lt (lt_of_lt_of_le hb1 hs)] at e1
  rw [Nat.add_comm _ b, Nat.add_comm _ b1, Nat.add_mul_div_right _ _ hpos,
    Nat.add_mul_div_right _ _ hpos, Nat.div_eq_of_lt (lt_of_lt_of_le hb hs),
    Nat.div_eq_of_lt (lt_of_lt_of_le hb1 hs)] at e2
  exact ⟨by omega, e1⟩

/-- C29: after `buildInputSet`, with operators of `SingleInput` that compare type and
value, `input_set` has an entry of type `t` and value `v` exactly when `t` is
`IT_KEYBOARD` and `v` is (the `unsigned int` of) a key that occurs before the first
`XK_VoidSymbol` in the keyboard array of some frame, or `v` is 1 and `t` is
`((c+1) << IT_CONTROLLER_ID_SHIFT) + b` for a controller `c` and a button `b` in
0..15 whose bit is set in `controller_buttons[c]` of some frame.  The entries are in
strictly increasing order, so no two entries are equal or have the same type and
value; different buttons have different types when 16 values fit below the
controller shift.  An entry that is equal to an entry of the key mapping's
`input_list` carries the description of the first such entry.  The movie and the
context are unchanged. -/
theorem buildInputSet_spec (E : Extern) (ops : SingleInputOps) (hops : ops.ByTypeValue)
    (m : InputEditorModel) :
    (∀ t v, hasInput (buildInputSet E ops m).input_set t v ↔
      (t = E.IT_KEYBOARD ∧ ∃ ai ∈ m.movie.input_list,
        ∃ ks ∈ ai.keyboard.takeWhile (fun k => decide (k ≠ XK_VoidSymbol)), v = ks % 2 ^ 32) ∨
      (v = 1 ∧ ∃ ai ∈ m.movie.input_list, ∃ c mask b,
        ai.controller_buttons[c]? = some mask ∧ b < 16 ∧ mask &&& (1 <<< b) ≠ 0 ∧
        t = ((c + 1) <<< E.IT_CONTROLLER_ID_SHIFT) + b)) ∧
    (buildInputSet E ops m).input_set.Pairwise (fun a b => ops.lt a b = true) ∧
    (buildInputSet E ops m).input_set.Nodup ∧
    (∀ a ∈ (buildInputSet E ops m).input_set, ∀ b ∈ (buildInputSet E ops m).input_set,
      a.type = b.type → a.value = b.value → a = b) ∧
    (16 ≤ 2 ^ E.IT_CONTROLLER_ID_SHIFT → ∀ c b c1 b1, b < 16 → b1 < 16 →
      (buttonInput E c b).type = (buttonInput E c1 b1).type → c = c1 ∧ b = b1) ∧
    (∀ si ∈ (buildInputSet E ops m).input_set, ∀ ti ∈ m.context.config.input_list,
      ops.eq si ti = true →
      ∃ ti0, m.context.config.input_list.find? (fun ti => ops.eq si ti) = some ti0 ∧
        si.description = ti0.description) ∧
    (buildInputSet E ops m).movie = m.movie ∧
    (buildInputSet E ops m).context = m.context := by
  obtain ⟨hsorted, hhas⟩ := gatherFrames_spec E ops hops m.movie.input_list
  have hmap : ∀ t v, hasInput (buildInputSet E ops m).input_set t v ↔
      hasInput (m.movie.input_list.foldl (gatherFrame E ops) []) t v := by
    intro t v
    simp only [buildInputSet, hasInput, List.mem_map]
    constructor
    · rintro ⟨si, ⟨x, hx, rfl⟩, h1, h2⟩
      obtain ⟨k1, k2⟩ := describeInput_key ops m.context.config.input_list x
      exact ⟨x, hx, k1.symm.trans h1, k2.symm.trans h2⟩
    · rintro ⟨x, hx, h1, h2⟩
      obtain ⟨k1, k2⟩ := describeInput_key ops m.context.config.input_list x
      exact ⟨_, ⟨x, hx, rfl⟩, k1.trans h1, k2.trans h2⟩
  have hpair : (buildInputSet E ops m).input_set.Pairwise (fun a b => ops.lt a b = true) := by
    simp only [buildInputSet]
    refine List.Pairwise.map _ (fun a b hab => ?_) hsorted
    obtain ⟨a1, a2⟩ := describeInput_key ops m.context.config.input_list a
    obtain ⟨b1, b2⟩ := describeInput_key ops m.context.config.input_list b
    rw [hops.1] at hab ⊢
    rw [a1, a2, b1, b2]
    exact hab
  have hirr : ∀ a b : SingleInput, a.type = b.type → a.value = b.value →
      ¬ ops.lt a b = true := by
    intro a b h1 h2 h
    rw [hops.1] at h
    omega
  have huniq : ∀ a ∈ (buildInputSet E ops m).input_set,
      ∀ b ∈ (buildInputSet E ops m).input_set, a.type = b.type → a.value = b.value → a = b := by
    intro a ha b hb h1 h2
    by_contra hne
    have hsym : (buildInputSet E ops m).input_set.Pairwise
        (fun a b => ops.lt a b = true ∨ ops.lt b a = true) :=
      hpair.imp (fun h => Or.inl h)
    rcases hsym.forall (fun x y h => h.symm) ha hb hne with h | h
    · exact hirr a b h1 h2 h
    · exact hirr b a h1.symm h2.symm h
  refine ⟨fun t v => (hmap t v).trans (hhas t v), hpair, ?_, huniq,
    fun hs c b c1 b1 hb hb1 h => buttonInput_injective E hs c b c1 b1 hb hb1 h, ?_, rfl, rfl⟩
  · exact hpair.imp (fun {a b} (h : ops.lt a b = true) (hab : a = b) =>
      hirr a b (congrArg SingleInput.type hab) (congrArg SingleInput.value hab) h)
  · intro si hsi ti hti heq
    simp only [buildInputSet, List.mem_map] at hsi
    obtain ⟨x, -, rfl⟩ := hsi
    obtain ⟨d1, d2⟩ := describeInput_description ops hops m.context.config.input_list x
    have hsome : (m.context.config.input_list.find?
        (fun ti => ops.eq (describeInput ops m.context.config.input_list x) ti)).isSome := by
      rw [List.find?_isSome]
      exact ⟨ti, hti, heq⟩
    obtain ⟨ti0, h0⟩ := Option.isSome_iff_exists.mp hsome
    exact ⟨ti0, h0, d2 ti0 (d1 ▸ h0)⟩

/-- C29 at a concrete input: a movie of two frames with the keys `0x62`, `0x61` and
two buttons of the second controller. -/
theorem buildInputSet_spec_witness :
    (buildInputSet specExtern sampleOps sampleBuildEditor).input_set =
      [{ type := 0, value := 0x61, description := "A" },
       { type := 0, value := 0x62, description := "98" },
       { type := 32, value := 1, description := "" },
       { type := 35, value := 1, description := "" }] ∧
    (buildInputSet specExtern sampleOps sampleBuildEditor).input_set.Pairwise
      (fun a b => sampleOps.lt a b = true) ∧
    (buildInputSet specExtern sampleOps sampleBuildEditor).input_set.Nodup :=
  ⟨by decide,
   (buildInputSet_spec specExtern sampleOps
      ⟨fun a b => by simp [sampleOps], fun a b => by simp [sampleOps]⟩ sampleBuildEditor).2.1,
   (buildInputSet_spec specExtern sampleOps
      ⟨fun a b => by simp [sampleOps], fun a b => by simp [sampleOps]⟩ sampleBuildEditor).2.2.1⟩

end LibTAS
